import Mathlib

/-!
# Unit pathfinding interface (`src/fpath.c`): shallow embedding and verified properties

The C file is embedded function by function.  Conventions of the embedding:

* `SDWORD`/`int` values are mathematical integers (`Int`); signed overflow is
  undefined in C and is not modelled.  The explicit `(UBYTE)` casts of the
  source are kept as `% 256`, and so is every store of a tile coordinate into
  the waypoint fields `asPath[..].x` and `.y`, which those casts show to be
  unsigned bytes; any other field whose C type is declared in a header outside
  the sources holds the value assigned to it.
* Pointers to droids and gateways are indices (`Nat`); a nullable pointer is an
  `Option Nat`, `NULL` being `none`.
* File-scope and function-scope `static` variables are fields of one state
  record which every routine takes and returns.
* Loops with a fixed trip count recurse on that count; the retry loop of the
  hierarchical planner is driven by an explicit iteration budget and returns
  `none` when the budget is exhausted.
* Collaborators outside `fpath.c` (tile A*, gateway A*, raycaster, formation
  and droid registries, zone map) are fields of an environment record.
-/

namespace Fpath

/-! ## Map geometry -/

/-- Modelled from the spec: `TILE_SHIFT` (map.h is not part of the sources);
the spec fixes `TILE_UNITS = 128`, a power of two. -/
def TILE_SHIFT : Nat := 7

/-- Modelled from the spec: `TILE_UNITS` (map.h), the world size of a tile. -/
def TILE_UNITS : Int := 128

/-- Modelled from the spec: `map_coord(w) = w >> TILE_SHIFT`, an arithmetic
shift, i.e. the floor of `w / TILE_UNITS`. -/
def map_coord (worldCoord : Int) : Int := worldCoord / TILE_UNITS

/-- Modelled from the spec: `world_coord(t)`, the world coordinate of the
origin of tile `t`. -/
def world_coord (mapCoord : Int) : Int := mapCoord * TILE_UNITS

/-- Modelled from the spec: `w & ~TILE_MASK`, the world coordinate with the
low `TILE_SHIFT` bits cleared, which is the origin of the tile holding `w`. -/
def clearTileMask (w : Int) : Int := w - w % TILE_UNITS

/-- Modelled from the spec: terrain kinds returned by `terrainType` (map.h);
only `TER_CLIFFFACE` and `TER_WATER` are named in `fpath.c`. -/
inductive TYPE_OF_TERRAIN where
  | TER_SAND
  | TER_SANDYBRUSH
  | TER_BAKEDEARTH
  | TER_GREENMUD
  | TER_REDBRUSH
  | TER_PINKROCK
  | TER_ROAD
  | TER_WATER
  | TER_CLIFFFACE
  | TER_RUBBLE
  | TER_SHEETICE
  | TER_SLUSH
  deriving DecidableEq, Repr

open TYPE_OF_TERRAIN

/-- Modelled from the spec: the `MAPTILE` record (map.h).  Each field is the
value of the accessor macro that `fpath.c` applies to a tile:
`fpathBlock` is `tileInfoBits & BITS_FPATHBLOCK`, `occupied` is
`TileIsOccupied`, `notBlocking` is `TILE_IS_NOTBLOCKING`, `tallStructure` is
`TileHasTallStructure` and `terrain` is `terrainType`. -/
structure MAPTILE where
  fpathBlock : Bool
  occupied : Bool
  notBlocking : Bool
  tallStructure : Bool
  terrain : TYPE_OF_TERRAIN
  deriving DecidableEq, Repr

/-- Modelled from the spec: the map globals of map.h.  `psMapTiles x y` is the
tile that `mapTile(x, y)` points to. -/
structure MAP where
  mapWidth : Int
  mapHeight : Int
  scrollMinX : Int
  scrollMinY : Int
  scrollMaxX : Int
  scrollMaxY : Int
  psMapTiles : Int → Int → MAPTILE

/-- Modelled from the spec: `mapTile(x, y)` (map.h). -/
def mapTile (m : MAP) (x y : Int) : MAPTILE := m.psMapTiles x y

/-- Modelled from the spec: `tileOnMap(x, y)` (map.h), the tile lies inside
the map rectangle. -/
def tileOnMap (m : MAP) (x y : Int) : Bool :=
  decide (0 ≤ x) && decide (x < m.mapWidth) && decide (0 ≤ y) && decide (y < m.mapHeight)

/-- Store through the pointer returned by `mapTile(x, y)`. -/
def setMapTile (m : MAP) (x y : Int) (t : MAPTILE) : MAP :=
  { m with psMapTiles := fun a b => if a = x ∧ b = y then t else m.psMapTiles a b }

/-! ## Blocking predicates -/

/-- Check if the map tile at a location blocks a droid
(`fpathGroundBlockingTile`). -/
def fpathGroundBlockingTile (m : MAP) (x y : Int) : Bool :=
  if x < m.scrollMinX + 1
      ∨ y < m.scrollMinY + 1
      ∨ x ≥ m.scrollMaxX - 1
      ∨ y ≥ m.scrollMaxY - 1 then
    true
  else
    let psTile := mapTile m x y
    if psTile.fpathBlock = true
        ∨ (psTile.occupied = true ∧ ¬ psTile.notBlocking = true)
        ∨ psTile.terrain = TER_CLIFFFACE
        ∨ psTile.terrain = TER_WATER then
      true
    else
      false

/-- Check if the map tile at a location blocks a hover droid
(`fpathHoverBlockingTile`). -/
def fpathHoverBlockingTile (m : MAP) (x y : Int) : Bool :=
  if x < m.scrollMinX + 1
      ∨ y < m.scrollMinY + 1
      ∨ x ≥ m.scrollMaxX - 1
      ∨ y ≥ m.scrollMaxY - 1 then
    true
  else
    let psTile := mapTile m x y
    if psTile.fpathBlock = true
        ∨ (psTile.occupied = true ∧ ¬ psTile.notBlocking = true)
        ∨ psTile.terrain = TER_CLIFFFACE then
      true
    else
      false

/-- Check if the map tile at a location blocks a VTOL droid
(`fpathLiftBlockingTile`). -/
def fpathLiftBlockingTile (m : MAP) (x y : Int) : Bool :=
  if x < 1 ∨ y < 1 ∨ x ≥ m.mapWidth - 1 ∨ y ≥ m.mapHeight - 1 then
    true
  else
    let psTile := mapTile m x y
    psTile.tallStructure

/-- Check if an edge map tile blocks a vtol, for sliding at the map edge
(`fpathLiftSlideBlockingTile`). -/
def fpathLiftSlideBlockingTile (m : MAP) (x y : Int) : Bool :=
  if x < 1 ∨ y < 1 ∨ x ≥ m.mapWidth - 1 ∨ y ≥ m.mapHeight - 1 then
    true
  else
    false

/-- Values of the function pointer `fpathBlockingTile`: the three predicates
that `fpathInitialise`, `fpathSetBlockingTile` and `fpathRoute` install. -/
inductive BLOCKING_FN where
  | Ground
  | Hover
  | Lift
  deriving DecidableEq, Repr

/-- Call through the function pointer `fpathBlockingTile`. -/
def callBlockingTile (f : BLOCKING_FN) (m : MAP) (x y : Int) : Bool :=
  match f with
  | BLOCKING_FN.Ground => fpathGroundBlockingTile m x y
  | BLOCKING_FN.Hover => fpathHoverBlockingTile m x y
  | BLOCKING_FN.Lift => fpathLiftBlockingTile m x y

/-! ## Gateways -/

/-- Modelled from the spec: a link of a gateway to a neighbouring gateway
(gateway.h); the fields are the flag bits `GWRL_PARENT`, `GWRL_CHILD` and
`GWRL_BLOCKED` of its `flags` word. -/
structure GATEWAY_LINK where
  GWRL_PARENT : Bool
  GWRL_CHILD : Bool
  GWRL_BLOCKED : Bool
  deriving DecidableEq, Repr

/-- Modelled from the spec: the `GATEWAY` record (gateway.h).  `GWR_WATERLINK`,
`GWR_ZONE1` and `GWR_IGNORE` are the flag bits of `flags` that `fpath.c`
tests; `psRoute` points to the next gateway of the current high-level
route. -/
structure GATEWAY where
  x1 : Int
  y1 : Int
  x2 : Int
  y2 : Int
  zone1 : Int
  zone2 : Int
  GWR_WATERLINK : Bool
  GWR_ZONE1 : Bool
  GWR_IGNORE : Bool
  psRoute : Option Nat
  zone1Links : Nat
  zone2Links : Nat
  psLinks : List GATEWAY_LINK
  deriving DecidableEq, Repr

/-- The values taken by `pos` in `for (pos = lo; pos <= hi; pos += 1)`. -/
def forRange (lo hi : Int) : List Int :=
  (List.range (hi + 1 - lo).toNat).map (fun i => lo + (i : Int))

/-- Apply `tileInfoBits |= BITS_FPATHBLOCK` (for `b = true`) or
`tileInfoBits &= ~BITS_FPATHBLOCK` (for `b = false`) to the tile at `(x, y)`. -/
def writeFpathBlock (b : Bool) (m : MAP) (x y : Int) : MAP :=
  setMapTile m x y { mapTile m x y with fpathBlock := b }

/-- Run a loop whose body is the single store `writeFpathBlock b` over the
tiles it visits, in order. -/
def writeFpathBlocks (b : Bool) (m : MAP) (tiles : List (Int × Int)) : MAP :=
  tiles.foldl (fun acc p => writeFpathBlock b acc p.1 p.2) m

/-- Check whether a WORLD coordinate point is within a gateway's tiles
(`fpathPointInGateway`). -/
def fpathPointInGateway (x y : Int) (psGate : GATEWAY) : Bool :=
  let x := map_coord x
  let y := map_coord y
  if (x ≥ psGate.x1) ∧ (x ≤ psGate.x2) ∧ (y ≥ psGate.y1) ∧ (y ≤ psGate.y2) then
    true
  else
    false

/-- Tiles visited by the two segment loops over one gateway: the column
`x1` for `y1..y2` when `x1 == x2`, else the row `y1` for `x1..x2`. -/
def gatewaySegmentTiles (psCurr : GATEWAY) : List (Int × Int) :=
  if psCurr.x1 = psCurr.x2 then
    (forRange psCurr.y1 psCurr.y2).map (fun pos => (psCurr.x1, pos))
  else
    (forRange psCurr.x1 psCurr.x2).map (fun pos => (pos, psCurr.y1))

/-- Tiles selected by the nested `tx`/`ty` loops around a route gateway: the
ring `x1-1..x2+1` by `y1-1..y2+1`, outside the gateway, on the map and in
zone `blockZone`. -/
def gatewayRingTiles (gwGetZone : Int → Int → Int) (m : MAP) (psGate : GATEWAY)
    (blockZone : Int) : List (Int × Int) :=
  (forRange (psGate.x1 - 1) (psGate.x2 + 1)).flatMap (fun tx =>
    ((forRange (psGate.y1 - 1) (psGate.y2 + 1)).filter (fun ty =>
        !fpathPointInGateway (world_coord tx) (world_coord ty) psGate
          && tileOnMap m tx ty && decide (gwGetZone tx ty = blockZone))).map
      (fun ty => (tx, ty)))

/-- Set blocking flags for all gateways around a zone
(`fpathSetGatewayBlock`).  `gw` is the store of gateway records, `psGateways`
the linked list of all gateways as the sequence of its nodes. -/
def fpathSetGatewayBlock (gwGetZone : Int → Int → Int) (gw : Nat → GATEWAY)
    (psGateways : List Nat) (zone : Int) (psLast psNext : Option Nat) (m : MAP) : MAP :=
  let m1 := psGateways.foldl (fun acc psCurr =>
    if some psCurr ≠ psLast ∧ some psCurr ≠ psNext ∧ ¬ (gw psCurr).GWR_WATERLINK = true
        ∧ ((gw psCurr).zone1 = zone ∨ (gw psCurr).zone2 = zone) then
      writeFpathBlocks true acc (gatewaySegmentTiles (gw psCurr))
    else acc) m
  let m2 :=
    match psLast with
    | none => m1
    | some l =>
      let blockZone := if (gw l).GWR_ZONE1 then (gw l).zone1 else (gw l).zone2
      writeFpathBlocks true m1 (gatewayRingTiles gwGetZone m1 (gw l) blockZone)
  match psNext with
  | none => m2
  | some n =>
    let blockZone := if (gw n).GWR_ZONE1 then (gw n).zone2 else (gw n).zone1
    writeFpathBlocks true m2 (gatewayRingTiles gwGetZone m2 (gw n) blockZone)

/-- Clear blocking flags for all gateways around a zone
(`fpathClearGatewayBlock`). -/
def fpathClearGatewayBlock (gwGetZone : Int → Int → Int) (gw : Nat → GATEWAY)
    (psGateways : List Nat) (zone : Int) (psLast psNext : Option Nat) (m : MAP) : MAP :=
  let m1 := psGateways.foldl (fun acc psCurr =>
    if ¬ (gw psCurr).GWR_WATERLINK = true
        ∧ ((gw psCurr).zone1 = zone ∨ (gw psCurr).zone2 = zone) then
      writeFpathBlocks false acc (gatewaySegmentTiles (gw psCurr))
    else acc) m
  let m2 :=
    match psLast with
    | none => m1
    | some l =>
      let blockZone := if (gw l).GWR_ZONE1 then (gw l).zone1 else (gw l).zone2
      writeFpathBlocks false m1 (gatewayRingTiles gwGetZone m1 (gw l) blockZone)
  match psNext with
  | none => m2
  | some n =>
    let blockZone := if (gw n).GWR_ZONE1 then (gw n).zone2 else (gw n).zone1
    writeFpathBlocks false m2 (gatewayRingTiles gwGetZone m2 (gw n) blockZone)

/-- Inner loop of `fpathClearIgnore`: `psLinks[link].flags &= ~GWRL_BLOCKED`
for `link = 0 .. numLinks - 1`; `link` is the index of the head of the
remaining links. -/
def clearLinksBlocked (numLinks : Nat) : Nat → List GATEWAY_LINK → List GATEWAY_LINK
  | _, [] => []
  | link, l :: rest =>
    (if link < numLinks then { l with GWRL_BLOCKED := false } else l)
      :: clearLinksBlocked numLinks (link + 1) rest

/-- Clear the routing ignore flags for the gateways (`fpathClearIgnore`). -/
def fpathClearIgnore (gw : Nat → GATEWAY) (psGateways : List Nat) : Nat → GATEWAY :=
  psGateways.foldl (fun acc psCurr =>
    Function.update acc psCurr
      { acc psCurr with
        GWR_IGNORE := false
        psLinks := clearLinksBlocked ((acc psCurr).zone1Links + (acc psCurr).zone2Links) 0
          (acc psCurr).psLinks }) gw

/-- Modelled from the spec: `SDWORD_MAX` (types.h), the largest `SDWORD`. -/
def SDWORD_MAX : Int := 2147483647

/-- One pass of the scan loops of `fpathGatewayCoords`; the loop state is
`(x, y, dist)`. -/
def gatewayCoordsStep (blocking : Int → Int → Bool) (mid : Int)
    (tile : Int → Int × Int) (st : Int × Int × Int) (pos : Int) : Int × Int × Int :=
  if ¬ blocking (tile pos).1 (tile pos).2 = true ∧ |pos - mid| < st.2.2 then
    ((tile pos).1, (tile pos).2, |pos - mid|)
  else
    st

/-- Find a clear tile on a gateway to route to (`fpathGatewayCoords`); the
result is `(*px, *py)`.  `blocking` is the installed `fpathBlockingTile`. -/
def fpathGatewayCoords (blocking : Int → Int → Bool) (psGate : GATEWAY) : Int × Int :=
  let mx := Int.tdiv (psGate.x1 + psGate.x2) 2
  let my := Int.tdiv (psGate.y1 + psGate.y2) 2
  let st0 : Int × Int × Int := (0, 0, SDWORD_MAX)
  let st :=
    if psGate.x1 = psGate.x2 then
      (forRange psGate.y1 psGate.y2).foldl
        (gatewayCoordsStep blocking my (fun pos => (psGate.x1, pos))) st0
    else
      (forRange psGate.x1 psGate.x2).foldl
        (gatewayCoordsStep blocking mx (fun pos => (pos, psGate.y1))) st0
  let xy : Int × Int := if st.2.2 = SDWORD_MAX then (mx, my) else (st.1, st.2.1)
  ((xy.1 * TILE_UNITS) + Int.tdiv TILE_UNITS 2, (xy.2 * TILE_UNITS) + Int.tdiv TILE_UNITS 2)

/-- Set `GWRL_BLOCKED` on the first `numLinks` links that satisfy `sel`. -/
def blockLinks (sel : GATEWAY_LINK → Bool) (numLinks : Nat) :
    Nat → List GATEWAY_LINK → List GATEWAY_LINK
  | _, [] => []
  | link, l :: rest =>
    (if link < numLinks ∧ sel l = true then { l with GWRL_BLOCKED := true } else l)
      :: blockLinks sel numLinks (link + 1) rest

/-- One of the two link loops of `fpathBlockGatewayLink`, run on gateway
`psGate`: block its links selected by `sel`. -/
def blockGatewayLinks (sel : GATEWAY_LINK → Bool) (psGate : GATEWAY) : GATEWAY :=
  let numLinks := psGate.zone1Links + psGate.zone2Links
  { psGate with psLinks := blockLinks sel numLinks 0 psGate.psLinks }

/-- Mark a gateway or the link between two gateways as unusable
(`fpathBlockGatewayLink`). -/
def fpathBlockGatewayLink (gw : Nat → GATEWAY) (psLast psCurr : Option Nat) :
    Nat → GATEWAY :=
  match psLast, psCurr with
  | none, some c => Function.update gw c { gw c with GWR_IGNORE := true }
  | some l, none => Function.update gw l { gw l with GWR_IGNORE := true }
  | some l, some c =>
    let gw1 := Function.update gw l (blockGatewayLinks (fun k => k.GWRL_CHILD) (gw l))
    Function.update gw1 c (blockGatewayLinks (fun k => k.GWRL_PARENT) (gw1 c))
  | none, none => gw

/-! ## Move control and A* routes -/

/-- Modelled from the spec: movement status of a droid (movedef.h); only
`MOVEWAITROUTE` is named in `fpath.c`. -/
inductive MOVE_STATUS where
  | MOVEINACTIVE
  | MOVENAVIGATE
  | MOVETURN
  | MOVEPAUSE
  | MOVEPOINTTOPOINT
  | MOVETURNSTOP
  | MOVETURNTOTARGET
  | MOVEROUTE
  | MOVEHOVER
  | MOVEDRIVE
  | MOVEWAITROUTE
  | MOVESHUFFLE
  | MOVEROUTESHUFFLE
  deriving DecidableEq, Repr

open MOVE_STATUS

/-- Modelled from the spec: a tile-coordinate point, as stored in
`MOVE_CONTROL.asPath` and in `ASTAR_ROUTE.asPos`. -/
structure PATH_POINT where
  x : Int
  y : Int
  deriving DecidableEq, Repr

/-- Modelled from the spec: the move control block of a droid (movedef.h).
`asPath` is the waypoint array, indexed from 0; `psFormation` points to the
formation the droid belongs to. -/
structure MOVE_CONTROL where
  Status : MOVE_STATUS
  numPoints : Nat
  asPath : Nat → PATH_POINT
  DestinationX : Int
  DestinationY : Int
  psFormation : Option Nat

/-- Modelled from the spec: the result record of the tile A* (astar.h). -/
structure ASTAR_ROUTE where
  asPos : Nat → PATH_POINT
  finalX : Int
  finalY : Int
  numPoints : Int

/-- Modelled from the spec: propulsion classes (stats); `fpath.c` names
`HOVER` and `LIFT` and treats every other class as ground. -/
inductive PROPULSION_TYPE where
  | WHEELED
  | TRACKED
  | LEGGED
  | HOVER
  | SKI
  | LIFT
  | PROPELLOR
  | HALF_TRACKED
  | JUMP
  deriving DecidableEq, Repr

/-- Modelled from the spec: the fields of a `DROID` that `fpath.c` reads or
writes.  `died` is non-zero for a dead droid; `propulsionType` is
`asPropulsionStats[asBits[COMP_PROPULSION].nStat].propulsionType`. -/
structure DROID where
  pos_x : Int
  pos_y : Int
  died : Nat
  player : Nat
  propulsionType : PROPULSION_TYPE
  sMove : MOVE_CONTROL

/-- Force a one-waypoint route straight to the target
(`fpathSetDirectRoute`).  The waypoint fields `asPath[..].x` and `.y` are
unsigned bytes, as the `(UBYTE)` casts of `fpathAppendRoute` on the same fields
show, so the assignment of the `SDWORD` value `map_coord(target)` keeps its
low 8 bits. -/
def fpathSetDirectRoute (psDroid : DROID) (targetX targetY : Int) : DROID :=
  let psMoveCntl := psDroid.sMove
  { psDroid with
    sMove :=
      { psMoveCntl with
        DestinationX := targetX
        DestinationY := targetY
        numPoints := 1
        asPath := Function.update psMoveCntl.asPath 0
          { x := map_coord targetX % 256, y := map_coord targetY % 256 } } }

/-- The `while` loop of `fpathAppendRoute`.  The first argument is
`TRAVELSIZE - mi`, so it is zero exactly when `mi < TRAVELSIZE` fails; the
result is the final `ai` and the waypoint array. -/
def fpathAppendRouteLoop (psAStarRoute : ASTAR_ROUTE) :
    Nat → Nat → Nat → (Nat → PATH_POINT) → Nat × (Nat → PATH_POINT)
  | 0, _, ai, asPath => (ai, asPath)
  | room + 1, mi, ai, asPath =>
    if (ai : Int) < psAStarRoute.numPoints then
      fpathAppendRouteLoop psAStarRoute room (mi + 1) (ai + 1)
        (Function.update asPath mi
          { x := (psAStarRoute.asPos ai).x % 256, y := (psAStarRoute.asPos ai).y % 256 })
    else
      (ai, asPath)

/-- Append an astar route onto a move-control route (`fpathAppendRoute`). -/
def fpathAppendRoute (TRAVELSIZE : Nat) (psMoveCntl : MOVE_CONTROL)
    (psAStarRoute : ASTAR_ROUTE) : MOVE_CONTROL :=
  let mi := psMoveCntl.numPoints
  let r := fpathAppendRouteLoop psAStarRoute (TRAVELSIZE - mi) mi 0 psMoveCntl.asPath
  { psMoveCntl with
    asPath := r.2
    numPoints := (psMoveCntl.numPoints + r.1) % 256
    DestinationX := world_coord psAStarRoute.finalX + Int.tdiv TILE_UNITS 2
    DestinationY := world_coord psAStarRoute.finalY + Int.tdiv TILE_UNITS 2 }

/-- Check if a new route is closer to the target than the one stored in the
droid (`fpathRouteCloser`). -/
def fpathRouteCloser (psMoveCntl : MOVE_CONTROL) (psAStarRoute : ASTAR_ROUTE)
    (tx ty : Int) : Bool :=
  if psAStarRoute.numPoints = 0 then
    false
  else if psMoveCntl.numPoints = 0 then
    true
  else
    let xdiff := world_coord (psMoveCntl.asPath (psMoveCntl.numPoints - 1)).x
      + Int.tdiv TILE_UNITS 2 - tx
    let ydiff := world_coord (psMoveCntl.asPath (psMoveCntl.numPoints - 1)).y
      + Int.tdiv TILE_UNITS 2 - ty
    let prevDist := xdiff * xdiff + ydiff * ydiff
    let xdiff := world_coord psAStarRoute.finalX + Int.tdiv TILE_UNITS 2 - tx
    let ydiff := world_coord psAStarRoute.finalY + Int.tdiv TILE_UNITS 2 - ty
    let nextDist := xdiff * xdiff + ydiff * ydiff
    if nextDist < prevDist then
      true
    else
      false

/-- The adopt step of the planner:
`if (fpathRouteCloser(..)) { numPoints = 0; fpathAppendRoute(..); }`. -/
def adoptCloserRoute (TRAVELSIZE : Nat) (psMoveCntl : MOVE_CONTROL)
    (psAStarRoute : ASTAR_ROUTE) (fx fy : Int) : MOVE_CONTROL :=
  if fpathRouteCloser psMoveCntl psAStarRoute fx fy = true then
    fpathAppendRoute TRAVELSIZE { psMoveCntl with numPoints := 0 } psAStarRoute
  else
    psMoveCntl

/-! ## Module state and collaborators -/

/-- Modelled from the spec: return values of `fpathRoute` (fpath.h). -/
inductive FPATH_RETVAL where
  | FPR_OK
  | FPR_FAILED
  | FPR_WAIT
  | FPR_RESCHEDULE
  deriving DecidableEq, Repr

/-- Modelled from the spec: return values of the tile A* `fpathAStarRoute`
(astar.h). -/
inductive ASR_RETVAL where
  | ASR_OK
  | ASR_FAILED
  | ASR_PARTIAL
  | ASR_NEAREST
  deriving DecidableEq, Repr

/-- Modelled from the spec: values of the `routeMode` argument (astar.h). -/
inductive ASR_MODE where
  | ASR_NEWROUTE
  | ASR_CONTINUE
  deriving DecidableEq, Repr

/-- Modelled from the spec: return values of the gateway A* `gwrAStarRoute`
(gatewayroute.h). -/
inductive GWR_RETVAL where
  | GWR_OK
  | GWR_NEAREST
  | GWR_FAILED
  | GWR_SAMEZONE
  | GWR_NOZONE
  deriving DecidableEq, Repr

/-- Modelled from the spec: gateway terrain masks passed to the gateway A*
(gatewayroute.h). -/
inductive GWR_TERRAIN where
  | GWR_TER_ALL
  | GWR_TER_LAND
  deriving DecidableEq, Repr

open FPATH_RETVAL ASR_RETVAL ASR_MODE GWR_RETVAL GWR_TERRAIN PROPULSION_TYPE

/-- The mutable state that `fpath.c` works on: the map, the gateway and droid
records (addressed by pointer), the file-scope variables of `fpath.c`, the
`static` locals of `fpathGatewayRoute`, and a counter of the calls made to the
collaborators. -/
structure WORLD where
  map : MAP
  gw : Nat → GATEWAY
  psGateways : List Nat
  droid : Nat → DROID
  fpathBlockingTile : BLOCKING_FN
  psPartialRouteDroid : Option Nat
  partialSX : Int
  partialSY : Int
  partialTX : Int
  partialTY : Int
  lastPartialFrame : Int
  finalX : Int
  finalY : Int
  vectorX : Int
  vectorY : Int
  clearX : Int
  clearY : Int
  obstruction : Bool
  linkx : Int
  linky : Int
  gwx : Int
  gwy : Int
  asret : ASR_RETVAL
  matchPoints : Int
  sAStarRoute : ASTAR_ROUTE
  psCurrRoute : Option Nat
  psGWRoute : Option Nat
  psLastGW : Option Nat
  bFirstRoute : Bool
  clock : Nat

/-- Modelled from the spec: what `fpath.c` consumes from its collaborators
during one call.  `TRAVELSIZE` and `FPATH_LOOP_LIMIT` are constants of headers
that are not part of the sources; `astarInner` and `psNextRouteDroid` are
globals owned by other modules.  The answers of the gateway A*, of the tile A*
and of `actionRouteBlockingPos` may depend on the call counter `clock` and on
their arguments; `gwrAStarRoute` returns its verdict, the route head written
through `ppsRoute` and the gateway records as it leaves them;
`fpathAStarRoute` is also given the blocking predicate in force and returns
its verdict and the route record; `rayCast sx sy fx fy` is the sequence of
samples `(x, y, dist)` that the raycaster offers to its callback when cast
from `(sx, sy)` towards `(fx, fy)`. -/
structure ENV where
  TRAVELSIZE : Nat
  FPATH_LOOP_LIMIT : Int
  astarInner : Int
  psNextRouteDroid : Option Nat
  frameGetFrameNumber : Int
  gwGetZone : Int → Int → Int
  isVtolDroid : Nat → Bool
  actionRouteBlockingPos : Nat → Nat → Int → Int → Bool
  gwrAStarRoute : Nat → Nat → GWR_TERRAIN → Int → Int → Int → Int → (Nat → GATEWAY) →
    GWR_RETVAL × Option Nat × (Nat → GATEWAY)
  fpathAStarRoute : Nat → ASR_MODE → ASTAR_ROUTE → Int → Int → Int → Int →
    (Int → Int → Bool) → ASR_RETVAL × ASTAR_ROUTE
  rayCast : Int → Int → Int → Int → List (Int × Int × Int)
  formationFind : Int → Int → Option Nat
  apsDroidLists : Nat → List Nat

/-- Store a move control block through `&psDroid->sMove`. -/
def setMove (s : WORLD) (psDroid : Nat) (mc : MOVE_CONTROL) : WORLD :=
  { s with droid := Function.update s.droid psDroid { s.droid psDroid with sMove := mc } }

/-- Initialise the findpath module (`fpathInitialise`). -/
def fpathInitialise (s : WORLD) : Bool × WORLD :=
  (true, { s with fpathBlockingTile := BLOCKING_FN.Ground, psPartialRouteDroid := none })

/-- Updates the pathfinding system (`fpathUpdate`). -/
def fpathUpdate (env : ENV) (s : WORLD) : WORLD :=
  match s.psPartialRouteDroid with
  | none => s
  | some p =>
    if (s.droid p).died ≠ 0
        ∨ (s.droid p).sMove.Status ≠ MOVEWAITROUTE
        ∨ (s.lastPartialFrame + 5) < env.frameGetFrameNumber then
      { s with psPartialRouteDroid := none }
    else
      s

/-- Binary search for the integer square root of `n`: `acc` is the root found
so far and the first argument is the number of lower bits still to decide. -/
def trigIntSqrtBits (n : Nat) : Nat → Nat → Nat
  | 0, acc => acc
  | k + 1, acc =>
    trigIntSqrtBits n k (if (acc + 2 ^ k) * (acc + 2 ^ k) ≤ n then acc + 2 ^ k else acc)

/-- Modelled from the spec: `trigIntSqrt` (trig.c), the integer square root
of a 32-bit value: the largest `r` with `r * r <= val`. -/
def trigIntSqrt (val : Int) : Int := (trigIntSqrtBits val.toNat 16 0 : Nat)

/-- Calculate the distance to a tile from a point (`fpathDistToTile`). -/
def fpathDistToTile (tileX tileY pointX pointY : Int) : Int :=
  let xdiff := world_coord tileX - pointX
  let ydiff := world_coord tileY - pointY
  trigIntSqrt (xdiff * xdiff + ydiff * ydiff)

/-- The condition asserted by `fpathDistToTile`:
`ASSERT(xdiff != 0 || ydiff != 0, ..)`. -/
def fpathDistToTileAssert (tileX tileY pointX pointY : Int) : Bool :=
  let xdiff := world_coord tileX - pointX
  let ydiff := world_coord tileY - pointY
  decide (xdiff ≠ 0 ∨ ydiff ≠ 0)

/-- Callback to find the first clear tile before an obstructed target
(`fpathEndPointCallback`). -/
def fpathEndPointCallback (s : WORLD) (x y _dist : Int) : Bool × WORLD :=
  let vx := x - s.finalX
  let vy := y - s.finalY
  if vx * s.vectorX + vy * s.vectorY ≤ 0 then
    (false, s)
  else if ¬ callBlockingTile s.fpathBlockingTile s.map (map_coord x) (map_coord y) = true then
    (true, { s with
      clearX := clearTileMask x + Int.tdiv TILE_UNITS 2
      clearY := clearTileMask y + Int.tdiv TILE_UNITS 2 })
  else
    (true, { s with obstruction := true })

/-- Modelled from the spec: `rayCast(.., fpathEndPointCallback)` (raycast.c)
offers its samples to the callback in order and stops at the first one for
which the callback returns false. -/
def rayCast : List (Int × Int × Int) → WORLD → WORLD
  | [], s => s
  | p :: rest, s =>
    let r := fpathEndPointCallback s p.1 p.2.1 p.2.2
    if r.1 = true then rayCast rest r.2 else r.2

/-- Set the correct blocking tile function (`fpathSetBlockingTile`). -/
def fpathSetBlockingTile (ubPropulsionType : PROPULSION_TYPE) (s : WORLD) : WORLD :=
  match ubPropulsionType with
  | HOVER => { s with fpathBlockingTile := BLOCKING_FN.Hover }
  | LIFT => { s with fpathBlockingTile := BLOCKING_FN.Lift }
  | _ => { s with fpathBlockingTile := BLOCKING_FN.Ground }

/-- The `for` loop of `fpathFindFirstRoutePoint`.  The first argument is the
number of indices left below `numPoints`; the result is the return value and
the final `*pIndex`. -/
def fpathFindFirstRoutePointLoop (psMove : MOVE_CONTROL) (x1 y1 x2 y2 : Int) :
    Nat → Nat → Bool × Nat
  | 0, pIndex => (false, pIndex)
  | left + 1, pIndex =>
    let vx1 := x1 - (psMove.asPath pIndex).x
    let vy1 := y1 - (psMove.asPath pIndex).y
    let vx2 := x2 - (psMove.asPath pIndex).x
    let vy2 := y2 - (psMove.asPath pIndex).y
    if (vx1 * vx2 + vy1 * vy2) < 0 then
      (true, pIndex)
    else
      fpathFindFirstRoutePointLoop psMove x1 y1 x2 y2 left (pIndex + 1)

/-- Find the first point on the route which has both droids on the same side
of it (`fpathFindFirstRoutePoint`). -/
def fpathFindFirstRoutePoint (psMove : MOVE_CONTROL) (x1 y1 x2 y2 : Int) : Bool × Nat :=
  fpathFindFirstRoutePointLoop psMove x1 y1 x2 y2 psMove.numPoints 0

/-- The copy loop of `fpathFindRoute`:
`for (i = index; i < numPoints; i++) asPath[i] = psCurr->sMove.asPath[i]`. -/
def copyRoutePoints (index numPoints : Nat) (src dst : Nat → PATH_POINT) : Nat → PATH_POINT :=
  (List.range' index (numPoints - index)).foldl (fun acc i => Function.update acc i (src i)) dst

/-- The droid loop of `fpathFindRoute`, over the droids of the player's
list. -/
def fpathFindRouteLoop (env : ENV) (psDroid : Nat) (sX sY : Int) (psFormation : Nat) :
    List Nat → WORLD → Bool × WORLD
  | [], s => (false, s)
  | psCurr :: rest, s =>
    if psCurr ≠ psDroid
        ∧ some psCurr ≠ s.psPartialRouteDroid
        ∧ (s.droid psCurr).sMove.psFormation = some psFormation
        ∧ (s.droid psCurr).sMove.numPoints > 0 then
      let r := fpathFindFirstRoutePoint (s.droid psCurr).sMove sX sY
        (s.droid psCurr).pos_x (s.droid psCurr).pos_y
      if ¬ r.1 = true then
        fpathFindRouteLoop env psDroid sX sY psFormation rest s
      else
        let index := r.2
        let startX := clearTileMask sX + Int.tdiv TILE_UNITS 2
        let startY := clearTileMask sY + Int.tdiv TILE_UNITS 2
        let finalX := ((s.droid psCurr).sMove.asPath index).x * TILE_UNITS + Int.tdiv TILE_UNITS 2
        let finalY := ((s.droid psCurr).sMove.asPath index).y * TILE_UNITS + Int.tdiv TILE_UNITS 2
        let s1 := { s with
          finalX := finalX
          finalY := finalY
          clearX := finalX
          clearY := finalY
          vectorX := startX - finalX
          vectorY := startY - finalY
          obstruction := false }
        let s2 := rayCast (env.rayCast startX startY s1.finalX s1.finalY) s1
        if ¬ s2.obstruction = true then
          let other := (s2.droid psCurr).sMove
          let mine := (s2.droid psDroid).sMove
          (true, setMove s2 psDroid
            { mine with
              asPath := copyRoutePoints index other.numPoints other.asPath mine.asPath
              numPoints := other.numPoints })
        else
          fpathFindRouteLoop env psDroid sX sY psFormation rest s2
    else
      fpathFindRouteLoop env psDroid sX sY psFormation rest s

/-- See if there is another unit on your side that has a route this unit can
use (`fpathFindRoute`). -/
def fpathFindRoute (env : ENV) (psDroid : Nat) (sX sY tX tY : Int) (s : WORLD) :
    Bool × WORLD :=
  match env.formationFind tX tY with
  | none => (false, s)
  | some psFormation =>
    fpathFindRouteLoop env psDroid sX sY psFormation
      (env.apsDroidLists (s.droid psDroid).player) s

/-! ## Hierarchical planner -/

/-- The bracket of the planner, lines `fpathSetGatewayBlock(..)`,
`asret = fpathAStarRoute(..)`, `fpathClearGatewayBlock(..)`: the tile A* runs
on the map with the overlay set, and the overlay is removed afterwards. -/
def fpathRouteBracket (env : ENV) (routeMode : ASR_MODE) (zone : Int) (s : WORLD) : WORLD :=
  let mBlocked :=
    fpathSetGatewayBlock env.gwGetZone s.gw s.psGateways zone s.psLastGW s.psCurrRoute s.map
  let a := env.fpathAStarRoute s.clock routeMode s.sAStarRoute s.linkx s.linky s.gwx s.gwy
    (callBlockingTile s.fpathBlockingTile mBlocked)
  { s with
    map := fpathClearGatewayBlock env.gwGetZone s.gw s.psGateways zone s.psLastGW
      s.psCurrRoute mBlocked
    asret := a.1
    sAStarRoute := a.2
    clock := s.clock + 1 }

/-- The adopt step on the move control block of `psDroid`. -/
def adoptStep (env : ENV) (psDroid : Nat) (fx fy : Int) (s : WORLD) : WORLD :=
  setMove s psDroid
    (adoptCloserRoute env.TRAVELSIZE (s.droid psDroid).sMove s.sAStarRoute fx fy)

/-- How the inner loop `while (!bFinished)` of `fpathGatewayRoute` is left:
by `goto exit` with a return value, by `break` with `bRouting = true`, or
with `bFinished = true`. -/
inductive WALK_RESULT where
  | Exit (retval : FPATH_RETVAL) (s : WORLD)
  | Reroute (s : WORLD)
  | Finished (s : WORLD)

/-- The state carried by a result of the inner loop. -/
def WALK_RESULT.world : WALK_RESULT → WORLD
  | WALK_RESULT.Exit _ s => s
  | WALK_RESULT.Reroute s => s
  | WALK_RESULT.Finished s => s

/-- How one pass of the inner loop ends: the loop is left, or the pass falls
through to the next one. -/
inductive HOP_RESULT where
  | Done (r : WALK_RESULT)
  | Next (s : WORLD)

/-- The state carried by the result of one pass. -/
def HOP_RESULT.world : HOP_RESULT → WORLD
  | HOP_RESULT.Done r => r.world
  | HOP_RESULT.Next s => s

/-- One pass of the inner loop `while (!bFinished)` of `fpathGatewayRoute`:
choose the hop target, run the bracketed tile A*, interpret its verdict and
advance along the chain. -/
def fpathGatewayRouteHop (env : ENV) (psDroid : Nat) (fx fy : Int) (routeMode : ASR_MODE)
    (s : WORLD) : HOP_RESULT :=
  let hop : Int × Int × Int :=
    match s.psCurrRoute with
    | none => (fx, fy, env.gwGetZone (map_coord fx) (map_coord fy))
    | some c =>
      if (s.gw c).psRoute = none ∧ fpathPointInGateway fx fy (s.gw c) = true then
        (fx, fy, env.gwGetZone (map_coord fx) (map_coord fy))
      else
        let p := fpathGatewayCoords (callBlockingTile s.fpathBlockingTile s.map) (s.gw c)
        (p.1, p.2, if (s.gw c).GWR_ZONE1 then (s.gw c).zone1 else (s.gw c).zone2)
  let s1 := fpathRouteBracket env routeMode hop.2.2 { s with gwx := hop.1, gwy := hop.2.1 }
  if s1.asret = ASR_PARTIAL then
    HOP_RESULT.Done (WALK_RESULT.Exit FPR_WAIT s1)
  else if s1.asret = ASR_NEAREST
      ∧ env.actionRouteBlockingPos s1.clock psDroid s1.sAStarRoute.finalX
          s1.sAStarRoute.finalY = true then
    HOP_RESULT.Done (WALK_RESULT.Exit FPR_OK s1)
  else if s1.asret = ASR_NEAREST ∧ s1.psGWRoute = none then
    HOP_RESULT.Done (WALK_RESULT.Exit FPR_OK (adoptStep env psDroid fx fy s1))
  else if s1.asret = ASR_FAILED ∧ s1.psGWRoute = none then
    HOP_RESULT.Done (WALK_RESULT.Exit FPR_FAILED s1)
  else if s1.asret = ASR_FAILED ∨ s1.asret = ASR_NEAREST then
    let s2 := adoptStep env psDroid fx fy s1
    HOP_RESULT.Done (WALK_RESULT.Reroute
      { s2 with gw := fpathBlockGatewayLink s2.gw s2.psLastGW s2.psCurrRoute })
  else
    let s2 := { s1 with linkx := s1.gwx, linky := s1.gwy, psLastGW := s1.psCurrRoute }
    match s2.psCurrRoute with
    | some c => HOP_RESULT.Next { s2 with psCurrRoute := (s2.gw c).psRoute }
    | none => HOP_RESULT.Done (WALK_RESULT.Finished s2)

/-- The inner loop `while (!bFinished)` of `fpathGatewayRoute`; the first
argument bounds the number of passes.  After the first pass `routeMode` is
`ASR_NEWROUTE`. -/
def fpathGatewayRouteWalk (env : ENV) (psDroid : Nat) (fx fy : Int) :
    Nat → ASR_MODE → WORLD → Option WALK_RESULT
  | 0, _, _ => none
  | fuel + 1, routeMode, s =>
    match fpathGatewayRouteHop env psDroid fx fy routeMode s with
    | HOP_RESULT.Next s1 => fpathGatewayRouteWalk env psDroid fx fy fuel ASR_NEWROUTE s1
    | HOP_RESULT.Done r => some r

/-- The gateway A* request at the head of the retry loop of
`fpathGatewayRoute` (the block under the first `routeMode == ASR_NEWROUTE`).
The first component is `some retval` when the block leaves by `goto exit`. -/
def fpathGatewayRouteRequest (env : ENV) (psDroid : Nat) (GWTerrain : GWR_TERRAIN)
    (sx sy fx fy : Int) (s : WORLD) : Option FPATH_RETVAL × WORLD :=
  let a := env.gwrAStarRoute s.clock (s.droid psDroid).player GWTerrain sx sy fx fy s.gw
  let s1 := { s with gw := a.2.2, psGWRoute := a.2.1, clock := s.clock + 1 }
  let reset := fun (w : WORLD) =>
    { w with matchPoints := 0, sAStarRoute := { w.sAStarRoute with numPoints := 0 } }
  match a.1 with
  | GWR_OK => (none, reset s1)
  | GWR_NEAREST =>
    if ¬ s1.bFirstRoute = true then
      if (s1.droid psDroid).sMove.numPoints > 0 then
        (some FPR_OK, s1)
      else
        (some FPR_FAILED, s1)
    else
      (none, reset s1)
  | GWR_NOZONE => (none, reset { s1 with psGWRoute := none })
  | GWR_SAMEZONE => (none, reset { s1 with psGWRoute := none })
  | GWR_FAILED =>
    if env.isVtolDroid psDroid = true then
      (some FPR_FAILED, s1)
    else
      (none, reset { s1 with psGWRoute := none })

/-- The chain set-up of the retry loop (the block under the second
`routeMode == ASR_NEWROUTE`): skip a first gateway that holds the start, and
reset the link point and the chain cursor. -/
def fpathGatewayRouteStart (sx sy : Int) (s : WORLD) : WORLD :=
  let s1 :=
    match s.psGWRoute with
    | some g =>
      if fpathPointInGateway sx sy (s.gw g) = true then
        { s with psGWRoute := (s.gw g).psRoute }
      else s
    | none => s
  { s1 with linkx := sx, linky := sy, psCurrRoute := s1.psGWRoute, psLastGW := none }

/-- The retry loop `while (bRouting)` of `fpathGatewayRoute`, up to the label
`exit`; the first `Nat` bounds the passes of each inner loop, the second the
passes of the retry loop. -/
def fpathGatewayRouteLoop (env : ENV) (psDroid : Nat) (GWTerrain : GWR_TERRAIN)
    (sx sy fx fy : Int) (walkFuel : Nat) :
    Nat → ASR_MODE → WORLD → Option (FPATH_RETVAL × WORLD)
  | 0, _, _ => none
  | fuel + 1, routeMode, s =>
    let r : Option FPATH_RETVAL × WORLD :=
      if routeMode = ASR_NEWROUTE then
        fpathGatewayRouteRequest env psDroid GWTerrain sx sy fx fy s
      else (none, s)
    match r.1 with
    | some retval => some (retval, r.2)
    | none =>
      let s1 := { r.2 with bFirstRoute := false }
      let s2 := if routeMode = ASR_NEWROUTE then fpathGatewayRouteStart sx sy s1 else s1
      match fpathGatewayRouteWalk env psDroid fx fy walkFuel routeMode s2 with
      | none => none
      | some (WALK_RESULT.Exit retval s3) => some (retval, s3)
      | some (WALK_RESULT.Reroute s3) =>
        fpathGatewayRouteLoop env psDroid GWTerrain sx sy fx fy walkFuel fuel ASR_NEWROUTE s3
      | some (WALK_RESULT.Finished s3) => some (FPR_OK, adoptStep env psDroid fx fy s3)

/-- The initialisation at the head of `fpathGatewayRoute`: on a new route the
gateway scratch flags are cleared, the move control and the A* scratch route
are emptied and `bFirstRoute` is set. -/
def fpathGatewayRouteInit (psDroid : Nat) (routeMode : ASR_MODE) (s : WORLD) : WORLD :=
  if routeMode = ASR_NEWROUTE then
    let s1 := { s with gw := fpathClearIgnore s.gw s.psGateways }
    let s2 := setMove s1 psDroid { (s1.droid psDroid).sMove with numPoints := 0 }
    { s2 with sAStarRoute := { s2.sAStarRoute with numPoints := 0 }, bFirstRoute := true }
  else s

/-- The code after the label `exit` of `fpathGatewayRoute`: reset the routing
block flags unless the route is to be continued. -/
def fpathGatewayRouteExit (retval : FPATH_RETVAL) (s : WORLD) : WORLD :=
  if retval ≠ FPR_WAIT then { s with gw := fpathClearIgnore s.gw s.psGateways } else s

/-- Create a final route from a gateway route (`fpathGatewayRoute`).
`psMoveCntl` is `&psDroid->sMove`, as at both call sites.  The result is
`none` when the loops do not finish within `fuel` passes. -/
def fpathGatewayRoute (env : ENV) (fuel : Nat) (psDroid : Nat) (routeMode : ASR_MODE)
    (GWTerrain : GWR_TERRAIN) (sx sy fx fy : Int) (s : WORLD) :
    Option (FPATH_RETVAL × WORLD) :=
  match fpathGatewayRouteLoop env psDroid GWTerrain sx sy fx fy fuel fuel routeMode
      (fpathGatewayRouteInit psDroid routeMode s) with
  | none => none
  | some (retval, s3) => some (retval, fpathGatewayRouteExit retval s3)

/-! ## Frame-budgeted driver -/

/-- Number of directions (`NUM_DIR`). -/
def NUM_DIR : Nat := 8

/-- Convert a direction into an offset (`aDirOffset`). -/
def aDirOffset : Nat → Int × Int
  | 0 => (0, 1)
  | 1 => (-1, 1)
  | 2 => (-1, 0)
  | 3 => (-1, -1)
  | 4 => (0, -1)
  | 5 => (1, -1)
  | 6 => (1, 0)
  | 7 => (1, 1)
  | _ => (0, 0)

/-- Body of the `for (dir = 0; dir < NUM_DIR; dir++)` loop of the start
repair; the loop state is `(minDist, nearestDir)`. -/
def startRepairStep (blocking : Int → Int → Bool) (startX startY : Int)
    (st : Int × Nat) (dir : Nat) : Int × Nat :=
  let x := map_coord startX + (aDirOffset dir).1
  let y := map_coord startY + (aDirOffset dir).2
  if ¬ blocking x y = true then
    let tileDist := fpathDistToTile x y startX startY
    if tileDist < st.1 then (tileDist, dir) else st
  else
    st

/-- The start repair loop of `fpathRoute`: the final `(minDist, nearestDir)`. -/
def startRepairScan (blocking : Int → Int → Bool) (startX startY : Int) : Int × Nat :=
  (List.range NUM_DIR).foldl (startRepairStep blocking startX startY) (SDWORD_MAX, NUM_DIR)

/-- The start and target world coordinates chosen at the head of
`fpathRoute`. -/
structure ROUTE_ENDS where
  startX : Int
  startY : Int
  targetX : Int
  targetY : Int
  deriving DecidableEq, Repr

/-- The tail of `fpathRoute` from the budget check to the label `exit`:
budget, slot arbitration, planner call and verdict mapping. -/
def fpathRouteSearch (env : ENV) (fuel : Nat) (psDroid : Nat) (GWTerrain : GWR_TERRAIN)
    (e : ROUTE_ENDS) (s : WORLD) : Option (FPATH_RETVAL × WORLD) :=
  if env.astarInner > env.FPATH_LOOP_LIMIT then
    if s.psPartialRouteDroid = some psDroid then
      some (FPR_WAIT, s)
    else
      some (FPR_RESCHEDULE, s)
  else if (s.psPartialRouteDroid ≠ none ∧ s.psPartialRouteDroid ≠ some psDroid)
      ∨ (s.psPartialRouteDroid ≠ some psDroid
        ∧ env.psNextRouteDroid ≠ none
        ∧ env.psNextRouteDroid ≠ some psDroid) then
    some (FPR_RESCHEDULE, s)
  else
    let r :=
      if s.psPartialRouteDroid = none then
        fpathGatewayRoute env fuel psDroid ASR_NEWROUTE GWTerrain
          e.startX e.startY e.targetX e.targetY s
      else
        fpathGatewayRoute env fuel psDroid ASR_CONTINUE GWTerrain
          e.startX e.startY e.targetX e.targetY { s with psPartialRouteDroid := none }
    match r with
    | none => none
    | some (retVal, s1) =>
      if retVal = FPR_WAIT then
        some (FPR_WAIT, { s1 with
          psPartialRouteDroid := some psDroid
          lastPartialFrame := env.frameGetFrameNumber
          partialSX := e.startX
          partialSY := e.startY
          partialTX := e.targetX
          partialTY := e.targetY })
      else if retVal = FPR_FAILED ∧ env.isVtolDroid psDroid = true then
        some (FPR_OK, { s1 with
          droid := Function.update s1.droid psDroid
            (fpathSetDirectRoute (s1.droid psDroid) e.targetX e.targetY) })
      else
        some (retVal, s1)

/-- The start repair of `fpathRoute`: `none` when the droid is surrounded by
blocking tiles (`goto exit` with `FPR_FAILED`), else the start coordinates to
use. -/
def fpathRouteStartRepair (blocking : Int → Int → Bool) (startX startY : Int) :
    Option (Int × Int) :=
  if blocking (map_coord startX) (map_coord startY) = true then
    let r := startRepairScan blocking startX startY
    if r.2 = NUM_DIR then
      none
    else
      some (world_coord (map_coord startX + (aDirOffset r.2).1) + Int.tdiv TILE_SHIFT 2,
            world_coord (map_coord startY + (aDirOffset r.2).2) + Int.tdiv TILE_SHIFT 2)
  else
    some (startX, startY)

/-- The part of `fpathRoute` after the blocking predicate is installed, up to
the label `exit`: start repair, target raycast, target repair and route reuse
for a droid that is not parked, then the search. -/
def fpathRouteEndpoints (env : ENV) (fuel : Nat) (psDroid : Nat) (GWTerrain : GWR_TERRAIN)
    (e : ROUTE_ENDS) (s : WORLD) : Option (FPATH_RETVAL × WORLD) :=
  if s.psPartialRouteDroid = none ∨ s.psPartialRouteDroid ≠ some psDroid then
    match fpathRouteStartRepair (callBlockingTile s.fpathBlockingTile s.map)
        e.startX e.startY with
    | none => some (FPR_FAILED, s)
    | some start =>
      let finalX := clearTileMask e.targetX + Int.tdiv TILE_UNITS 2
      let finalY := clearTileMask e.targetY + Int.tdiv TILE_UNITS 2
      let s1 := { s with
        finalX := finalX
        finalY := finalY
        clearX := finalX
        clearY := finalY
        vectorX := start.1 - finalX
        vectorY := start.2 - finalY
        obstruction := false }
      let s2 := rayCast (env.rayCast start.1 start.2 s1.finalX s1.finalY) s1
      if ¬ s2.obstruction = true then
        some (FPR_OK, { s2 with
          droid := Function.update s2.droid psDroid
            (fpathSetDirectRoute (s2.droid psDroid) e.targetX e.targetY) })
      else
        let target : Int × Int :=
          if callBlockingTile s2.fpathBlockingTile s2.map
              (map_coord e.targetX) (map_coord e.targetY) = true then
            (s2.clearX, s2.clearY)
          else
            (e.targetX, e.targetY)
        let r := fpathFindRoute env psDroid start.1 start.2 target.1 target.2 s2
        if r.1 = true then
          some (FPR_OK, r.2)
        else
          fpathRouteSearch env fuel psDroid GWTerrain
            { startX := start.1, startY := start.2, targetX := target.1, targetY := target.2 }
            r.2
  else
    fpathRouteSearch env fuel psDroid GWTerrain e s

/-- The choice of start and target at the head of `fpathRoute`, with the slot
as it leaves it. -/
def fpathRouteSelect (psDroid : Nat) (tX tY : Int) (s : WORLD) : ROUTE_ENDS × WORLD :=
  if s.psPartialRouteDroid = none ∨ s.psPartialRouteDroid ≠ some psDroid then
    ({ startX := (s.droid psDroid).pos_x, startY := (s.droid psDroid).pos_y,
       targetX := tX, targetY := tY }, s)
  else if (s.droid psDroid).sMove.Status = MOVEWAITROUTE
      ∧ (s.droid psDroid).sMove.DestinationX ≠ tX then
    ({ startX := (s.droid psDroid).pos_x, startY := (s.droid psDroid).pos_y,
       targetX := tX, targetY := tY }, { s with psPartialRouteDroid := none })
  else
    ({ startX := s.partialSX, startY := s.partialSY,
       targetX := s.partialTX, targetY := s.partialTY }, s)

/-- Find a route for a DROID to a location (`fpathRoute`).  The result is
`none` when the planner does not finish within `fuel` passes. -/
def fpathRoute (env : ENV) (fuel : Nat) (psDroid : Nat) (tX tY : Int) (s : WORLD) :
    Option (FPATH_RETVAL × WORLD) :=
  let sel := fpathRouteSelect psDroid tX tY s
  if sel.1.startX = sel.1.targetX ∧ sel.1.startY = sel.1.targetY then
    some (FPR_FAILED, sel.2)
  else
    let propulsionType := (sel.2.droid psDroid).propulsionType
    let s1 := fpathSetBlockingTile propulsionType sel.2
    let GWTerrain :=
      match propulsionType with
      | HOVER => GWR_TER_ALL
      | LIFT => GWR_TER_ALL
      | _ => GWR_TER_LAND
    match fpathRouteEndpoints env fuel psDroid GWTerrain sel.1 s1 with
    | none => none
    | some (retVal, s2) => some (retVal, { s2 with fpathBlockingTile := BLOCKING_FN.Ground })

/-- The planner call that `fpathRoute` makes under "Now actually create a
route": a new route when the slot is empty, else the slot is emptied and the
parked route is continued. -/
def fpathRoutePlannerCall (env : ENV) (fuel : Nat) (psDroid : Nat) (GWTerrain : GWR_TERRAIN)
    (e : ROUTE_ENDS) (s : WORLD) : Option (FPATH_RETVAL × WORLD) :=
  if s.psPartialRouteDroid = none then
    fpathGatewayRoute env fuel psDroid ASR_NEWROUTE GWTerrain
      e.startX e.startY e.targetX e.targetY s
  else
    fpathGatewayRoute env fuel psDroid ASR_CONTINUE GWTerrain
      e.startX e.startY e.targetX e.targetY { s with psPartialRouteDroid := none }

/-- The head of `fpathRoute`, from its first line to the budget check.  On the
left the call has returned before the budget check: the value returned and the
state it leaves.  On the right it arrives at the budget check: the gateway
terrain flag, the start and target coordinates and the state at that point. -/
def fpathRouteHead (env : ENV) (psDroid : Nat) (tX tY : Int) (s : WORLD) :
    (FPATH_RETVAL × WORLD) ⊕ (GWR_TERRAIN × ROUTE_ENDS × WORLD) :=
  let sel := fpathRouteSelect psDroid tX tY s
  if sel.1.startX = sel.1.targetX ∧ sel.1.startY = sel.1.targetY then
    Sum.inl (FPR_FAILED, sel.2)
  else
    let propulsionType := (sel.2.droid psDroid).propulsionType
    let s1 := fpathSetBlockingTile propulsionType sel.2
    let GWTerrain :=
      match propulsionType with
      | HOVER => GWR_TER_ALL
      | LIFT => GWR_TER_ALL
      | _ => GWR_TER_LAND
    if s1.psPartialRouteDroid = none ∨ s1.psPartialRouteDroid ≠ some psDroid then
      match fpathRouteStartRepair (callBlockingTile s1.fpathBlockingTile s1.map)
          sel.1.startX sel.1.startY with
      | none => Sum.inl (FPR_FAILED, { s1 with fpathBlockingTile := BLOCKING_FN.Ground })
      | some start =>
        let finalX := clearTileMask sel.1.targetX + Int.tdiv TILE_UNITS 2
        let finalY := clearTileMask sel.1.targetY + Int.tdiv TILE_UNITS 2
        let s2 := rayCast (env.rayCast start.1 start.2 finalX finalY)
          { s1 with
            finalX := finalX
            finalY := finalY
            clearX := finalX
            clearY := finalY
            vectorX := start.1 - finalX
            vectorY := start.2 - finalY
            obstruction := false }
        if ¬ s2.obstruction = true then
          Sum.inl (FPR_OK, { s2 with
            droid := Function.update s2.droid psDroid
              (fpathSetDirectRoute (s2.droid psDroid) sel.1.targetX sel.1.targetY)
            fpathBlockingTile := BLOCKING_FN.Ground })
        else
          let target : Int × Int :=
            if callBlockingTile s2.fpathBlockingTile s2.map
                (map_coord sel.1.targetX) (map_coord sel.1.targetY) = true then
              (s2.clearX, s2.clearY)
            else
              (sel.1.targetX, sel.1.targetY)
          let r := fpathFindRoute env psDroid start.1 start.2 target.1 target.2 s2
          if r.1 = true then
            Sum.inl (FPR_OK, { r.2 with fpathBlockingTile := BLOCKING_FN.Ground })
          else
            Sum.inr (GWTerrain,
              { startX := start.1, startY := start.2, targetX := target.1, targetY := target.2 },
              r.2)
    else
      Sum.inr (GWTerrain, sel.1, s1)

/-! ## Specification vocabulary -/

/-- Squared Euclidean distance from the world centre of the last emitted
waypoint `asPath[numPoints - 1]` to the point `(fx, fy)`. -/
def lastWaypointDist (psMoveCntl : MOVE_CONTROL) (fx fy : Int) : Int :=
  let xdiff := world_coord (psMoveCntl.asPath (psMoveCntl.numPoints - 1)).x
    + Int.tdiv TILE_UNITS 2 - fx
  let ydiff := world_coord (psMoveCntl.asPath (psMoveCntl.numPoints - 1)).y
    + Int.tdiv TILE_UNITS 2 - fy
  xdiff * xdiff + ydiff * ydiff

/-- A gateway whose routing scratch flags are clear: `GWR_IGNORE` is clear and
so is `GWRL_BLOCKED` on each of its first `zone1Links + zone2Links` links. -/
def gatewayFlagsClear (g : GATEWAY) : Prop :=
  g.GWR_IGNORE = false
    ∧ ∀ link, link < g.zone1Links + g.zone2Links →
        ∀ k, g.psLinks[link]? = some k → k.GWRL_BLOCKED = false

/-- A stage of overlay writes seen at one tile: if `P` holds the tile's
`FPATHBLOCK` bit is forced to `b`, otherwise the tile is untouched. -/
def OverlayStage (b : Bool) (P : Prop) (m m' : MAP) (x y : Int) : Prop :=
  (P → mapTile m' x y = { mapTile m x y with fpathBlock := b })
    ∧ (¬ P → mapTile m' x y = mapTile m x y)

/-- The droid records as far as a planner run for `psDroid` leaves them
alone: every other droid entirely, and `psDroid` itself up to the waypoint
array, the waypoint count and the destination of its move control block. -/
def keptDroid (psDroid : Nat) (s : WORLD) : Nat → DROID := fun q =>
  if q = psDroid then
    { s.droid q with
      sMove := { (s.droid q).sMove with
        numPoints := 0, asPath := fun _ => { x := 0, y := 0 }
        DestinationX := 0, DestinationY := 0 } }
  else s.droid q

/-- The part of the state that `fpathGatewayRoute` never writes: the gateway
list, the installed predicate, the partial-route slot with its coordinates and
frame, the raycast variables, and the droid records up to the waypoints of the
routed droid. -/
structure PLANNER_KEPT where
  psGateways : List Nat
  droid : Nat → DROID
  fpathBlockingTile : BLOCKING_FN
  psPartialRouteDroid : Option Nat
  partialSX : Int
  partialSY : Int
  partialTX : Int
  partialTY : Int
  lastPartialFrame : Int
  finalX : Int
  finalY : Int
  vectorX : Int
  vectorY : Int
  clearX : Int
  clearY : Int
  obstruction : Bool

/-- Restrict a state to the part that `fpathGatewayRoute` never writes. -/
def plannerKept (psDroid : Nat) (s : WORLD) : PLANNER_KEPT :=
  { psGateways := s.psGateways, droid := keptDroid psDroid s
    fpathBlockingTile := s.fpathBlockingTile
    psPartialRouteDroid := s.psPartialRouteDroid
    partialSX := s.partialSX, partialSY := s.partialSY
    partialTX := s.partialTX, partialTY := s.partialTY
    lastPartialFrame := s.lastPartialFrame
    finalX := s.finalX, finalY := s.finalY, vectorX := s.vectorX, vectorY := s.vectorY
    clearX := s.clearX, clearY := s.clearY, obstruction := s.obstruction }

/-- Frame of a planner step from `s` to `s'`: the part of the state that the
planner never writes is the same, and the map is the same provided it carried
no `FPATHBLOCK` bit in `s`. -/
def PlannerFrame (psDroid : Nat) (s s' : WORLD) : Prop :=
  plannerKept psDroid s' = plannerKept psDroid s
    ∧ ((∀ x y, (mapTile s.map x y).fpathBlock = false) → s'.map = s.map)

/-- The tests that stand between the budget check of `fpathRoute` and its
planner call: the budget is not spent and it is the calling droid's turn. -/
@[reducible] def plannerReached (env : ENV) (psDroid : Nat) (s : WORLD) : Prop :=
  ¬ env.astarInner > env.FPATH_LOOP_LIMIT
    ∧ ¬ ((s.psPartialRouteDroid ≠ none ∧ s.psPartialRouteDroid ≠ some psDroid)
      ∨ (s.psPartialRouteDroid ≠ some psDroid
        ∧ env.psNextRouteDroid ≠ none
        ∧ env.psNextRouteDroid ≠ some psDroid))

/-- The ray samples offered to `fpathEndPointCallback` hold no blocked sample
before the ray passes the target: every sample `q` that comes before the first
one with `(q - final) . vector <= 0` lies in a walkable tile. -/
def raySamplesClear (blocking : Int → Int → Bool) (finalX finalY vectorX vectorY : Int) :
    List (Int × Int × Int) → Bool
  | [] => true
  | p :: rest =>
    if (p.1 - finalX) * vectorX + (p.2.1 - finalY) * vectorY ≤ 0 then true
    else !blocking (map_coord p.1) (map_coord p.2.1)
      && raySamplesClear blocking finalX finalY vectorX vectorY rest

/-- The samples of a ray that `fpathEndPointCallback` processes: those that
come before the first sample `q` with `(q - final) . vector <= 0`. -/
def rayProcessed (finalX finalY vectorX vectorY : Int) (L : List (Int × Int × Int)) :
    List (Int × Int × Int) :=
  L.takeWhile (fun q =>
    decide (¬ ((q.1 - finalX) * vectorX + (q.2.1 - finalY) * vectorY ≤ 0)))

/-- The tiles selected by `fpathSetGatewayBlock`: the segment tiles of the
gateways of the list other than `psLast` and `psNext`, without water link, with
`zone1` or `zone2` equal to `zone`, and the ring tiles of `psLast` and of
`psNext`. -/
def gatewayBlockSetTile (gwGetZone : Int → Int → Int) (gw : Nat → GATEWAY)
    (psGateways : List Nat) (zone : Int) (psLast psNext : Option Nat) (m : MAP)
    (x y : Int) : Prop :=
  ((∃ p ∈ psGateways,
      (some p ≠ psLast ∧ some p ≠ psNext ∧ ¬ (gw p).GWR_WATERLINK = true
        ∧ ((gw p).zone1 = zone ∨ (gw p).zone2 = zone))
      ∧ (x, y) ∈ gatewaySegmentTiles (gw p))
    ∨ (∃ l, psLast = some l ∧ (x, y) ∈ gatewayRingTiles gwGetZone m (gw l)
        (if (gw l).GWR_ZONE1 then (gw l).zone1 else (gw l).zone2)))
    ∨ (∃ n, psNext = some n ∧ (x, y) ∈ gatewayRingTiles gwGetZone m (gw n)
        (if (gw n).GWR_ZONE1 then (gw n).zone2 else (gw n).zone1))

/-- The tiles selected by `fpathClearGatewayBlock`: the segment tiles of the
gateways of the list without water link, with `zone1` or `zone2` equal to
`zone`, and the ring tiles of `psLast` and of `psNext`. -/
def gatewayBlockClearTile (gwGetZone : Int → Int → Int) (gw : Nat → GATEWAY)
    (psGateways : List Nat) (zone : Int) (psLast psNext : Option Nat) (m : MAP)
    (x y : Int) : Prop :=
  ((∃ p ∈ psGateways,
      (¬ (gw p).GWR_WATERLINK = true ∧ ((gw p).zone1 = zone ∨ (gw p).zone2 = zone))
      ∧ (x, y) ∈ gatewaySegmentTiles (gw p))
    ∨ (∃ l, psLast = some l ∧ (x, y) ∈ gatewayRingTiles gwGetZone m (gw l)
        (if (gw l).GWR_ZONE1 then (gw l).zone1 else (gw l).zone2)))
    ∨ (∃ n, psNext = some n ∧ (x, y) ∈ gatewayRingTiles gwGetZone m (gw n)
        (if (gw n).GWR_ZONE1 then (gw n).zone2 else (gw n).zone1))

/-! ## Sample data -/

/-- A waypoint array holding tile `(0, 0)` everywhere. -/
def samplePath : Nat → PATH_POINT := fun _ => { x := 0, y := 0 }

/-- A move control block with the single waypoint `(9, 5)`. -/
def sampleMove : MOVE_CONTROL :=
  { Status := MOVEINACTIVE, numPoints := 1
    asPath := Function.update samplePath 0 { x := 9, y := 5 }
    DestinationX := 1216, DestinationY := 704, psFormation := none }

/-- An A* route whose final tile is `(10, 5)` but whose only stored waypoint
is `(0, 0)`. -/
def sampleRouteOff : ASTAR_ROUTE :=
  { asPos := samplePath, finalX := 10, finalY := 5, numPoints := 1 }

/-- An A* route of two waypoints ending on its final tile `(10, 5)`. -/
def sampleRoute : ASTAR_ROUTE :=
  { asPos := Function.update (Function.update samplePath 0 { x := 9, y := 5 }) 1
      { x := 10, y := 5 }
    finalX := 10, finalY := 5, numPoints := 2 }

/-- A ground droid standing at world `(640, 640)`. -/
def sampleDroid : DROID :=
  { pos_x := 640, pos_y := 640, died := 0, player := 0, propulsionType := WHEELED
    sMove := sampleMove }

/-- The all-land tile. -/
def sampleTile : MAPTILE :=
  { fpathBlock := false, occupied := false, notBlocking := false, tallStructure := false
    terrain := TER_SAND }

/-- A 64 by 64 map of land tiles. -/
def sampleMap : MAP :=
  { mapWidth := 64, mapHeight := 64, scrollMinX := 0, scrollMinY := 0
    scrollMaxX := 64, scrollMaxY := 64, psMapTiles := fun _ _ => sampleTile }

/-- Gateway records: gateway 0 is the column `x = 15`, `y = 3..7` between zones
1 and 2 and carries stale routing flags; every other record is the row
`y = 10`, `x = 20..25` between zones 2 and 3. -/
def sampleGw : Nat → GATEWAY := fun p =>
  if p = 0 then
    { x1 := 15, y1 := 3, x2 := 15, y2 := 7, zone1 := 1, zone2 := 2
      GWR_WATERLINK := false, GWR_ZONE1 := true, GWR_IGNORE := true, psRoute := none
      zone1Links := 1, zone2Links := 1
      psLinks := [{ GWRL_PARENT := true, GWRL_CHILD := false, GWRL_BLOCKED := true },
                  { GWRL_PARENT := false, GWRL_CHILD := true, GWRL_BLOCKED := true }] }
  else
    { x1 := 20, y1 := 10, x2 := 25, y2 := 10, zone1 := 2, zone2 := 3
      GWR_WATERLINK := false, GWR_ZONE1 := true, GWR_IGNORE := false, psRoute := none
      zone1Links := 0, zone2Links := 0, psLinks := [] }

/-- A zone map: zone 1 left of column 15, zone 2 from there on. -/
def sampleZone : Int → Int → Int := fun x _ => if x < 15 then 1 else 2

/-- Collaborators of a quiet frame: one zone pair, a gateway A* that reports
the same zone, a tile A* that answers `ASR_OK` with `sampleRoute`, a ray cast
that offers the one sample `(0, 0)`, which lies in the scroll margin, and no
formation. -/
def sampleEnv : ENV :=
  { TRAVELSIZE := 100, FPATH_LOOP_LIMIT := 600, astarInner := 0, psNextRouteDroid := none
    frameGetFrameNumber := 10, gwGetZone := sampleZone
    isVtolDroid := fun _ => false
    actionRouteBlockingPos := fun _ _ _ _ => false
    gwrAStarRoute := fun _ _ _ _ _ _ _ gw => (GWR_SAMEZONE, none, gw)
    fpathAStarRoute := fun _ _ _ _ _ _ _ _ => (ASR_OK, sampleRoute)
    rayCast := fun _ _ _ _ => [(0, 0, 0)]
    formationFind := fun _ _ => none
    apsDroidLists := fun _ => [0] }

/-- A world with the sample map, the two sample gateways and sample droids,
an empty partial-route slot and the ground predicate installed. -/
def sampleWorld : WORLD :=
  { map := sampleMap, gw := sampleGw, psGateways := [0, 1], droid := fun _ => sampleDroid
    fpathBlockingTile := BLOCKING_FN.Ground, psPartialRouteDroid := none
    partialSX := 0, partialSY := 0, partialTX := 0, partialTY := 0, lastPartialFrame := 0
    finalX := 0, finalY := 0, vectorX := 0, vectorY := 0, clearX := 0, clearY := 0
    obstruction := false, linkx := 640, linky := 640, gwx := 0, gwy := 0
    asret := ASR_OK, matchPoints := 0, sAStarRoute := sampleRoute
    psCurrRoute := none, psGWRoute := none, psLastGW := none, bFirstRoute := false
    clock := 0 }

/-- The sample collaborators with a ray cast that offers samples along the
line from `(640, 640)` towards `(1344, 704)`, the last one beyond it. -/
def sampleEnvClear : ENV :=
  { sampleEnv with
    rayCast := fun _ _ _ _ =>
      [(768, 652, 128), (896, 663, 256), (1024, 675, 384), (1152, 687, 512),
       (1280, 698, 640), (1408, 710, 768)] }

/-- The sample collaborators in a frame whose search budget is spent:
`astarInner` is above `FPATH_LOOP_LIMIT`. -/
def sampleEnvBusy : ENV := { sampleEnv with astarInner := 601 }

/-- The sample world with droid 0 parked in the partial-route slot, waiting
for a route from `(640, 640)` to `(1280, 640)` since frame 8. -/
def sampleWorldParked : WORLD :=
  { sampleWorld with
    droid := fun _ =>
      { sampleDroid with
        sMove := { sampleMove with Status := MOVEWAITROUTE, DestinationX := 1280,
                                   DestinationY := 640 } }
    psPartialRouteDroid := some 0
    partialSX := 640, partialSY := 640, partialTX := 1280, partialTY := 640
    lastPartialFrame := 8 }

/-- The sample collaborators for a VTOL: `isVtolDroid` holds and the gateway A*
answers `GWR_FAILED`. -/
def sampleEnvVtol : ENV :=
  { sampleEnv with
    isVtolDroid := fun _ => true
    gwrAStarRoute := fun _ _ _ _ _ _ _ gw => (GWR_FAILED, none, gw) }

/-- The sample world with lift propulsion on every droid. -/
def sampleWorldVtol : WORLD :=
  { sampleWorld with droid := fun _ => { sampleDroid with propulsionType := LIFT } }

/-- The sample collaborators with a tile A* that runs out of its frame budget:
it always answers `ASR_PARTIAL`. -/
def sampleEnvPartial : ENV :=
  { sampleEnv with fpathAStarRoute := fun _ _ r _ _ _ _ _ => (ASR_PARTIAL, r) }

/-- The sample collaborators with a tile A* that finds no route: it always
answers `ASR_FAILED`. -/
def sampleEnvNoRoute : ENV :=
  { sampleEnv with fpathAStarRoute := fun _ _ r _ _ _ _ _ => (ASR_FAILED, r) }

/-- The sample world with a structure on tile `(5, 5)`, the tile of the
droids, whose move control blocks hold no waypoint. -/
def sampleWorldBlocked : WORLD :=
  { sampleWorld with
    map := setMapTile sampleMap 5 5 { sampleTile with occupied := true }
    droid := fun _ => { sampleDroid with sMove := { sampleMove with numPoints := 0 } } }

/-- The sample world with a structure on tile `(10, 5)`, the tile of the
target `(1280, 640)`. -/
def sampleWorldTarget : WORLD :=
  { sampleWorld with map := setMapTile sampleMap 10 5 { sampleTile with occupied := true } }

/-- The sample map with the `FPATHBLOCK` bit set on every tile. -/
def sampleMapBlocked : MAP :=
  { sampleMap with psMapTiles := fun _ _ => { sampleTile with fpathBlock := true } }

/-- A 250 by 250 map of land tiles. -/
def sampleMapWide : MAP :=
  { mapWidth := 250, mapHeight := 250, scrollMinX := 0, scrollMinY := 0
    scrollMaxX := 250, scrollMaxY := 250, psMapTiles := fun _ _ => sampleTile }

/-- A droid of formation 7 standing at world `(130, 130)` with the three
waypoints `(100, 100)`, `(200, 200)` and `(201, 200)`. -/
def sampleMate : DROID :=
  { sampleDroid with
    pos_x := 130, pos_y := 130
    sMove := { sampleMove with
      numPoints := 3
      asPath := Function.update (Function.update (Function.update samplePath 0
        { x := 100, y := 100 }) 1 { x := 200, y := 200 }) 2 { x := 201, y := 200 }
      psFormation := some 7 } }

/-- The sample collaborators with formation 7 found at every target, the droids
0 and 1 in the player's list, and a ray cast that offers two samples on the
diagonal from its start. -/
def sampleEnvFormation : ENV :=
  { sampleEnv with
    formationFind := fun _ _ => some 7
    apsDroidLists := fun _ => [0, 1]
    rayCast := fun sx sy _ _ => [(sx + 128, sy + 128, 181), (sx + 256, sy + 256, 362)] }

/-- The sample world on the wide map with `sampleMate` as droid 1. -/
def sampleWorldTeam : WORLD :=
  { sampleWorld with
    map := sampleMapWide
    droid := fun p => if p = 1 then sampleMate else sampleDroid }

/-- A 400 by 400 map of land tiles. -/
def sampleMapHuge : MAP :=
  { mapWidth := 400, mapHeight := 400, scrollMinX := 0, scrollMinY := 0
    scrollMaxX := 400, scrollMaxY := 400, psMapTiles := fun _ _ => sampleTile }

/-- The sample collaborators with a ray cast that offers the midpoint of the
ray and then a sample as far beyond its end as the start lies before it. -/
def sampleEnvFar : ENV :=
  { sampleEnv with
    rayCast := fun sx sy fx fy =>
      [((sx + fx) / 2, (sy + fy) / 2, 0), (2 * fx - sx, 2 * fy - sy, 0)] }

/-- The sample collaborators for a VTOL with the ray cast of `sampleEnvFar`. -/
def sampleEnvVtolFar : ENV := { sampleEnvVtol with rayCast := sampleEnvFar.rayCast }

/-- The sample world of lift droids on the 400 by 400 map, with a tall
structure on tile `(130, 5)`. -/
def sampleWorldVtolHuge : WORLD :=
  { sampleWorldVtol with
    map := setMapTile sampleMapHuge 130 5 { sampleTile with tallStructure := true } }

/-! ## Verified properties -/

/-! ### Map geometry -/

/-- The tile size is the power of two given by the tile shift. -/
theorem TILE_UNITS_eq_pow : TILE_UNITS = 2 ^ TILE_SHIFT := by decide

/-- The model of `map_coord` is the arithmetic right shift by `TILE_SHIFT`. -/
theorem map_coord_eq_shiftRight (w : Int) : map_coord w = w >>> TILE_SHIFT := by
  rw [Int.shiftRight_eq_div_pow]
  rfl

/-- Clearing the tile mask gives the world origin of the tile that holds `w`. -/
theorem clearTileMask_eq (w : Int) : clearTileMask w = world_coord (map_coord w) := by
  unfold clearTileMask world_coord map_coord TILE_UNITS
  omega

/-! ### Blocking predicates -/

/-- C8. Ground blocking predicate: `fpathGroundBlockingTile(x, y)` is true if
and only if the tile is in the scroll margin (`x < scrollMinX + 1`,
`y < scrollMinY + 1`, `x >= scrollMaxX - 1` or `y >= scrollMaxY - 1`), or it has
`FPATHBLOCK` set, or it is occupied and not flagged not-blocking, or its
terrain is cliff face, or its terrain is water. -/
theorem fpathGroundBlockingTile_iff (m : MAP) (x y : Int) :
    fpathGroundBlockingTile m x y = true ↔
      (x < m.scrollMinX + 1 ∨ y < m.scrollMinY + 1
        ∨ x ≥ m.scrollMaxX - 1 ∨ y ≥ m.scrollMaxY - 1
        ∨ (mapTile m x y).fpathBlock = true
        ∨ ((mapTile m x y).occupied = true ∧ (mapTile m x y).notBlocking = false)
        ∨ (mapTile m x y).terrain = TER_CLIFFFACE
        ∨ (mapTile m x y).terrain = TER_WATER) := by
  unfold fpathGroundBlockingTile
  dsimp only
  generalize mapTile m x y = t
  have hnb : t.notBlocking = false ↔ ¬ t.notBlocking = true := by simp
  rw [hnb]
  split_ifs with h1 h2
  · simp only [true_iff]; tauto
  · simp only [true_iff]; tauto
  · simp only [Bool.false_eq_true, false_iff]; tauto

/-- C10. Lift predicates: `fpathLiftSlideBlockingTile(x, y)` is true exactly
when `x < 1`, `y < 1`, `x >= mapWidth - 1` or `y >= mapHeight - 1`;
`fpathLiftBlockingTile(x, y)` is true exactly when the slide predicate is true
or the tile carries a tall structure; and the lift predicate does not change
when the `FPATHBLOCK` bit, the occupancy, the not-blocking override and the
terrain of the tile are replaced by any other values. -/
theorem lift_blocking_iff (m : MAP) (x y : Int) :
    (fpathLiftSlideBlockingTile m x y = true ↔
      (x < 1 ∨ y < 1 ∨ x ≥ m.mapWidth - 1 ∨ y ≥ m.mapHeight - 1))
    ∧ (fpathLiftBlockingTile m x y = true ↔
      (fpathLiftSlideBlockingTile m x y = true ∨ (mapTile m x y).tallStructure = true))
    ∧ (∀ (b o n : Bool) (ter : TYPE_OF_TERRAIN),
        fpathLiftBlockingTile
          (setMapTile m x y
            { mapTile m x y with fpathBlock := b, occupied := o, notBlocking := n,
                                 terrain := ter }) x y
          = fpathLiftBlockingTile m x y) := by
  have hdim : ∀ t : MAPTILE, (setMapTile m x y t).mapWidth = m.mapWidth
      ∧ (setMapTile m x y t).mapHeight = m.mapHeight := fun _ => ⟨rfl, rfl⟩
  have htile : ∀ t : MAPTILE, mapTile (setMapTile m x y t) x y = t := by
    intro t
    simp [mapTile, setMapTile]
  unfold fpathLiftSlideBlockingTile fpathLiftBlockingTile
  dsimp only
  refine ⟨?_, ?_, ?_⟩
  · split_ifs with h
    · exact ⟨fun _ => h, fun _ => rfl⟩
    · exact ⟨fun hf => (by cases hf), fun hf => absurd hf h⟩
  · split_ifs with h
    · exact ⟨fun _ => Or.inl rfl, fun _ => rfl⟩
    · constructor
      · intro ht
        exact Or.inr ht
      · intro ht
        rcases ht with hf | ht
        · cases hf
        · exact ht
  · intro b o n ter
    rw [(hdim _).1, (hdim _).2, htile]

/-! ### Integer square root -/

/-- The binary search keeps `acc * acc <= n < (acc + 2 ^ k) * (acc + 2 ^ k)`, so
its result `r` satisfies `r * r <= n < (r + 1) * (r + 1)`. -/
theorem trigIntSqrtBits_spec (n : Nat) :
    ∀ (k acc : Nat), acc * acc ≤ n → n < (acc + 2 ^ k) * (acc + 2 ^ k) →
      trigIntSqrtBits n k acc * trigIntSqrtBits n k acc ≤ n
      ∧ n < (trigIntSqrtBits n k acc + 1) * (trigIntSqrtBits n k acc + 1) := by
  intro k
  induction k with
  | zero =>
    intro acc h1 h2
    simpa [trigIntSqrtBits] using ⟨h1, h2⟩
  | succ k ih =>
    intro acc h1 h2
    unfold trigIntSqrtBits
    split_ifs with hc
    · apply ih _ hc
      have e : acc + 2 ^ k + 2 ^ k = acc + 2 ^ (k + 1) := by
        rw [pow_succ]
        omega
      rw [e]
      exact h2
    · apply ih _ h1
      omega

/-- The model of `trigIntSqrt` is the integer square root on 32-bit values. -/
theorem trigIntSqrt_eq_sqrt (val : Int) (h : val < 2 ^ 32) : trigIntSqrt val = Int.sqrt val := by
  unfold trigIntSqrt Int.sqrt
  have hn : val.toNat < (0 + 2 ^ 16) * (0 + 2 ^ 16) := by
    have : (2 : Int) ^ 32 = ((2 ^ 32 : Nat) : Int) := by norm_num
    omega
  have hs := trigIntSqrtBits_spec val.toNat 16 0 (by simp) hn
  congr 1
  exact (Nat.eq_sqrt.mpr ⟨hs.1, hs.2⟩)

/-! ### Waypoint list -/

theorem appendLoop_count (r : ASTAR_ROUTE) :
    ∀ (room mi ai : Nat) (p : Nat → PATH_POINT),
      (fpathAppendRouteLoop r room mi ai p).1 = ai + min room (r.numPoints - ai).toNat := by
  intro room
  induction room with
  | zero => intro mi ai p; simp [fpathAppendRouteLoop]
  | succ n ih =>
    intro mi ai p
    unfold fpathAppendRouteLoop
    split_ifs with h
    · rw [ih]
      omega
    · simp only
      omega

theorem appendLoop_below (r : ASTAR_ROUTE) :
    ∀ (room mi ai : Nat) (p : Nat → PATH_POINT) (i : Nat), i < mi →
      (fpathAppendRouteLoop r room mi ai p).2 i = p i := by
  intro room
  induction room with
  | zero => intro mi ai p i _; simp [fpathAppendRouteLoop]
  | succ n ih =>
    intro mi ai p i hi
    unfold fpathAppendRouteLoop
    split_ifs with h
    · rw [ih _ _ _ _ (by omega)]
      exact Function.update_noteq (by omega) _ _
    · rfl

theorem appendLoop_written (r : ASTAR_ROUTE) :
    ∀ (room mi ai : Nat) (p : Nat → PATH_POINT) (j : Nat),
      j < min room (r.numPoints - ai).toNat →
      (fpathAppendRouteLoop r room mi ai p).2 (mi + j)
        = { x := (r.asPos (ai + j)).x % 256, y := (r.asPos (ai + j)).y % 256 } := by
  intro room
  induction room with
  | zero => intro mi ai p j hj; omega
  | succ n ih =>
    intro mi ai p j hj
    unfold fpathAppendRouteLoop
    have h : (ai : Int) < r.numPoints := by omega
    rw [if_pos h]
    cases j with
    | zero =>
      rw [appendLoop_below r _ _ _ _ _ (by omega)]
      simp
    | succ k =>
      have := ih (mi + 1) (ai + 1) (Function.update p mi
          { x := (r.asPos ai).x % 256, y := (r.asPos ai).y % 256 }) k (by omega)
      have e1 : mi + (k + 1) = mi + 1 + k := by omega
      have e2 : ai + (k + 1) = ai + 1 + k := by omega
      rw [e1, e2]
      exact this

/-- C4. Waypoint bound.  `TRAVELSIZE` is a constant of a header that is not
part of the sources; for every value of it from 1 to 255 (the range a `UBYTE`
counter can hold), every move control block with `numPoints <= TRAVELSIZE` and
every A* route with `numPoints >= 0`: after `fpathAppendRoute` the move
control's `numPoints` equals `min(TRAVELSIZE, old numPoints + A* numPoints)`,
hence is at most `TRAVELSIZE`, and the waypoints at indices below the old
`numPoints` are unchanged; `fpathSetDirectRoute` and the adopt step of the
planner likewise leave `numPoints <= TRAVELSIZE`. -/
theorem fpathAppendRoute_numPoints (TRAVELSIZE : Nat) (mc : MOVE_CONTROL) (r : ASTAR_ROUTE)
    (d : DROID) (tx ty fx fy : Int)
    (hT1 : 1 ≤ TRAVELSIZE) (hT : TRAVELSIZE ≤ 255)
    (hmc : mc.numPoints ≤ TRAVELSIZE) (hr : 0 ≤ r.numPoints) :
    ((fpathAppendRoute TRAVELSIZE mc r).numPoints : Int)
        = min (TRAVELSIZE : Int) (mc.numPoints + r.numPoints)
    ∧ (fpathAppendRoute TRAVELSIZE mc r).numPoints ≤ TRAVELSIZE
    ∧ (∀ i, i < mc.numPoints → (fpathAppendRoute TRAVELSIZE mc r).asPath i = mc.asPath i)
    ∧ (fpathSetDirectRoute d tx ty).sMove.numPoints ≤ TRAVELSIZE
    ∧ (adoptCloserRoute TRAVELSIZE mc r fx fy).numPoints ≤ TRAVELSIZE := by
  have hn : ∀ mc : MOVE_CONTROL, mc.numPoints ≤ TRAVELSIZE →
      (fpathAppendRoute TRAVELSIZE mc r).numPoints
        = mc.numPoints + min (TRAVELSIZE - mc.numPoints) r.numPoints.toNat := by
    intro mc hmc
    simp only [fpathAppendRoute, appendLoop_count]
    simp only [Nat.cast_zero, sub_zero, zero_add]
    omega
  refine ⟨?_, ?_, ?_, ?_, ?_⟩
  · rw [hn mc hmc]
    omega
  · rw [hn mc hmc]
    omega
  · intro i hi
    simp only [fpathAppendRoute]
    exact appendLoop_below r _ _ _ _ _ hi
  · simp only [fpathSetDirectRoute]
    exact hT1
  · unfold adoptCloserRoute
    split_ifs with h
    · rw [hn _ (by simp)]
      simp only
      omega
    · exact hmc

/-- Witness for C4: `TRAVELSIZE = 100`, one waypoint held, a two-waypoint A*
route. -/
theorem fpathAppendRoute_numPoints_witness :
    ((fpathAppendRoute 100 sampleMove sampleRoute).numPoints : Int)
        = min ((100 : Nat) : Int) (sampleMove.numPoints + sampleRoute.numPoints)
    ∧ (fpathAppendRoute 100 sampleMove sampleRoute).numPoints ≤ 100
    ∧ (∀ i, i < sampleMove.numPoints →
        (fpathAppendRoute 100 sampleMove sampleRoute).asPath i = sampleMove.asPath i)
    ∧ (fpathSetDirectRoute sampleDroid 1280 640).sMove.numPoints ≤ 100
    ∧ (adoptCloserRoute 100 sampleMove sampleRoute 1344 704).numPoints ≤ 100 :=
  fpathAppendRoute_numPoints 100 sampleMove sampleRoute sampleDroid 1280 640 1344 704
    (by decide) (by decide) (by decide) (by decide)

/-- Counterexample to C5 as stated: the move control holds the waypoint
`(9, 5)`, the target is the centre `(1344, 704)` of tile `(10, 5)`, and the A*
route has final tile `(10, 5)` but stores the single waypoint `(0, 0)`.
`fpathRouteCloser` compares the final tile, so the route is adopted and the
last emitted waypoint moves away from the target. -/
theorem adopt_monotone_counterexample :
    1 ≤ sampleMove.numPoints
    ∧ ¬ (lastWaypointDist (adoptCloserRoute 100 sampleMove sampleRouteOff 1344 704) 1344 704
          ≤ lastWaypointDist sampleMove 1344 704) := by
  decide

/-- C5 (amended). Monotone improvement: for every move control block that
already holds at least one waypoint, every target `(fx, fy)` and every A* route
with `0 <= numPoints <= TRAVELSIZE <= 255` whose last stored waypoint is its
final tile `(finalX, finalY)`, both coordinates in `0..255`: after the adopt
step the squared Euclidean distance from the world centre of the last emitted
waypoint to `(fx, fy)` is no greater than it was before the step. -/
theorem adopt_monotone (TRAVELSIZE : Nat) (mc : MOVE_CONTROL) (r : ASTAR_ROUTE) (fx fy : Int)
    (hmc : 1 ≤ mc.numPoints)
    (hT : TRAVELSIZE ≤ 255)
    (hr0 : 0 ≤ r.numPoints) (hrT : r.numPoints ≤ TRAVELSIZE)
    (hlast : 1 ≤ r.numPoints →
      r.asPos (r.numPoints.toNat - 1) = { x := r.finalX, y := r.finalY })
    (hx : 0 ≤ r.finalX ∧ r.finalX < 256) (hy : 0 ≤ r.finalY ∧ r.finalY < 256) :
    lastWaypointDist (adoptCloserRoute TRAVELSIZE mc r fx fy) fx fy
      ≤ lastWaypointDist mc fx fy := by
  unfold adoptCloserRoute
  split_ifs with h
  · have h1 : 1 ≤ r.numPoints := by
      unfold fpathRouteCloser at h
      split_ifs at h with h0
      all_goals omega
    have hlt : (world_coord r.finalX + Int.tdiv TILE_UNITS 2 - fx)
          * (world_coord r.finalX + Int.tdiv TILE_UNITS 2 - fx)
        + (world_coord r.finalY + Int.tdiv TILE_UNITS 2 - fy)
          * (world_coord r.finalY + Int.tdiv TILE_UNITS 2 - fy)
        < lastWaypointDist mc fx fy := by
      unfold fpathRouteCloser at h
      have hz : ¬ r.numPoints = 0 := by omega
      have hm : ¬ mc.numPoints = 0 := by omega
      rw [if_neg hz, if_neg hm] at h
      simp only at h
      split_ifs at h with hlt
      exact hlt
    have hcount : (fpathAppendRoute TRAVELSIZE { mc with numPoints := 0 } r).numPoints
        = r.numPoints.toNat := by
      simp only [fpathAppendRoute, appendLoop_count]
      simp only [Nat.cast_zero, sub_zero, zero_add]
      omega
    have hpt : (fpathAppendRoute TRAVELSIZE { mc with numPoints := 0 } r).asPath
          (r.numPoints.toNat - 1) = { x := r.finalX, y := r.finalY } := by
      simp only [fpathAppendRoute]
      have := appendLoop_written r (TRAVELSIZE - 0) 0 0 mc.asPath (r.numPoints.toNat - 1)
        (by simp only [Nat.cast_zero, sub_zero]; omega)
      simp only [zero_add] at this
      rw [this, hlast h1]
      simp only [PATH_POINT.mk.injEq]
      exact ⟨Int.emod_eq_of_lt hx.1 hx.2, Int.emod_eq_of_lt hy.1 hy.2⟩
    have : lastWaypointDist (fpathAppendRoute TRAVELSIZE { mc with numPoints := 0 } r) fx fy
        = (world_coord r.finalX + Int.tdiv TILE_UNITS 2 - fx)
          * (world_coord r.finalX + Int.tdiv TILE_UNITS 2 - fx)
        + (world_coord r.finalY + Int.tdiv TILE_UNITS 2 - fy)
          * (world_coord r.finalY + Int.tdiv TILE_UNITS 2 - fy) := by
      unfold lastWaypointDist
      rw [hcount, hpt]
    rw [this]
    exact le_of_lt hlt
  · exact le_refl _

/-- Witness for C5 (amended): the A* route `sampleRoute` ends on its final
tile `(10, 5)` and is adopted. -/
theorem adopt_monotone_witness :
    lastWaypointDist (adoptCloserRoute 100 sampleMove sampleRoute 1344 704) 1344 704
        ≤ lastWaypointDist sampleMove 1344 704
    ∧ fpathRouteCloser sampleMove sampleRoute 1344 704 = true :=
  ⟨adopt_monotone 100 sampleMove sampleRoute 1344 704 (by decide) (by decide) (by decide)
      (by decide) (fun _ => by decide) (by decide) (by decide), by decide⟩

/-- Counterexample to C7 as stated: the target `(32768, 40000)` lies in tile
`(256, 312)`, and the waypoint stored by `fpathSetDirectRoute` is `(0, 56)`,
the low 8 bits of each tile coordinate. -/
theorem fpathSetDirectRoute_wide_counterexample :
    (map_coord 32768, map_coord 40000) = (256, 312)
    ∧ (fpathSetDirectRoute sampleDroid 32768 40000).sMove.numPoints = 1
    ∧ (fpathSetDirectRoute sampleDroid 32768 40000).sMove.asPath 0 = { x := 0, y := 56 }
    ∧ (fpathSetDirectRoute sampleDroid 32768 40000).sMove.asPath 0
        ≠ { x := map_coord 32768, y := map_coord 40000 } := by
  decide

/-- C7 (amended). `fpathSetDirectRoute` forces a one-waypoint plan and is
idempotent: for every droid and every world target, afterwards `numPoints = 1`,
`asPath[0] = (map_coord(targetX) mod 256, map_coord(targetY) mod 256)`, which
is `(map_coord(targetX), map_coord(targetY))` whenever both tile coordinates
of the target lie in `0..255`, and `Destination = (targetX, targetY)`, whatever
the previous waypoint list; and calling it twice with the same target yields
exactly the same droid record as calling it once. -/
theorem fpathSetDirectRoute_idempotent (psDroid : DROID) (targetX targetY : Int) :
    (fpathSetDirectRoute psDroid targetX targetY).sMove.numPoints = 1
    ∧ (fpathSetDirectRoute psDroid targetX targetY).sMove.asPath 0
        = { x := map_coord targetX % 256, y := map_coord targetY % 256 }
    ∧ (0 ≤ map_coord targetX ∧ map_coord targetX < 256
        ∧ 0 ≤ map_coord targetY ∧ map_coord targetY < 256 →
        (fpathSetDirectRoute psDroid targetX targetY).sMove.asPath 0
          = { x := map_coord targetX, y := map_coord targetY })
    ∧ (fpathSetDirectRoute psDroid targetX targetY).sMove.DestinationX = targetX
    ∧ (fpathSetDirectRoute psDroid targetX targetY).sMove.DestinationY = targetY
    ∧ fpathSetDirectRoute (fpathSetDirectRoute psDroid targetX targetY) targetX targetY
        = fpathSetDirectRoute psDroid targetX targetY := by
  have hpt : (fpathSetDirectRoute psDroid targetX targetY).sMove.asPath 0
      = { x := map_coord targetX % 256, y := map_coord targetY % 256 } := by
    simp [fpathSetDirectRoute]
  refine ⟨rfl, hpt, ?_, rfl, rfl, ?_⟩
  · intro h
    rw [hpt, Int.emod_eq_of_lt h.1 h.2.1, Int.emod_eq_of_lt h.2.2.1 h.2.2.2]
  · simp [fpathSetDirectRoute]

/-- Witness for C7 (amended): the sample droid, which holds the waypoint
`(9, 5)`, is sent straight to `(1280, 640)`: one waypoint `(10, 5)`. -/
theorem fpathSetDirectRoute_idempotent_witness :
    (fpathSetDirectRoute sampleDroid 1280 640).sMove.numPoints = 1
    ∧ (fpathSetDirectRoute sampleDroid 1280 640).sMove.asPath 0 = { x := 10, y := 5 } :=
  ⟨(fpathSetDirectRoute_idempotent sampleDroid 1280 640).1,
    (fpathSetDirectRoute_idempotent sampleDroid 1280 640).2.2.1 (by decide)⟩

/-! ### Update tick -/

/-- C6. Update tick: `fpathUpdate` changes nothing but the partial-route slot;
it clears the slot if and only if a unit is parked and that unit is dead, or
its movement status is not `MOVEWAITROUTE`, or the current frame number is
greater than `lastPartialFrame + 5`; otherwise the slot is unchanged.  So after
every `fpathUpdate` a unit still holding the slot is alive, has status
`MOVEWAITROUTE` and was last advanced at most 5 frames ago. -/
theorem fpathUpdate_slot (env : ENV) (s : WORLD) :
    fpathUpdate env s
        = { s with psPartialRouteDroid := (fpathUpdate env s).psPartialRouteDroid }
    ∧ ((s.psPartialRouteDroid ≠ none ∧ (fpathUpdate env s).psPartialRouteDroid = none) ↔
        ∃ p, s.psPartialRouteDroid = some p
          ∧ ((s.droid p).died ≠ 0 ∨ (s.droid p).sMove.Status ≠ MOVEWAITROUTE
            ∨ env.frameGetFrameNumber > s.lastPartialFrame + 5))
    ∧ ((¬ ∃ p, s.psPartialRouteDroid = some p
          ∧ ((s.droid p).died ≠ 0 ∨ (s.droid p).sMove.Status ≠ MOVEWAITROUTE
            ∨ env.frameGetFrameNumber > s.lastPartialFrame + 5)) →
        (fpathUpdate env s).psPartialRouteDroid = s.psPartialRouteDroid)
    ∧ (∀ p, (fpathUpdate env s).psPartialRouteDroid = some p →
        ((fpathUpdate env s).droid p).died = 0
        ∧ ((fpathUpdate env s).droid p).sMove.Status = MOVEWAITROUTE
        ∧ env.frameGetFrameNumber ≤ (fpathUpdate env s).lastPartialFrame + 5) := by
  unfold fpathUpdate
  cases hp : s.psPartialRouteDroid with
  | none =>
    cases s
    simp_all
  | some p =>
    simp only
    by_cases hc : (s.droid p).died ≠ 0 ∨ (s.droid p).sMove.Status ≠ MOVEWAITROUTE
        ∨ s.lastPartialFrame + 5 < env.frameGetFrameNumber
    · rw [if_pos hc]
      refine ⟨rfl, ?_, ?_, ?_⟩
      · simp only [ne_eq, reduceCtorEq, not_false_eq_true, and_self, Option.some.injEq,
          true_iff]
        exact ⟨p, rfl, hc⟩
      · intro hn
        exact absurd ⟨p, rfl, hc⟩ hn
      · intro q hq
        cases hq
    · rw [if_neg hc]
      refine ⟨?_, ?_, ?_, ?_⟩
      · cases s
        simp_all
      · constructor
        · intro h
          rw [hp] at h
          cases h.2
        · rintro ⟨q, hq, hcq⟩
          cases hq
          exact absurd hcq hc
      · intro _
        exact hp
      · intro q hq
        rw [hp] at hq
        cases hq
        refine ⟨?_, ?_, ?_⟩
        · by_contra h
          exact hc (Or.inl h)
        · by_contra h
          exact hc (Or.inr (Or.inl h))
        · by_contra h
          exact hc (Or.inr (Or.inr (by omega)))

/-! ### Gateway overlay -/

theorem OverlayStage.comp {b : Bool} {P Q : Prop} {m m' m2 : MAP} {x y : Int}
    (h1 : OverlayStage b P m m' x y) (h2 : OverlayStage b Q m' m2 x y) :
    OverlayStage b (P ∨ Q) m m2 x y := by
  by_cases hP : P <;> by_cases hQ : Q
  · refine ⟨fun _ => ?_, fun h => absurd (Or.inl hP) h⟩
    rw [h2.1 hQ, h1.1 hP]
  · refine ⟨fun _ => ?_, fun h => absurd (Or.inl hP) h⟩
    rw [h2.2 hQ, h1.1 hP]
  · refine ⟨fun _ => ?_, fun h => absurd (Or.inr hQ) h⟩
    rw [h2.1 hQ, h1.2 hP]
  · refine ⟨fun h => ?_, fun _ => ?_⟩
    · rcases h with h | h
      · exact absurd h hP
      · exact absurd h hQ
    · rw [h2.2 hQ, h1.2 hP]

theorem OverlayStage.idle (b : Bool) (m : MAP) (x y : Int) :
    OverlayStage b False m m x y :=
  ⟨fun h => h.elim, fun _ => rfl⟩

theorem OverlayStage.congr {b : Bool} {P Q : Prop} {m m' : MAP} {x y : Int}
    (h : OverlayStage b P m m' x y) (hPQ : P ↔ Q) : OverlayStage b Q m m' x y :=
  ⟨fun hq => h.1 (hPQ.2 hq), fun hq => h.2 (fun hp => hq (hPQ.1 hp))⟩

theorem writeFpathBlock_stage (b : Bool) (m : MAP) (a c x y : Int) :
    OverlayStage b ((x, y) = (a, c)) m (writeFpathBlock b m a c) x y := by
  constructor
  · intro h
    cases h
    simp [writeFpathBlock, setMapTile, mapTile]
  · intro h
    have h2 : ¬ (x = a ∧ y = c) := fun hh => h (by rw [hh.1, hh.2])
    simp [writeFpathBlock, setMapTile, mapTile, h2]

theorem writeFpathBlocks_stage (b : Bool) (tiles : List (Int × Int)) :
    ∀ (m : MAP) (x y : Int),
      OverlayStage b ((x, y) ∈ tiles) m (writeFpathBlocks b m tiles) x y := by
  induction tiles with
  | nil =>
    intro m x y
    exact (OverlayStage.idle b m x y).congr (by simp)
  | cons p rest ih =>
    intro m x y
    have h1 := writeFpathBlock_stage b m p.1 p.2 x y
    have h2 := ih (writeFpathBlock b m p.1 p.2) x y
    exact (h1.comp h2).congr (by simp [List.mem_cons])

theorem writeFpathBlocks_dims (b : Bool) (tiles : List (Int × Int)) :
    ∀ (m : MAP), (writeFpathBlocks b m tiles).mapWidth = m.mapWidth
      ∧ (writeFpathBlocks b m tiles).mapHeight = m.mapHeight := by
  induction tiles with
  | nil => intro m; exact ⟨rfl, rfl⟩
  | cons p rest ih =>
    intro m
    exact ih (writeFpathBlock b m p.1 p.2)

/-- The sweep over `psGateways` shared by the set and clear routines: the
gateways selected by `C` have the tiles of their segment written. -/
theorem gatewaySweep_stage (b : Bool) (gw : Nat → GATEWAY) (C : Nat → Prop)
    [DecidablePred C] (L : List Nat) :
    ∀ (m : MAP) (x y : Int),
      OverlayStage b (∃ p ∈ L, C p ∧ (x, y) ∈ gatewaySegmentTiles (gw p)) m
        (L.foldl (fun acc psCurr =>
          if C psCurr then writeFpathBlocks b acc (gatewaySegmentTiles (gw psCurr))
          else acc) m) x y := by
  induction L with
  | nil =>
    intro m x y
    exact (OverlayStage.idle b m x y).congr (by simp)
  | cons p rest ih =>
    intro m x y
    rw [List.foldl_cons]
    by_cases hC : C p
    · rw [if_pos hC]
      have h1 := writeFpathBlocks_stage b (gatewaySegmentTiles (gw p)) m x y
      have h2 := ih (writeFpathBlocks b m (gatewaySegmentTiles (gw p))) x y
      refine (h1.comp h2).congr ?_
      simp only [List.mem_cons, exists_eq_or_imp]
      tauto
    · rw [if_neg hC]
      refine (ih m x y).congr ?_
      simp only [List.mem_cons, exists_eq_or_imp]
      tauto

theorem gatewaySweep_dims (b : Bool) (gw : Nat → GATEWAY) (C : Nat → Prop)
    [DecidablePred C] (L : List Nat) :
    ∀ (m : MAP),
      (L.foldl (fun acc psCurr =>
          if C psCurr then writeFpathBlocks b acc (gatewaySegmentTiles (gw psCurr))
          else acc) m).mapWidth = m.mapWidth
      ∧ (L.foldl (fun acc psCurr =>
          if C psCurr then writeFpathBlocks b acc (gatewaySegmentTiles (gw psCurr))
          else acc) m).mapHeight = m.mapHeight := by
  induction L with
  | nil => intro m; exact ⟨rfl, rfl⟩
  | cons p rest ih =>
    intro m
    rw [List.foldl_cons]
    by_cases hC : C p
    · rw [if_pos hC]
      have h1 := writeFpathBlocks_dims b (gatewaySegmentTiles (gw p)) m
      have h2 := ih (writeFpathBlocks b m (gatewaySegmentTiles (gw p)))
      exact ⟨h2.1.trans h1.1, h2.2.trans h1.2⟩
    · rw [if_neg hC]
      exact ih m

theorem gatewayRingTiles_dims (gwGetZone : Int → Int → Int) (m m' : MAP) (g : GATEWAY)
    (bz : Int) (hw : m'.mapWidth = m.mapWidth) (hh : m'.mapHeight = m.mapHeight) :
    gatewayRingTiles gwGetZone m' g bz = gatewayRingTiles gwGetZone m g bz := by
  unfold gatewayRingTiles tileOnMap
  rw [hw, hh]


theorem fpathSetGatewayBlock_stage (gwGetZone : Int → Int → Int) (gw : Nat → GATEWAY)
    (psGateways : List Nat) (zone : Int) (psLast psNext : Option Nat) (m : MAP) (x y : Int) :
    OverlayStage true
      (((∃ p ∈ psGateways,
          (some p ≠ psLast ∧ some p ≠ psNext ∧ ¬ (gw p).GWR_WATERLINK = true
            ∧ ((gw p).zone1 = zone ∨ (gw p).zone2 = zone))
          ∧ (x, y) ∈ gatewaySegmentTiles (gw p))
        ∨ (∃ l, psLast = some l ∧ (x, y) ∈ gatewayRingTiles gwGetZone m (gw l)
            (if (gw l).GWR_ZONE1 then (gw l).zone1 else (gw l).zone2)))
        ∨ (∃ n, psNext = some n ∧ (x, y) ∈ gatewayRingTiles gwGetZone m (gw n)
            (if (gw n).GWR_ZONE1 then (gw n).zone2 else (gw n).zone1)))
      m (fpathSetGatewayBlock gwGetZone gw psGateways zone psLast psNext m) x y := by
  unfold fpathSetGatewayBlock
  have h1 := gatewaySweep_stage true gw (fun p => some p ≠ psLast ∧ some p ≠ psNext
    ∧ ¬ (gw p).GWR_WATERLINK = true ∧ ((gw p).zone1 = zone ∨ (gw p).zone2 = zone))
    psGateways m x y
  have d1 := gatewaySweep_dims true gw (fun p => some p ≠ psLast ∧ some p ≠ psNext
    ∧ ¬ (gw p).GWR_WATERLINK = true ∧ ((gw p).zone1 = zone ∨ (gw p).zone2 = zone))
    psGateways m
  generalize (psGateways.foldl (fun acc psCurr =>
    if some psCurr ≠ psLast ∧ some psCurr ≠ psNext ∧ ¬ (gw psCurr).GWR_WATERLINK = true
        ∧ ((gw psCurr).zone1 = zone ∨ (gw psCurr).zone2 = zone) then
      writeFpathBlocks true acc (gatewaySegmentTiles (gw psCurr))
    else acc) m) = m1 at h1 d1
  have e1 : ∀ g bz, gatewayRingTiles gwGetZone m1 g bz = gatewayRingTiles gwGetZone m g bz :=
    fun g bz => gatewayRingTiles_dims gwGetZone m m1 g bz d1.1 d1.2
  cases psLast with
  | none =>
    cases psNext with
    | none =>
      exact h1.congr (by simp)
    | some n =>
      simp only [e1]
      exact (h1.comp (writeFpathBlocks_stage true _ m1 x y)).congr (by simp)
  | some l =>
    have e2 : ∀ g bz, gatewayRingTiles gwGetZone
        (writeFpathBlocks true m1 (gatewayRingTiles gwGetZone m (gw l)
          (if (gw l).GWR_ZONE1 then (gw l).zone1 else (gw l).zone2))) g bz
        = gatewayRingTiles gwGetZone m g bz :=
      fun g bz => gatewayRingTiles_dims gwGetZone m _ g bz
        ((writeFpathBlocks_dims true _ m1).1.trans d1.1)
        ((writeFpathBlocks_dims true _ m1).2.trans d1.2)
    cases psNext with
    | none =>
      simp only [e1]
      exact (h1.comp (writeFpathBlocks_stage true _ m1 x y)).congr (by simp)
    | some n =>
      simp only [e1, e2]
      exact ((h1.comp (writeFpathBlocks_stage true _ m1 x y)).comp
        (writeFpathBlocks_stage true _ _ x y)).congr (by simp)

theorem fpathSetGatewayBlock_dims (gwGetZone : Int → Int → Int) (gw : Nat → GATEWAY)
    (psGateways : List Nat) (zone : Int) (psLast psNext : Option Nat) (m : MAP) :
    (fpathSetGatewayBlock gwGetZone gw psGateways zone psLast psNext m).mapWidth = m.mapWidth
    ∧ (fpathSetGatewayBlock gwGetZone gw psGateways zone psLast psNext m).mapHeight
        = m.mapHeight := by
  unfold fpathSetGatewayBlock
  have d1 := gatewaySweep_dims true gw (fun p => some p ≠ psLast ∧ some p ≠ psNext
    ∧ ¬ (gw p).GWR_WATERLINK = true ∧ ((gw p).zone1 = zone ∨ (gw p).zone2 = zone))
    psGateways m
  generalize (psGateways.foldl (fun acc psCurr =>
    if some psCurr ≠ psLast ∧ some psCurr ≠ psNext ∧ ¬ (gw psCurr).GWR_WATERLINK = true
        ∧ ((gw psCurr).zone1 = zone ∨ (gw psCurr).zone2 = zone) then
      writeFpathBlocks true acc (gatewaySegmentTiles (gw psCurr))
    else acc) m) = m1 at d1
  simp only
  cases psLast <;> cases psNext <;> simp only [writeFpathBlocks_dims, d1, and_self]

theorem fpathClearGatewayBlock_stage (gwGetZone : Int → Int → Int) (gw : Nat → GATEWAY)
    (psGateways : List Nat) (zone : Int) (psLast psNext : Option Nat) (m : MAP) (x y : Int) :
    OverlayStage false
      (((∃ p ∈ psGateways,
          (¬ (gw p).GWR_WATERLINK = true ∧ ((gw p).zone1 = zone ∨ (gw p).zone2 = zone))
          ∧ (x, y) ∈ gatewaySegmentTiles (gw p))
        ∨ (∃ l, psLast = some l ∧ (x, y) ∈ gatewayRingTiles gwGetZone m (gw l)
            (if (gw l).GWR_ZONE1 then (gw l).zone1 else (gw l).zone2)))
        ∨ (∃ n, psNext = some n ∧ (x, y) ∈ gatewayRingTiles gwGetZone m (gw n)
            (if (gw n).GWR_ZONE1 then (gw n).zone2 else (gw n).zone1)))
      m (fpathClearGatewayBlock gwGetZone gw psGateways zone psLast psNext m) x y := by
  unfold fpathClearGatewayBlock
  have h1 := gatewaySweep_stage false gw (fun p => ¬ (gw p).GWR_WATERLINK = true
    ∧ ((gw p).zone1 = zone ∨ (gw p).zone2 = zone)) psGateways m x y
  have d1 := gatewaySweep_dims false gw (fun p => ¬ (gw p).GWR_WATERLINK = true
    ∧ ((gw p).zone1 = zone ∨ (gw p).zone2 = zone)) psGateways m
  generalize (psGateways.foldl (fun acc psCurr =>
    if ¬ (gw psCurr).GWR_WATERLINK = true
        ∧ ((gw psCurr).zone1 = zone ∨ (gw psCurr).zone2 = zone) then
      writeFpathBlocks false acc (gatewaySegmentTiles (gw psCurr))
    else acc) m) = m1 at h1 d1
  have e1 : ∀ g bz, gatewayRingTiles gwGetZone m1 g bz = gatewayRingTiles gwGetZone m g bz :=
    fun g bz => gatewayRingTiles_dims gwGetZone m m1 g bz d1.1 d1.2
  cases psLast with
  | none =>
    cases psNext with
    | none =>
      exact h1.congr (by simp)
    | some n =>
      simp only [e1]
      exact (h1.comp (writeFpathBlocks_stage false _ m1 x y)).congr (by simp)
  | some l =>
    have e2 : ∀ g bz, gatewayRingTiles gwGetZone
        (writeFpathBlocks false m1 (gatewayRingTiles gwGetZone m (gw l)
          (if (gw l).GWR_ZONE1 then (gw l).zone1 else (gw l).zone2))) g bz
        = gatewayRingTiles gwGetZone m g bz :=
      fun g bz => gatewayRingTiles_dims gwGetZone m _ g bz
        ((writeFpathBlocks_dims false _ m1).1.trans d1.1)
        ((writeFpathBlocks_dims false _ m1).2.trans d1.2)
    cases psNext with
    | none =>
      simp only [e1]
      exact (h1.comp (writeFpathBlocks_stage false _ m1 x y)).congr (by simp)
    | some n =>
      simp only [e1, e2]
      exact ((h1.comp (writeFpathBlocks_stage false _ m1 x y)).comp
        (writeFpathBlocks_stage false _ _ x y)).congr (by simp)

/-- Set followed by clear restores every tile of a map that carried no
`FPATHBLOCK` bit. -/
theorem setClear_tile (gwGetZone : Int → Int → Int) (gw : Nat → GATEWAY)
    (psGateways : List Nat) (zone : Int) (psLast psNext : Option Nat) (m : MAP)
    (hclean : ∀ x y, (mapTile m x y).fpathBlock = false) (x y : Int) :
    mapTile (fpathClearGatewayBlock gwGetZone gw psGateways zone psLast psNext
      (fpathSetGatewayBlock gwGetZone gw psGateways zone psLast psNext m)) x y
      = mapTile m x y := by
  have hs := fpathSetGatewayBlock_stage gwGetZone gw psGateways zone psLast psNext m x y
  have ds := fpathSetGatewayBlock_dims gwGetZone gw psGateways zone psLast psNext m
  have hc := fpathClearGatewayBlock_stage gwGetZone gw psGateways zone psLast psNext
    (fpathSetGatewayBlock gwGetZone gw psGateways zone psLast psNext m) x y
  have e3 : ∀ g bz, gatewayRingTiles gwGetZone
      (fpathSetGatewayBlock gwGetZone gw psGateways zone psLast psNext m) g bz
      = gatewayRingTiles gwGetZone m g bz :=
    fun g bz => gatewayRingTiles_dims gwGetZone m _ g bz ds.1 ds.2
  simp only [e3] at hc
  have hself : ({ mapTile m x y with fpathBlock := false } : MAPTILE) = mapTile m x y := by
    have := hclean x y
    cases h : mapTile m x y
    rw [h] at this
    simp only at this
    simp [this]
  by_cases hS : ((∃ p ∈ psGateways,
          (some p ≠ psLast ∧ some p ≠ psNext ∧ ¬ (gw p).GWR_WATERLINK = true
            ∧ ((gw p).zone1 = zone ∨ (gw p).zone2 = zone))
          ∧ (x, y) ∈ gatewaySegmentTiles (gw p))
        ∨ (∃ l, psLast = some l ∧ (x, y) ∈ gatewayRingTiles gwGetZone m (gw l)
            (if (gw l).GWR_ZONE1 then (gw l).zone1 else (gw l).zone2)))
        ∨ (∃ n, psNext = some n ∧ (x, y) ∈ gatewayRingTiles gwGetZone m (gw n)
            (if (gw n).GWR_ZONE1 then (gw n).zone2 else (gw n).zone1))
  · have hC : ((∃ p ∈ psGateways,
          (¬ (gw p).GWR_WATERLINK = true ∧ ((gw p).zone1 = zone ∨ (gw p).zone2 = zone))
          ∧ (x, y) ∈ gatewaySegmentTiles (gw p))
        ∨ (∃ l, psLast = some l ∧ (x, y) ∈ gatewayRingTiles gwGetZone m (gw l)
            (if (gw l).GWR_ZONE1 then (gw l).zone1 else (gw l).zone2)))
        ∨ (∃ n, psNext = some n ∧ (x, y) ∈ gatewayRingTiles gwGetZone m (gw n)
            (if (gw n).GWR_ZONE1 then (gw n).zone2 else (gw n).zone1)) := by
      rcases hS with (⟨p, hp, hc1, hc2⟩ | h) | h
      · exact Or.inl (Or.inl ⟨p, hp, ⟨hc1.2.2.1, hc1.2.2.2⟩, hc2⟩)
      · exact Or.inl (Or.inr h)
      · exact Or.inr h
    rw [hc.1 hC, hs.1 hS]
    exact hself
  · by_cases hC : ((∃ p ∈ psGateways,
          (¬ (gw p).GWR_WATERLINK = true ∧ ((gw p).zone1 = zone ∨ (gw p).zone2 = zone))
          ∧ (x, y) ∈ gatewaySegmentTiles (gw p))
        ∨ (∃ l, psLast = some l ∧ (x, y) ∈ gatewayRingTiles gwGetZone m (gw l)
            (if (gw l).GWR_ZONE1 then (gw l).zone1 else (gw l).zone2)))
        ∨ (∃ n, psNext = some n ∧ (x, y) ∈ gatewayRingTiles gwGetZone m (gw n)
            (if (gw n).GWR_ZONE1 then (gw n).zone2 else (gw n).zone1))
    · rw [hc.1 hC, hs.2 hS]
      exact hself
    · rw [hc.2 hC, hs.2 hS]

theorem writeFpathBlocks_shape (b : Bool) (tiles : List (Int × Int)) :
    ∀ (m : MAP), writeFpathBlocks b m tiles
      = { m with psMapTiles := (writeFpathBlocks b m tiles).psMapTiles } := by
  induction tiles with
  | nil => intro m; rfl
  | cons p rest ih =>
    intro m
    have h := ih (writeFpathBlock b m p.1 p.2)
    have e : writeFpathBlocks b m (p :: rest)
        = writeFpathBlocks b (writeFpathBlock b m p.1 p.2) rest := rfl
    rw [e, h]
    rfl

theorem gatewaySweep_shape (b : Bool) (gw : Nat → GATEWAY) (C : Nat → Prop)
    [DecidablePred C] (L : List Nat) :
    ∀ (m : MAP),
      (L.foldl (fun acc psCurr =>
          if C psCurr then writeFpathBlocks b acc (gatewaySegmentTiles (gw psCurr))
          else acc) m)
      = { m with psMapTiles := (L.foldl (fun acc psCurr =>
          if C psCurr then writeFpathBlocks b acc (gatewaySegmentTiles (gw psCurr))
          else acc) m).psMapTiles } := by
  induction L with
  | nil => intro m; rfl
  | cons p rest ih =>
    intro m
    rw [List.foldl_cons]
    by_cases hC : C p
    · rw [if_pos hC]
      have h1 := writeFpathBlocks_shape b (gatewaySegmentTiles (gw p)) m
      have h2 := ih (writeFpathBlocks b m (gatewaySegmentTiles (gw p)))
      rw [h2, h1]
    · rw [if_neg hC]
      exact ih m

theorem fpathSetGatewayBlock_shape (gwGetZone : Int → Int → Int) (gw : Nat → GATEWAY)
    (psGateways : List Nat) (zone : Int) (psLast psNext : Option Nat) (m : MAP) :
    fpathSetGatewayBlock gwGetZone gw psGateways zone psLast psNext m
      = { m with psMapTiles :=
          (fpathSetGatewayBlock gwGetZone gw psGateways zone psLast psNext m).psMapTiles } := by
  unfold fpathSetGatewayBlock
  have d1 := gatewaySweep_shape true gw (fun p => some p ≠ psLast ∧ some p ≠ psNext
    ∧ ¬ (gw p).GWR_WATERLINK = true ∧ ((gw p).zone1 = zone ∨ (gw p).zone2 = zone))
    psGateways m
  generalize (psGateways.foldl (fun acc psCurr =>
    if some psCurr ≠ psLast ∧ some psCurr ≠ psNext ∧ ¬ (gw psCurr).GWR_WATERLINK = true
        ∧ ((gw psCurr).zone1 = zone ∨ (gw psCurr).zone2 = zone) then
      writeFpathBlocks true acc (gatewaySegmentTiles (gw psCurr))
    else acc) m) = m1 at d1
  cases psLast <;> cases psNext <;> simp only
  · exact d1
  · rw [writeFpathBlocks_shape, d1]
  · rw [writeFpathBlocks_shape, d1]
  · rw [writeFpathBlocks_shape, writeFpathBlocks_shape true _ m1, d1]

theorem fpathClearGatewayBlock_shape (gwGetZone : Int → Int → Int) (gw : Nat → GATEWAY)
    (psGateways : List Nat) (zone : Int) (psLast psNext : Option Nat) (m : MAP) :
    fpathClearGatewayBlock gwGetZone gw psGateways zone psLast psNext m
      = { m with psMapTiles :=
          (fpathClearGatewayBlock gwGetZone gw psGateways zone psLast psNext m).psMapTiles } := by
  unfold fpathClearGatewayBlock
  have d1 := gatewaySweep_shape false gw (fun p => ¬ (gw p).GWR_WATERLINK = true
    ∧ ((gw p).zone1 = zone ∨ (gw p).zone2 = zone)) psGateways m
  generalize (psGateways.foldl (fun acc psCurr =>
    if ¬ (gw psCurr).GWR_WATERLINK = true
        ∧ ((gw psCurr).zone1 = zone ∨ (gw psCurr).zone2 = zone) then
      writeFpathBlocks false acc (gatewaySegmentTiles (gw psCurr))
    else acc) m) = m1 at d1
  cases psLast <;> cases psNext <;> simp only
  · exact d1
  · rw [writeFpathBlocks_shape, d1]
  · rw [writeFpathBlocks_shape, d1]
  · rw [writeFpathBlocks_shape, writeFpathBlocks_shape false _ m1, d1]

/-- Set followed by clear gives back a map that carried no `FPATHBLOCK`
bit. -/
theorem setClear_map (gwGetZone : Int → Int → Int) (gw : Nat → GATEWAY)
    (psGateways : List Nat) (zone : Int) (psLast psNext : Option Nat) (m : MAP)
    (hclean : ∀ x y, (mapTile m x y).fpathBlock = false) :
    fpathClearGatewayBlock gwGetZone gw psGateways zone psLast psNext
      (fpathSetGatewayBlock gwGetZone gw psGateways zone psLast psNext m) = m := by
  have h1 := fpathClearGatewayBlock_shape gwGetZone gw psGateways zone psLast psNext
    (fpathSetGatewayBlock gwGetZone gw psGateways zone psLast psNext m)
  have h2 := fpathSetGatewayBlock_shape gwGetZone gw psGateways zone psLast psNext m
  have h3 : (fpathClearGatewayBlock gwGetZone gw psGateways zone psLast psNext
      (fpathSetGatewayBlock gwGetZone gw psGateways zone psLast psNext m)).psMapTiles
      = m.psMapTiles := by
    funext x y
    exact setClear_tile gwGetZone gw psGateways zone psLast psNext m hclean x y
  rw [h1, h3, h2]

/-! ### Planner frame -/

theorem PlannerFrame.same (psDroid : Nat) (s : WORLD) : PlannerFrame psDroid s s :=
  ⟨rfl, fun _ => rfl⟩

theorem PlannerFrame.trans {psDroid : Nat} {s s1 s2 : WORLD}
    (h1 : PlannerFrame psDroid s s1) (h2 : PlannerFrame psDroid s1 s2) :
    PlannerFrame psDroid s s2 := by
  refine ⟨h2.1.trans h1.1, fun hc => ?_⟩
  have e1 := h1.2 hc
  have hc1 : ∀ x y, (mapTile s1.map x y).fpathBlock = false := by
    rw [e1]
    exact hc
  exact (h2.2 hc1).trans e1

theorem PlannerFrame.of_eq {psDroid : Nat} {s s' : WORLD}
    (h1 : plannerKept psDroid s' = plannerKept psDroid s) (h2 : s'.map = s.map) :
    PlannerFrame psDroid s s' :=
  ⟨h1, fun _ => h2⟩

theorem PlannerFrame_bracket (env : ENV) (psDroid : Nat) (routeMode : ASR_MODE) (zone : Int)
    (s : WORLD) : PlannerFrame psDroid s (fpathRouteBracket env routeMode zone s) := by
  refine ⟨rfl, fun hclean => ?_⟩
  exact setClear_map env.gwGetZone s.gw s.psGateways zone s.psLastGW s.psCurrRoute s.map
    hclean

theorem adoptCloserRoute_kept (T : Nat) (mc : MOVE_CONTROL) (r : ASTAR_ROUTE) (fx fy : Int) :
    (adoptCloserRoute T mc r fx fy).Status = mc.Status
    ∧ (adoptCloserRoute T mc r fx fy).psFormation = mc.psFormation := by
  unfold adoptCloserRoute
  split_ifs
  · exact ⟨rfl, rfl⟩
  · exact ⟨rfl, rfl⟩

theorem PlannerFrame_setMove (psDroid : Nat) (s : WORLD) (mc : MOVE_CONTROL)
    (h1 : mc.Status = (s.droid psDroid).sMove.Status)
    (h2 : mc.psFormation = (s.droid psDroid).sMove.psFormation) :
    PlannerFrame psDroid s (setMove s psDroid mc) := by
  refine PlannerFrame.of_eq ?_ rfl
  unfold plannerKept setMove
  simp only [PLANNER_KEPT.mk.injEq, and_true, true_and]
  funext q
  unfold keptDroid
  by_cases hq : q = psDroid
  · subst hq
    simp only [if_true, Function.update_same, h1, h2]
  · simp only [if_neg hq, Function.update_noteq hq]

theorem PlannerFrame_adoptStep (env : ENV) (psDroid : Nat) (fx fy : Int) (s : WORLD) :
    PlannerFrame psDroid s (adoptStep env psDroid fx fy s) := by
  unfold adoptStep
  exact PlannerFrame_setMove psDroid s _ (adoptCloserRoute_kept _ _ _ _ _).1
    (adoptCloserRoute_kept _ _ _ _ _).2

theorem fpathGatewayRouteHop_frame (env : ENV) (psDroid : Nat) (fx fy : Int)
    (routeMode : ASR_MODE) (s : WORLD) :
    PlannerFrame psDroid s (fpathGatewayRouteHop env psDroid fx fy routeMode s).world := by
  have hb : ∀ (a b z : Int),
      PlannerFrame psDroid s
        (fpathRouteBracket env routeMode z { s with gwx := a, gwy := b }) :=
    fun a b z => (PlannerFrame.of_eq rfl rfl).trans
      (PlannerFrame_bracket env psDroid routeMode z { s with gwx := a, gwy := b })
  unfold fpathGatewayRouteHop
  simp only
  split_ifs
  all_goals first
    | exact hb _ _ _
    | exact (hb _ _ _).trans (PlannerFrame_adoptStep env psDroid fx fy _)
    | exact ((hb _ _ _).trans (PlannerFrame_adoptStep env psDroid fx fy _)).trans
        (PlannerFrame.of_eq rfl rfl)
    | (split
       · exact (hb _ _ _).trans (PlannerFrame.of_eq rfl rfl)
       · exact (hb _ _ _).trans (PlannerFrame.of_eq rfl rfl))

theorem fpathGatewayRouteWalk_frame (env : ENV) (psDroid : Nat) (fx fy : Int) :
    ∀ (fuel : Nat) (routeMode : ASR_MODE) (s : WORLD) (res : WALK_RESULT),
      fpathGatewayRouteWalk env psDroid fx fy fuel routeMode s = some res →
      PlannerFrame psDroid s res.world := by
  intro fuel
  induction fuel with
  | zero =>
    intro routeMode s res h
    simp [fpathGatewayRouteWalk] at h
  | succ n ih =>
    intro routeMode s res h
    have hk := fpathGatewayRouteHop_frame env psDroid fx fy routeMode s
    unfold fpathGatewayRouteWalk at h
    cases hh : fpathGatewayRouteHop env psDroid fx fy routeMode s with
    | Next s1 =>
      rw [hh] at h hk
      simp only at h
      exact hk.trans (ih _ _ _ h)
    | Done r =>
      rw [hh] at h hk
      simp only [Option.some.injEq] at h
      subst h
      exact hk

theorem fpathGatewayRouteRequest_frame (env : ENV) (psDroid : Nat) (GWTerrain : GWR_TERRAIN)
    (sx sy fx fy : Int) (s : WORLD) :
    PlannerFrame psDroid s
      (fpathGatewayRouteRequest env psDroid GWTerrain sx sy fx fy s).2 := by
  unfold fpathGatewayRouteRequest
  simp only
  split <;> (try split_ifs) <;> exact PlannerFrame.of_eq rfl rfl

theorem fpathGatewayRouteStart_frame (psDroid : Nat) (sx sy : Int) (s : WORLD) :
    PlannerFrame psDroid s (fpathGatewayRouteStart sx sy s) := by
  unfold fpathGatewayRouteStart
  simp only
  split <;> (try split_ifs) <;> exact PlannerFrame.of_eq rfl rfl

theorem fpathGatewayRouteLoop_frame (env : ENV) (psDroid : Nat) (GWTerrain : GWR_TERRAIN)
    (sx sy fx fy : Int) (walkFuel : Nat) :
    ∀ (fuel : Nat) (routeMode : ASR_MODE) (s : WORLD) (r : FPATH_RETVAL × WORLD),
      fpathGatewayRouteLoop env psDroid GWTerrain sx sy fx fy walkFuel fuel routeMode s
        = some r →
      PlannerFrame psDroid s r.2 := by
  intro fuel
  induction fuel with
  | zero =>
    intro routeMode s r h
    simp [fpathGatewayRouteLoop] at h
  | succ n ih =>
    intro routeMode s r h
    unfold fpathGatewayRouteLoop at h
    simp only at h
    have hreq : PlannerFrame psDroid s
        (if routeMode = ASR_NEWROUTE then
          fpathGatewayRouteRequest env psDroid GWTerrain sx sy fx fy s
        else (none, s)).2 := by
      split_ifs
      · exact fpathGatewayRouteRequest_frame env psDroid GWTerrain sx sy fx fy s
      · exact PlannerFrame.same psDroid s
    generalize (if routeMode = ASR_NEWROUTE then
          fpathGatewayRouteRequest env psDroid GWTerrain sx sy fx fy s
        else (none, s)) = q at h hreq
    split at h
    · simp only [Option.some.injEq] at h
      subst h
      exact hreq
    · have hs2 : PlannerFrame psDroid s
          (if routeMode = ASR_NEWROUTE then
            fpathGatewayRouteStart sx sy { q.2 with bFirstRoute := false }
          else { q.2 with bFirstRoute := false }) := by
        split_ifs
        · exact (hreq.trans (PlannerFrame.of_eq rfl rfl)).trans
            (fpathGatewayRouteStart_frame psDroid sx sy _)
        · exact hreq.trans (PlannerFrame.of_eq rfl rfl)
      generalize (if routeMode = ASR_NEWROUTE then
            fpathGatewayRouteStart sx sy { q.2 with bFirstRoute := false }
          else { q.2 with bFirstRoute := false }) = s2 at h hs2
      split at h
      · cases h
      · rename_i retval s3 hw
        simp only [Option.some.injEq] at h
        subst h
        exact hs2.trans (fpathGatewayRouteWalk_frame env psDroid fx fy _ _ _ _ hw)
      · rename_i s3 hw
        exact (hs2.trans (fpathGatewayRouteWalk_frame env psDroid fx fy _ _ _ _ hw)).trans
          (ih _ _ _ h)
      · rename_i s3 hw
        simp only [Option.some.injEq] at h
        subst h
        exact (hs2.trans (fpathGatewayRouteWalk_frame env psDroid fx fy _ _ _ _ hw)).trans
          (PlannerFrame_adoptStep env psDroid fx fy _)

theorem fpathGatewayRouteInit_frame (psDroid : Nat) (routeMode : ASR_MODE) (s : WORLD) :
    PlannerFrame psDroid s (fpathGatewayRouteInit psDroid routeMode s) := by
  unfold fpathGatewayRouteInit
  split_ifs
  · exact ((PlannerFrame.of_eq rfl rfl).trans
      (PlannerFrame_setMove psDroid { s with gw := fpathClearIgnore s.gw s.psGateways }
        { (s.droid psDroid).sMove with numPoints := 0 } rfl rfl)).trans
      (PlannerFrame.of_eq rfl rfl)
  · exact PlannerFrame.same psDroid s

theorem fpathGatewayRouteExit_frame (psDroid : Nat) (retval : FPATH_RETVAL) (s : WORLD) :
    PlannerFrame psDroid s (fpathGatewayRouteExit retval s) := by
  unfold fpathGatewayRouteExit
  split_ifs <;> exact PlannerFrame.of_eq rfl rfl

/-- Frame of the planner: whatever `fpathGatewayRoute` returns, it leaves the
gateway list, the installed predicate, the partial-route slot, the raycast
variables and every droid record unchanged, up to the waypoints of the routed
droid; and it leaves the map unchanged when the map carried no `FPATHBLOCK`
bit. -/
theorem fpathGatewayRoute_frame (env : ENV) (fuel psDroid : Nat) (routeMode : ASR_MODE)
    (GWTerrain : GWR_TERRAIN) (sx sy fx fy : Int) (s : WORLD)
    (r : FPATH_RETVAL × WORLD)
    (h : fpathGatewayRoute env fuel psDroid routeMode GWTerrain sx sy fx fy s = some r) :
    PlannerFrame psDroid s r.2 := by
  unfold fpathGatewayRoute at h
  have h0 := fpathGatewayRouteInit_frame psDroid routeMode s
  generalize fpathGatewayRouteInit psDroid routeMode s = s0 at h h0
  split at h
  · cases h
  · rename_i retval s3 hl
    simp only [Option.some.injEq] at h
    subst h
    exact (h0.trans (fpathGatewayRouteLoop_frame env psDroid GWTerrain sx sy fx fy fuel fuel
      routeMode s0 _ hl)).trans (fpathGatewayRouteExit_frame psDroid retval s3)

/-- C1. Overlay round trip: for every gateway list whose segments lie on the
map, every zone and every `psLast`/`psNext` (each possibly null), on a map
where no tile has `FPATHBLOCK` set, `fpathSetGatewayBlock` followed by
`fpathClearGatewayBlock` leaves every tile with `FPATHBLOCK` clear and every
tile unchanged; so the set / tile-A* / clear bracket of the planner returns the
map to its `FPATHBLOCK`-free state, and so does every call of the planner that
returns, with `FPR_WAIT` as well as with any other value. -/
theorem gateway_overlay_round_trip (gwGetZone : Int → Int → Int) (gw : Nat → GATEWAY)
    (psGateways : List Nat) (zone : Int) (psLast psNext : Option Nat) (m : MAP)
    (hclean : ∀ x y, (mapTile m x y).fpathBlock = false)
    (_honmap : ∀ p ∈ psGateways,
      tileOnMap m (gw p).x1 (gw p).y1 = true ∧ tileOnMap m (gw p).x2 (gw p).y2 = true) :
    (∀ x y,
      (mapTile (fpathClearGatewayBlock gwGetZone gw psGateways zone psLast psNext
        (fpathSetGatewayBlock gwGetZone gw psGateways zone psLast psNext m)) x y).fpathBlock
          = false
      ∧ mapTile (fpathClearGatewayBlock gwGetZone gw psGateways zone psLast psNext
        (fpathSetGatewayBlock gwGetZone gw psGateways zone psLast psNext m)) x y
          = mapTile m x y)
    ∧ (∀ (env : ENV) (routeMode : ASR_MODE) (s : WORLD),
        env.gwGetZone = gwGetZone → s.gw = gw → s.psGateways = psGateways →
        s.psLastGW = psLast → s.psCurrRoute = psNext → s.map = m →
        (fpathRouteBracket env routeMode zone s).map = m)
    ∧ (∀ (env : ENV) (fuel psDroid : Nat) (routeMode : ASR_MODE) (GWTerrain : GWR_TERRAIN)
        (sx sy fx fy : Int) (s : WORLD) (r : FPATH_RETVAL × WORLD),
        s.gw = gw → s.psGateways = psGateways → s.map = m →
        fpathGatewayRoute env fuel psDroid routeMode GWTerrain sx sy fx fy s = some r →
        r.2.map = m) := by
  refine ⟨?_, ?_, ?_⟩
  · intro x y
    have h := setClear_tile gwGetZone gw psGateways zone psLast psNext m hclean x y
    exact ⟨by rw [h]; exact hclean x y, h⟩
  · intro env routeMode s _ _ _ _ _ hm
    have h := (PlannerFrame_bracket env 0 routeMode zone s).2 (by rw [hm]; exact hclean)
    rw [h, hm]
  · intro env fuel psDroid routeMode GWTerrain sx sy fx fy s r _ _ hm h
    have hf := (fpathGatewayRoute_frame env fuel psDroid routeMode GWTerrain sx sy fx fy s r
      h).2 (by rw [hm]; exact hclean)
    rw [hf, hm]

/-- Witness for C1: on the all-land sample map, with `psLast` the column
gateway 0 and zone 2, the overlay sets `FPATHBLOCK` on ring tile `(14, 5)` and
on tile `(20, 10)` of gateway 1, and the clear routine removes it again. -/
theorem gateway_overlay_round_trip_witness :
    (mapTile (fpathSetGatewayBlock sampleZone sampleGw [0, 1] 2 (some 0) none sampleMap)
        14 5).fpathBlock = true
    ∧ (mapTile (fpathSetGatewayBlock sampleZone sampleGw [0, 1] 2 (some 0) none sampleMap)
        20 10).fpathBlock = true
    ∧ (∀ x y,
      (mapTile (fpathClearGatewayBlock sampleZone sampleGw [0, 1] 2 (some 0) none
        (fpathSetGatewayBlock sampleZone sampleGw [0, 1] 2 (some 0) none sampleMap))
          x y).fpathBlock = false
      ∧ mapTile (fpathClearGatewayBlock sampleZone sampleGw [0, 1] 2 (some 0) none
        (fpathSetGatewayBlock sampleZone sampleGw [0, 1] 2 (some 0) none sampleMap)) x y
          = mapTile sampleMap x y) :=
  ⟨by decide, by decide,
    (gateway_overlay_round_trip sampleZone sampleGw [0, 1] 2 (some 0) none sampleMap
      (fun _ _ => rfl) (by decide)).1⟩

/-! ### Gateway flags -/

theorem clearLinksBlocked_get (numLinks : Nat) :
    ∀ (l : List GATEWAY_LINK) (i j : Nat) (k : GATEWAY_LINK),
      (clearLinksBlocked numLinks i l)[j]? = some k → i + j < numLinks →
      k.GWRL_BLOCKED = false := by
  intro l
  induction l with
  | nil =>
    intro i j k h _
    simp [clearLinksBlocked] at h
  | cons a rest ih =>
    intro i j k h hlt
    cases j with
    | zero =>
      simp only [clearLinksBlocked, List.getElem?_cons_zero, Option.some.injEq] at h
      rw [if_pos (by omega)] at h
      rw [← h]
    | succ j' =>
      simp only [clearLinksBlocked, List.getElem?_cons_succ] at h
      exact ih (i + 1) j' k h (by omega)

theorem fpathClearIgnore_clear (L : List Nat) :
    ∀ (gw : Nat → GATEWAY) (p : Nat), (p ∈ L ∨ gatewayFlagsClear (gw p)) →
      gatewayFlagsClear (fpathClearIgnore gw L p) := by
  induction L with
  | nil =>
    intro gw p h
    rcases h with h | h
    · cases h
    · exact h
  | cons q rest ih =>
    intro gw p h
    unfold fpathClearIgnore
    rw [List.foldl_cons]
    apply ih
    by_cases hpq : p = q
    · right
      subst hpq
      rw [Function.update_same]
      refine ⟨rfl, ?_⟩
      intro link hlink k hk
      exact clearLinksBlocked_get _ _ 0 link k hk (by simpa using hlink)
    · rcases h with h | h
      · left
        rcases List.mem_cons.mp h with h | h
        · exact absurd h hpq
        · exact h
      · right
        rw [Function.update_noteq hpq]
        exact h

/-- C3. Gateway flag cleanliness: for every invocation of the hierarchical
planner `fpathGatewayRoute` (any mode, any answers of the gateway A*, of the
tile A* and of `actionRouteBlockingPos`) that returns a value other than
`FPR_WAIT`, on return the gateway list is the one of the call and every gateway
of it has `GWR_IGNORE` clear and `GWRL_BLOCKED` clear on every one of its
`zone1Links + zone2Links` links. -/
theorem fpathGatewayRoute_flags_clear (env : ENV) (fuel psDroid : Nat) (routeMode : ASR_MODE)
    (GWTerrain : GWR_TERRAIN) (sx sy fx fy : Int) (s : WORLD)
    (r : FPATH_RETVAL × WORLD)
    (h : fpathGatewayRoute env fuel psDroid routeMode GWTerrain sx sy fx fy s = some r)
    (hw : r.1 ≠ FPR_WAIT) :
    r.2.psGateways = s.psGateways
    ∧ ∀ p ∈ s.psGateways,
      (r.2.gw p).GWR_IGNORE = false
      ∧ ∀ link, link < (r.2.gw p).zone1Links + (r.2.gw p).zone2Links →
          ∀ k, (r.2.gw p).psLinks[link]? = some k → k.GWRL_BLOCKED = false := by
  have hps : r.2.psGateways = s.psGateways :=
    congrArg PLANNER_KEPT.psGateways
      (fpathGatewayRoute_frame env fuel psDroid routeMode GWTerrain sx sy fx fy s r h).1
  refine ⟨hps, ?_⟩
  rw [← hps]
  unfold fpathGatewayRoute at h
  split at h
  · cases h
  · rename_i retval s3 heq
    simp only [Option.some.injEq] at h
    subst h
    simp only at hw
    simp only [fpathGatewayRouteExit, if_pos hw]
    intro p hp
    exact fpathClearIgnore_clear s3.psGateways s3.gw p (Or.inl hp)

/-- Witness for C3: a continued route on the sample world, where gateway 0
enters with `GWR_IGNORE` and blocked links; the planner returns `FPR_OK` and
the flags are clear. -/
theorem fpathGatewayRoute_flags_clear_witness :
    ∃ r, fpathGatewayRoute sampleEnv 1 0 ASR_CONTINUE GWR_TER_LAND 640 640 1344 704
        sampleWorld = some r
      ∧ r.1 = FPR_OK
      ∧ (sampleWorld.gw 0).GWR_IGNORE = true
      ∧ r.2.psGateways = sampleWorld.psGateways
      ∧ ∀ p ∈ sampleWorld.psGateways,
          (r.2.gw p).GWR_IGNORE = false
          ∧ ∀ link, link < (r.2.gw p).zone1Links + (r.2.gw p).zone2Links →
              ∀ k, (r.2.gw p).psLinks[link]? = some k → k.GWRL_BLOCKED = false := by
  have hsome : (fpathGatewayRoute sampleEnv 1 0 ASR_CONTINUE GWR_TER_LAND 640 640 1344 704
      sampleWorld).map Prod.fst = some FPR_OK := by decide
  cases hr : fpathGatewayRoute sampleEnv 1 0 ASR_CONTINUE GWR_TER_LAND 640 640 1344 704
      sampleWorld with
  | none =>
    rw [hr] at hsome
    cases hsome
  | some r =>
    rw [hr] at hsome
    have hret : r.1 = FPR_OK := by simpa using hsome
    exact ⟨r, rfl, hret, by decide,
      fpathGatewayRoute_flags_clear sampleEnv 1 0 ASR_CONTINUE GWR_TER_LAND 640 640 1344 704
        sampleWorld r hr (by rw [hret]; decide)⟩

/-! ### Driver -/

/-- Counterexample to C2 as stated: with the lift predicate installed, a droid
standing at `(640, 640)` is sent to `(640, 640)`; `fpathRoute` takes its
"already there" return before it installs any predicate, returns `FPR_FAILED`,
and the installed predicate is still the lift predicate. -/
theorem fpathRoute_restores_ground_counterexample :
    (fpathRoute sampleEnv 1 0 640 640
        { sampleWorld with fpathBlockingTile := BLOCKING_FN.Lift }).map
      (fun r => (r.1, r.2.fpathBlockingTile)) = some (FPR_FAILED, BLOCKING_FN.Lift) := by
  decide

/-- C2 (amended). Predicate restoration: for every call of `fpathRoute` that
returns, whatever predicate was installed before: if the start and target
chosen at the head of the call differ, the installed predicate after the call
is the ground predicate, whatever the call returns; if they coincide (the
"already there" return) the call returns `FPR_FAILED` and leaves the installed
predicate as it was, hence ground whenever it was ground before. -/
theorem fpathRoute_predicate_after (env : ENV) (fuel psDroid : Nat) (tX tY : Int) (s : WORLD)
    (r : FPATH_RETVAL × WORLD)
    (h : fpathRoute env fuel psDroid tX tY s = some r) :
    (¬ ((fpathRouteSelect psDroid tX tY s).1.startX = (fpathRouteSelect psDroid tX tY s).1.targetX
        ∧ (fpathRouteSelect psDroid tX tY s).1.startY
          = (fpathRouteSelect psDroid tX tY s).1.targetY) →
      r.2.fpathBlockingTile = BLOCKING_FN.Ground)
    ∧ (((fpathRouteSelect psDroid tX tY s).1.startX = (fpathRouteSelect psDroid tX tY s).1.targetX
        ∧ (fpathRouteSelect psDroid tX tY s).1.startY
          = (fpathRouteSelect psDroid tX tY s).1.targetY) →
      r.1 = FPR_FAILED ∧ r.2.fpathBlockingTile = s.fpathBlockingTile) := by
  have hsel : (fpathRouteSelect psDroid tX tY s).2.fpathBlockingTile = s.fpathBlockingTile := by
    unfold fpathRouteSelect
    split_ifs <;> rfl
  unfold fpathRoute at h
  simp only at h
  constructor
  · intro hne
    rw [if_neg hne] at h
    split at h
    · cases h
    · simp only [Option.some.injEq] at h
      subst h
      rfl
  · intro he
    rw [if_pos he] at h
    simp only [Option.some.injEq] at h
    subst h
    exact ⟨rfl, hsel⟩

/-- Witness for C2 (amended): with the lift predicate installed, the sample
droid is routed from `(640, 640)` to `(1280, 640)` through the planner; the
call returns `FPR_OK` and the ground predicate is installed. -/
theorem fpathRoute_predicate_after_witness :
    ∃ r, fpathRoute sampleEnv 1 0 1280 640
        { sampleWorld with fpathBlockingTile := BLOCKING_FN.Lift } = some r
      ∧ r.1 = FPR_OK
      ∧ r.2.fpathBlockingTile = BLOCKING_FN.Ground := by
  have hsome : (fpathRoute sampleEnv 1 0 1280 640
      { sampleWorld with fpathBlockingTile := BLOCKING_FN.Lift }).map Prod.fst
      = some FPR_OK := by decide
  cases hr : fpathRoute sampleEnv 1 0 1280 640
      { sampleWorld with fpathBlockingTile := BLOCKING_FN.Lift } with
  | none =>
    rw [hr] at hsome
    cases hsome
  | some r =>
    rw [hr] at hsome
    have hret : r.1 = FPR_OK := by simpa using hsome
    exact ⟨r, rfl, hret,
      (fpathRoute_predicate_after sampleEnv 1 0 1280 640
        { sampleWorld with fpathBlockingTile := BLOCKING_FN.Lift } r hr).1 (by decide)⟩

/-! ### Ray cast and route reuse -/

theorem fpathSetBlockingTile_shape (p : PROPULSION_TYPE) (s : WORLD) :
    fpathSetBlockingTile p s
      = { s with fpathBlockingTile := (fpathSetBlockingTile p s).fpathBlockingTile } := by
  unfold fpathSetBlockingTile
  split <;> rfl

theorem fpathEndPointCallback_shape (s : WORLD) (x y dist : Int) :
    (fpathEndPointCallback s x y dist).2
      = { s with
          clearX := (fpathEndPointCallback s x y dist).2.clearX
          clearY := (fpathEndPointCallback s x y dist).2.clearY
          obstruction := (fpathEndPointCallback s x y dist).2.obstruction } := by
  unfold fpathEndPointCallback
  simp only
  split_ifs <;> rfl

theorem rayCast_shape (L : List (Int × Int × Int)) :
    ∀ (s : WORLD), rayCast L s
      = { s with
          clearX := (rayCast L s).clearX
          clearY := (rayCast L s).clearY
          obstruction := (rayCast L s).obstruction } := by
  induction L with
  | nil => intro s; rfl
  | cons p rest ih =>
    intro s
    unfold rayCast
    simp only
    split_ifs
    · have h1 := ih (fpathEndPointCallback s p.1 p.2.1 p.2.2).2
      have h2 := fpathEndPointCallback_shape s p.1 p.2.1 p.2.2
      rw [h1, h2]
    · exact fpathEndPointCallback_shape s p.1 p.2.1 p.2.2

theorem rayCast_cons (p : Int × Int × Int) (rest : List (Int × Int × Int)) (s : WORLD) :
    rayCast (p :: rest) s
      = if (fpathEndPointCallback s p.1 p.2.1 p.2.2).1 = true then
          rayCast rest (fpathEndPointCallback s p.1 p.2.1 p.2.2).2
        else (fpathEndPointCallback s p.1 p.2.1 p.2.2).2 := rfl

theorem fpathEndPointCallback_past (s : WORLD) (x y dist : Int)
    (h : (x - s.finalX) * s.vectorX + (y - s.finalY) * s.vectorY ≤ 0) :
    fpathEndPointCallback s x y dist = (false, s) := by
  unfold fpathEndPointCallback
  simp only
  rw [if_pos h]

theorem fpathEndPointCallback_walkable (s : WORLD) (x y dist : Int)
    (h : ¬ (x - s.finalX) * s.vectorX + (y - s.finalY) * s.vectorY ≤ 0)
    (hb : callBlockingTile s.fpathBlockingTile s.map (map_coord x) (map_coord y) = false) :
    fpathEndPointCallback s x y dist
      = (true, { s with
          clearX := clearTileMask x + Int.tdiv TILE_UNITS 2
          clearY := clearTileMask y + Int.tdiv TILE_UNITS 2 }) := by
  unfold fpathEndPointCallback
  simp only
  rw [if_neg h, if_pos (by rw [hb]; simp)]

theorem fpathEndPointCallback_blocked (s : WORLD) (x y dist : Int)
    (h : ¬ (x - s.finalX) * s.vectorX + (y - s.finalY) * s.vectorY ≤ 0)
    (hb : callBlockingTile s.fpathBlockingTile s.map (map_coord x) (map_coord y) = true) :
    fpathEndPointCallback s x y dist = (true, { s with obstruction := true }) := by
  unfold fpathEndPointCallback
  simp only
  rw [if_neg h, if_neg (by rw [hb]; simp)]

theorem rayCast_obstruction (L : List (Int × Int × Int)) :
    ∀ (s : WORLD), (rayCast L s).obstruction
      = (s.obstruction
        || !raySamplesClear (callBlockingTile s.fpathBlockingTile s.map)
            s.finalX s.finalY s.vectorX s.vectorY L) := by
  induction L with
  | nil => intro s; simp [rayCast, raySamplesClear]
  | cons p rest ih =>
    intro s
    rw [rayCast_cons]
    unfold raySamplesClear
    by_cases hpast : (p.1 - s.finalX) * s.vectorX + (p.2.1 - s.finalY) * s.vectorY ≤ 0
    · rw [fpathEndPointCallback_past s _ _ _ hpast, if_pos hpast]
      simp
    · rw [if_neg hpast]
      cases hb : callBlockingTile s.fpathBlockingTile s.map (map_coord p.1) (map_coord p.2.1)
      · rw [fpathEndPointCallback_walkable s _ _ _ hpast hb]
        simp only [if_true]
        rw [ih]
        simp
      · rw [fpathEndPointCallback_blocked s _ _ _ hpast hb]
        simp only [if_true]
        rw [ih]
        simp

theorem rayCast_keeps (L : List (Int × Int × Int)) (s : WORLD) :
    (rayCast L s).psPartialRouteDroid = s.psPartialRouteDroid
    ∧ (rayCast L s).droid = s.droid := by
  constructor <;> rw [rayCast_shape L s]

theorem fpathFindRouteLoop_keeps (env : ENV) (psDroid : Nat) (sX sY : Int)
    (psFormation : Nat) (L : List Nat) :
    ∀ (s : WORLD),
      (fpathFindRouteLoop env psDroid sX sY psFormation L s).2.psPartialRouteDroid
        = s.psPartialRouteDroid
      ∧ ((fpathFindRouteLoop env psDroid sX sY psFormation L s).1 = false →
          (fpathFindRouteLoop env psDroid sX sY psFormation L s).2.droid = s.droid) := by
  induction L with
  | nil => intro s; exact ⟨rfl, fun _ => rfl⟩
  | cons psCurr rest ih =>
    intro s
    unfold fpathFindRouteLoop
    simp only
    split_ifs
    all_goals first
      | exact ih s
      | exact ⟨(rayCast_keeps _ _).1, fun hf => by simp at hf⟩
      | exact ⟨((ih _).1).trans (rayCast_keeps _ _).1,
          fun hf => ((ih _).2 hf).trans (rayCast_keeps _ _).2⟩

theorem fpathFindRoute_keeps (env : ENV) (psDroid : Nat) (sX sY tX tY : Int) (s : WORLD) :
    (fpathFindRoute env psDroid sX sY tX tY s).2.psPartialRouteDroid = s.psPartialRouteDroid
    ∧ ((fpathFindRoute env psDroid sX sY tX tY s).1 = false →
        (fpathFindRoute env psDroid sX sY tX tY s).2.droid = s.droid) := by
  unfold fpathFindRoute
  split
  · exact ⟨rfl, fun _ => rfl⟩
  · exact fpathFindRouteLoop_keeps env psDroid sX sY _ _ s

theorem fpathFindRouteLoop_shape (env : ENV) (psDroid : Nat) (sX sY : Int)
    (psFormation : Nat) (L : List Nat) :
    ∀ (s : WORLD), (fpathFindRouteLoop env psDroid sX sY psFormation L s).2
      = { s with
          droid := (fpathFindRouteLoop env psDroid sX sY psFormation L s).2.droid
          finalX := (fpathFindRouteLoop env psDroid sX sY psFormation L s).2.finalX
          finalY := (fpathFindRouteLoop env psDroid sX sY psFormation L s).2.finalY
          vectorX := (fpathFindRouteLoop env psDroid sX sY psFormation L s).2.vectorX
          vectorY := (fpathFindRouteLoop env psDroid sX sY psFormation L s).2.vectorY
          clearX := (fpathFindRouteLoop env psDroid sX sY psFormation L s).2.clearX
          clearY := (fpathFindRouteLoop env psDroid sX sY psFormation L s).2.clearY
          obstruction := (fpathFindRouteLoop env psDroid sX sY psFormation L s).2.obstruction } := by
  induction L with
  | nil => intro s; rfl
  | cons psCurr rest ih =>
    intro s
    unfold fpathFindRouteLoop
    simp only
    split_ifs
    all_goals first
      | exact ih s
      | (rw [rayCast_shape]
         rfl)
      | (rw [ih, rayCast_shape])

theorem fpathFindRoute_shape (env : ENV) (psDroid : Nat) (sX sY tX tY : Int) (s : WORLD) :
    (fpathFindRoute env psDroid sX sY tX tY s).2
      = { s with
          droid := (fpathFindRoute env psDroid sX sY tX tY s).2.droid
          finalX := (fpathFindRoute env psDroid sX sY tX tY s).2.finalX
          finalY := (fpathFindRoute env psDroid sX sY tX tY s).2.finalY
          vectorX := (fpathFindRoute env psDroid sX sY tX tY s).2.vectorX
          vectorY := (fpathFindRoute env psDroid sX sY tX tY s).2.vectorY
          clearX := (fpathFindRoute env psDroid sX sY tX tY s).2.clearX
          clearY := (fpathFindRoute env psDroid sX sY tX tY s).2.clearY
          obstruction := (fpathFindRoute env psDroid sX sY tX tY s).2.obstruction } := by
  unfold fpathFindRoute
  split
  · rfl
  · exact fpathFindRouteLoop_shape env psDroid sX sY _ _ s

/-! ### Planner verdicts -/

theorem fpathGatewayRouteHop_verdict (env : ENV) (psDroid : Nat) (fx fy : Int)
    (routeMode : ASR_MODE) (s : WORLD) (retval : FPATH_RETVAL) (s' : WORLD)
    (h : fpathGatewayRouteHop env psDroid fx fy routeMode s
      = HOP_RESULT.Done (WALK_RESULT.Exit retval s')) :
    retval ≠ FPR_RESCHEDULE := by
  unfold fpathGatewayRouteHop at h
  simp only at h
  split_ifs at h
  all_goals first
    | (simp only [HOP_RESULT.Done.injEq, WALK_RESULT.Exit.injEq, reduceCtorEq,
        false_and] at h; done)
    | (simp only [HOP_RESULT.Done.injEq, WALK_RESULT.Exit.injEq] at h
       rw [← h.1]
       simp)
    | (split at h <;> simp at h)

theorem fpathGatewayRouteWalk_verdict (env : ENV) (psDroid : Nat) (fx fy : Int) :
    ∀ (fuel : Nat) (routeMode : ASR_MODE) (s : WORLD) (retval : FPATH_RETVAL) (s' : WORLD),
      fpathGatewayRouteWalk env psDroid fx fy fuel routeMode s
        = some (WALK_RESULT.Exit retval s') →
      retval ≠ FPR_RESCHEDULE := by
  intro fuel
  induction fuel with
  | zero =>
    intro routeMode s retval s' h
    simp [fpathGatewayRouteWalk] at h
  | succ fuel ih =>
    intro routeMode s retval s' h
    unfold fpathGatewayRouteWalk at h
    split at h
    · exact ih _ _ _ _ h
    · rename_i r hhop
      simp only [Option.some.injEq] at h
      subst h
      exact fpathGatewayRouteHop_verdict env psDroid fx fy routeMode s retval s' hhop

theorem fpathGatewayRouteRequest_verdict (env : ENV) (psDroid : Nat) (GWTerrain : GWR_TERRAIN)
    (sx sy fx fy : Int) (s : WORLD) (retval : FPATH_RETVAL)
    (h : (fpathGatewayRouteRequest env psDroid GWTerrain sx sy fx fy s).1 = some retval) :
    retval ≠ FPR_RESCHEDULE := by
  unfold fpathGatewayRouteRequest at h
  simp only at h
  split at h <;> (try split_ifs at h) <;> simp at h <;> rw [← h] <;> simp

theorem fpathGatewayRouteLoop_verdict (env : ENV) (psDroid : Nat) (GWTerrain : GWR_TERRAIN)
    (sx sy fx fy : Int) (walkFuel : Nat) :
    ∀ (fuel : Nat) (routeMode : ASR_MODE) (s : WORLD) (r : FPATH_RETVAL × WORLD),
      fpathGatewayRouteLoop env psDroid GWTerrain sx sy fx fy walkFuel fuel routeMode s
        = some r →
      r.1 ≠ FPR_RESCHEDULE := by
  intro fuel
  induction fuel with
  | zero =>
    intro routeMode s r h
    simp [fpathGatewayRouteLoop] at h
  | succ fuel ih =>
    intro routeMode s r h
    unfold fpathGatewayRouteLoop at h
    simp only at h
    split at h
    · rename_i retval hreq
      simp only [Option.some.injEq] at h
      subst h
      split_ifs at hreq with hm
      exact fpathGatewayRouteRequest_verdict env psDroid GWTerrain sx sy fx fy s retval hreq
    · split at h
      · cases h
      · rename_i retval s3 hwalk
        simp only [Option.some.injEq] at h
        subst h
        exact fpathGatewayRouteWalk_verdict env psDroid fx fy _ _ _ _ _ hwalk
      · exact ih _ _ _ h
      · simp only [Option.some.injEq] at h
        subst h
        simp

theorem fpathGatewayRoute_verdict (env : ENV) (fuel psDroid : Nat) (routeMode : ASR_MODE)
    (GWTerrain : GWR_TERRAIN) (sx sy fx fy : Int) (s : WORLD) (r : FPATH_RETVAL × WORLD)
    (h : fpathGatewayRoute env fuel psDroid routeMode GWTerrain sx sy fx fy s = some r) :
    r.1 ≠ FPR_RESCHEDULE := by
  unfold fpathGatewayRoute at h
  split at h
  · cases h
  · rename_i retval s3 hl
    simp only [Option.some.injEq] at h
    subst h
    exact fpathGatewayRouteLoop_verdict env psDroid GWTerrain sx sy fx fy fuel fuel routeMode
      _ (retval, s3) hl

theorem fpathGatewayRouteInit_clock (psDroid : Nat) (routeMode : ASR_MODE) (s : WORLD) :
    (fpathGatewayRouteInit psDroid routeMode s).clock = s.clock
    ∧ (fpathGatewayRouteInit psDroid routeMode s).droid psDroid
        = { s.droid psDroid with
            sMove := ((fpathGatewayRouteInit psDroid routeMode s).droid psDroid).sMove } := by
  unfold fpathGatewayRouteInit
  split_ifs
  · refine ⟨rfl, ?_⟩
    simp [setMove]
  · exact ⟨rfl, rfl⟩

theorem fpathGatewayRoute_gateway_failed (env : ENV) (fuel psDroid : Nat)
    (GWTerrain : GWR_TERRAIN) (sx sy fx fy : Int) (s : WORLD)
    (hvtol : env.isVtolDroid psDroid = true)
    (hgw : (env.gwrAStarRoute s.clock (s.droid psDroid).player GWTerrain sx sy fx fy
      (fpathClearIgnore s.gw s.psGateways)).1 = GWR_FAILED) :
    ∃ s1, (∀ f, fpathGatewayRoute { env with fpathAStarRoute := f } (fuel + 1) psDroid
        ASR_NEWROUTE GWTerrain sx sy fx fy s = some (FPR_FAILED, s1))
      ∧ s1.clock = s.clock + 1 := by
  refine ⟨fpathGatewayRouteExit FPR_FAILED
    (fpathGatewayRouteRequest env psDroid GWTerrain sx sy fx fy
      (fpathGatewayRouteInit psDroid ASR_NEWROUTE s)).2, ?_, ?_⟩
  · intro f
    unfold fpathGatewayRoute fpathGatewayRouteLoop
    have hreq : ∀ s0 : WORLD,
        (env.gwrAStarRoute s0.clock (s0.droid psDroid).player GWTerrain sx sy fx fy s0.gw).1
          = GWR_FAILED →
        fpathGatewayRouteRequest { env with fpathAStarRoute := f } psDroid GWTerrain
          sx sy fx fy s0
        = (some FPR_FAILED,
            (fpathGatewayRouteRequest env psDroid GWTerrain sx sy fx fy s0).2) := by
      intro s0 h0
      unfold fpathGatewayRouteRequest
      simp only [h0, hvtol, if_true]
    have h0 : (env.gwrAStarRoute (fpathGatewayRouteInit psDroid ASR_NEWROUTE s).clock
        ((fpathGatewayRouteInit psDroid ASR_NEWROUTE s).droid psDroid).player GWTerrain
        sx sy fx fy (fpathGatewayRouteInit psDroid ASR_NEWROUTE s).gw).1 = GWR_FAILED := by
      have e1 : (fpathGatewayRouteInit psDroid ASR_NEWROUTE s).gw
          = fpathClearIgnore s.gw s.psGateways := by
        simp [fpathGatewayRouteInit, setMove]
      have e2 := fpathGatewayRouteInit_clock psDroid ASR_NEWROUTE s
      rw [e1, e2.1, e2.2]
      exact hgw
    simp only [if_true, hreq _ h0]
  · have hreq : ∀ s0 : WORLD,
        (fpathGatewayRouteRequest env psDroid GWTerrain sx sy fx fy s0).2.clock
          = s0.clock + 1 := by
      intro s0
      unfold fpathGatewayRouteRequest
      simp only
      split <;> (try split_ifs) <;> rfl
    have hex : ∀ (r : FPATH_RETVAL) (s0 : WORLD),
        (fpathGatewayRouteExit r s0).clock = s0.clock := by
      intro r s0
      unfold fpathGatewayRouteExit
      split_ifs <;> rfl
    rw [hex, hreq, (fpathGatewayRouteInit_clock psDroid ASR_NEWROUTE s).1]

/-! ### Start repair scan -/

theorem trigIntSqrtBits_lt (n : Nat) :
    ∀ (k acc : Nat), trigIntSqrtBits n k acc < acc + 2 ^ k := by
  intro k
  induction k with
  | zero =>
    intro acc
    simp [trigIntSqrtBits]
  | succ k ih =>
    intro acc
    unfold trigIntSqrtBits
    have h2 : 2 ^ (k + 1) = 2 ^ k + 2 ^ k := by ring
    have hpos : 0 < 2 ^ k := Nat.two_pow_pos k
    split_ifs
    · have := ih (acc + 2 ^ k)
      omega
    · have := ih acc
      omega

theorem fpathDistToTile_lt (tileX tileY pointX pointY : Int) :
    fpathDistToTile tileX tileY pointX pointY < SDWORD_MAX := by
  unfold fpathDistToTile trigIntSqrt SDWORD_MAX
  simp only
  have h := trigIntSqrtBits_lt
    ((world_coord tileX - pointX) * (world_coord tileX - pointX)
      + (world_coord tileY - pointY) * (world_coord tileY - pointY)).toNat 16 0
  have h16 : (2 : Nat) ^ 16 = 65536 := by norm_num
  omega

theorem startRepairScan_inv (blocking : Int → Int → Bool) (startX startY : Int) :
    ∀ n, n ≤ NUM_DIR →
      (((List.range n).foldl (startRepairStep blocking startX startY)
            (SDWORD_MAX, NUM_DIR)).2 = NUM_DIR
        ∧ ((List.range n).foldl (startRepairStep blocking startX startY)
            (SDWORD_MAX, NUM_DIR)).1 = SDWORD_MAX
        ∧ ∀ d, d < n →
            blocking (map_coord startX + (aDirOffset d).1)
              (map_coord startY + (aDirOffset d).2) = true)
      ∨ (((List.range n).foldl (startRepairStep blocking startX startY)
            (SDWORD_MAX, NUM_DIR)).2 < n
        ∧ blocking
            (map_coord startX + (aDirOffset ((List.range n).foldl
              (startRepairStep blocking startX startY) (SDWORD_MAX, NUM_DIR)).2).1)
            (map_coord startY + (aDirOffset ((List.range n).foldl
              (startRepairStep blocking startX startY) (SDWORD_MAX, NUM_DIR)).2).2) = false
        ∧ ((List.range n).foldl (startRepairStep blocking startX startY)
            (SDWORD_MAX, NUM_DIR)).1
          = fpathDistToTile
              (map_coord startX + (aDirOffset ((List.range n).foldl
                (startRepairStep blocking startX startY) (SDWORD_MAX, NUM_DIR)).2).1)
              (map_coord startY + (aDirOffset ((List.range n).foldl
                (startRepairStep blocking startX startY) (SDWORD_MAX, NUM_DIR)).2).2)
              startX startY
        ∧ ∀ d, d < n →
            blocking (map_coord startX + (aDirOffset d).1)
              (map_coord startY + (aDirOffset d).2) = false →
            ((List.range n).foldl (startRepairStep blocking startX startY)
                (SDWORD_MAX, NUM_DIR)).1
              < fpathDistToTile (map_coord startX + (aDirOffset d).1)
                  (map_coord startY + (aDirOffset d).2) startX startY
            ∨ (((List.range n).foldl (startRepairStep blocking startX startY)
                  (SDWORD_MAX, NUM_DIR)).1
                = fpathDistToTile (map_coord startX + (aDirOffset d).1)
                    (map_coord startY + (aDirOffset d).2) startX startY
              ∧ ((List.range n).foldl (startRepairStep blocking startX startY)
                  (SDWORD_MAX, NUM_DIR)).2 ≤ d)) := by
  intro n
  induction n with
  | zero =>
    intro _
    left
    exact ⟨rfl, rfl, fun d hd => absurd hd (Nat.not_lt_zero d)⟩
  | succ n ih =>
    intro hn
    have hprev := ih (Nat.le_of_succ_le hn)
    rw [List.range_succ, List.foldl_append]
    simp only [List.foldl_cons, List.foldl_nil]
    generalize (List.range n).foldl (startRepairStep blocking startX startY)
      (SDWORD_MAX, NUM_DIR) = st at hprev ⊢
    have hdist := fpathDistToTile_lt (map_coord startX + (aDirOffset n).1)
      (map_coord startY + (aDirOffset n).2) startX startY
    unfold startRepairStep
    simp only
    cases hb : blocking (map_coord startX + (aDirOffset n).1)
        (map_coord startY + (aDirOffset n).2) with
    | true =>
      simp only [not_true_eq_false, if_false]
      rcases hprev with ⟨h1, h0, h2⟩ | ⟨h1, h2, h3, h4⟩
      · left
        refine ⟨h1, h0, fun d hd => ?_⟩
        rcases Nat.lt_succ_iff_lt_or_eq.mp hd with hlt | heq
        · exact h2 d hlt
        · rw [heq]
          exact hb
      · right
        refine ⟨Nat.lt_succ_of_lt h1, h2, h3, fun d hd hw => ?_⟩
        rcases Nat.lt_succ_iff_lt_or_eq.mp hd with hlt | heq
        · exact h4 d hlt hw
        · rw [heq, hb] at hw
          cases hw
    | false =>
      simp only [Bool.false_eq_true, not_false_eq_true, if_true]
      right
      split_ifs with hless
      · refine ⟨Nat.lt_succ_self n, hb, rfl, fun d hd hw => ?_⟩
        simp only
        rcases Nat.lt_succ_iff_lt_or_eq.mp hd with hlt | heq
        · rcases hprev with ⟨_, _, h2⟩ | ⟨_, _, _, h4⟩
          · rw [h2 d hlt] at hw
            cases hw
          · left
            rcases h4 d hlt hw with h5 | ⟨h5, _⟩
            · exact lt_trans hless h5
            · rw [← h5]
              exact hless
        · right
          rw [heq]
          exact ⟨rfl, le_refl n⟩
      · rcases hprev with ⟨h1, h0, h2⟩ | ⟨h1, h2, h3, h4⟩
        · exfalso
          rw [h0] at hless
          exact hless hdist
        · refine ⟨Nat.lt_succ_of_lt h1, h2, h3, fun d hd hw => ?_⟩
          rcases Nat.lt_succ_iff_lt_or_eq.mp hd with hlt | heq
          · exact h4 d hlt hw
          · rw [heq]
            have hle := not_lt.mp hless
            rcases lt_or_eq_of_le hle with h5 | h5
            · exact Or.inl h5
            · exact Or.inr ⟨h5, by omega⟩

theorem map_coord_recentre (t : Int) :
    map_coord (world_coord t + Int.tdiv TILE_SHIFT 2) = t := by
  have h3 : Int.tdiv (TILE_SHIFT : Int) 2 = 3 := by decide
  rw [h3]
  unfold map_coord world_coord TILE_UNITS
  omega

/-! ### Driver stages -/

theorem fpathRouteSelect_free (psDroid : Nat) (tX tY : Int) (s : WORLD)
    (hslot : s.psPartialRouteDroid ≠ some psDroid) :
    fpathRouteSelect psDroid tX tY s
      = ({ startX := (s.droid psDroid).pos_x, startY := (s.droid psDroid).pos_y,
           targetX := tX, targetY := tY }, s) := by
  unfold fpathRouteSelect
  rw [if_pos (Or.inr hslot)]

theorem fpathRouteSelect_parked (psDroid : Nat) (tX tY : Int) (s : WORLD)
    (hp : s.psPartialRouteDroid = some psDroid)
    (hdest : ¬ ((s.droid psDroid).sMove.Status = MOVEWAITROUTE
      ∧ (s.droid psDroid).sMove.DestinationX ≠ tX)) :
    fpathRouteSelect psDroid tX tY s
      = ({ startX := s.partialSX, startY := s.partialSY,
           targetX := s.partialTX, targetY := s.partialTY }, s) := by
  unfold fpathRouteSelect
  have h0 : ¬ (s.psPartialRouteDroid = none ∨ s.psPartialRouteDroid ≠ some psDroid) := by
    rw [hp]
    simp
  rw [if_neg h0, if_neg hdest]

theorem fpathRouteSearch_reached (env : ENV) (fuel psDroid : Nat) (GWTerrain : GWR_TERRAIN)
    (e : ROUTE_ENDS) (s : WORLD) (h : plannerReached env psDroid s) :
    fpathRouteSearch env fuel psDroid GWTerrain e s
      = match fpathRoutePlannerCall env fuel psDroid GWTerrain e s with
        | none => none
        | some (retVal, s1) =>
          if retVal = FPR_WAIT then
            some (FPR_WAIT, { s1 with
              psPartialRouteDroid := some psDroid
              lastPartialFrame := env.frameGetFrameNumber
              partialSX := e.startX
              partialSY := e.startY
              partialTX := e.targetX
              partialTY := e.targetY })
          else if retVal = FPR_FAILED ∧ env.isVtolDroid psDroid = true then
            some (FPR_OK, { s1 with
              droid := Function.update s1.droid psDroid
                (fpathSetDirectRoute (s1.droid psDroid) e.targetX e.targetY) })
          else
            some (retVal, s1) := by
  unfold fpathRouteSearch fpathRoutePlannerCall
  rw [if_neg h.1, if_neg h.2]

theorem fpathRouteSearch_reschedule (env : ENV) (fuel psDroid : Nat) (GWTerrain : GWR_TERRAIN)
    (e : ROUTE_ENDS) (s s' : WORLD)
    (h : fpathRouteSearch env fuel psDroid GWTerrain e s = some (FPR_RESCHEDULE, s')) :
    s' = s := by
  by_cases hb : env.astarInner > env.FPATH_LOOP_LIMIT
  · unfold fpathRouteSearch at h
    rw [if_pos hb] at h
    split_ifs at h
    · cases h
    · simp only [Option.some.injEq, Prod.mk.injEq, true_and] at h
      exact h.symm
  · by_cases ha : (s.psPartialRouteDroid ≠ none ∧ s.psPartialRouteDroid ≠ some psDroid)
        ∨ (s.psPartialRouteDroid ≠ some psDroid
          ∧ env.psNextRouteDroid ≠ none
          ∧ env.psNextRouteDroid ≠ some psDroid)
    · unfold fpathRouteSearch at h
      rw [if_neg hb, if_pos ha] at h
      simp only [Option.some.injEq, Prod.mk.injEq, true_and] at h
      exact h.symm
    · rw [fpathRouteSearch_reached env fuel psDroid GWTerrain e s ⟨hb, ha⟩] at h
      split at h
      · cases h
      · rename_i retVal s1 hcall
        have hv : retVal ≠ FPR_RESCHEDULE := by
          unfold fpathRoutePlannerCall at hcall
          split_ifs at hcall
          · exact fpathGatewayRoute_verdict _ _ _ _ _ _ _ _ _ _ _ hcall
          · exact fpathGatewayRoute_verdict _ _ _ _ _ _ _ _ _ _ _ hcall
        split_ifs at h
        · cases h
        · cases h
        · simp only [Option.some.injEq, Prod.mk.injEq] at h
          exact absurd h.1 hv

theorem fpathRouteEndpoints_reschedule (env : ENV) (fuel psDroid : Nat)
    (GWTerrain : GWR_TERRAIN) (e : ROUTE_ENDS) (s s' : WORLD)
    (h : fpathRouteEndpoints env fuel psDroid GWTerrain e s = some (FPR_RESCHEDULE, s')) :
    s'.droid = s.droid := by
  unfold fpathRouteEndpoints at h
  split_ifs at h with h1
  · split at h
    · cases h
    · rename_i start hrep
      simp only at h
      split_ifs at h
      all_goals first
        | cases h
        | (have hs := fpathRouteSearch_reschedule _ _ _ _ _ _ _ h
           rw [hs]
           exact ((fpathFindRoute_keeps _ _ _ _ _ _ _).2
             (Bool.eq_false_iff.mpr (by assumption))).trans (rayCast_keeps _ _).2)
  · rw [fpathRouteSearch_reschedule _ _ _ _ _ _ _ h]

theorem fpathRouteSearch_other (env : ENV) (fuel psDroid q : Nat) (GWTerrain : GWR_TERRAIN)
    (e : ROUTE_ENDS) (s : WORLD) (hq : s.psPartialRouteDroid = some q) (hne : q ≠ psDroid) :
    fpathRouteSearch env fuel psDroid GWTerrain e s = some (FPR_RESCHEDULE, s) := by
  have hslot : s.psPartialRouteDroid ≠ some psDroid := by
    rw [hq]
    exact fun h => hne (Option.some.inj h)
  have hsome : s.psPartialRouteDroid ≠ none := by
    rw [hq]
    exact Option.some_ne_none q
  unfold fpathRouteSearch
  by_cases hb : env.astarInner > env.FPATH_LOOP_LIMIT
  · rw [if_pos hb, if_neg hslot]
  · rw [if_neg hb, if_pos (Or.inl ⟨hsome, hslot⟩)]

theorem fpathRouteEndpoints_other (env : ENV) (fuel psDroid q : Nat) (GWTerrain : GWR_TERRAIN)
    (e : ROUTE_ENDS) (s : WORLD) (hq : s.psPartialRouteDroid = some q) (hne : q ≠ psDroid) :
    fpathRouteEndpoints env fuel psDroid GWTerrain e s
        = fpathRouteEndpoints env 0 psDroid GWTerrain e s
    ∧ ∃ r s', fpathRouteEndpoints env fuel psDroid GWTerrain e s = some (r, s')
      ∧ s'.psPartialRouteDroid = some q
      ∧ (r = FPR_RESCHEDULE ∨ r = FPR_FAILED ∨ r = FPR_OK)
      ∧ (r = FPR_FAILED →
          fpathRouteStartRepair (callBlockingTile s.fpathBlockingTile s.map)
            e.startX e.startY = none) := by
  have hslot : s.psPartialRouteDroid ≠ some psDroid := by
    rw [hq]
    exact fun h => hne (Option.some.inj h)
  have hray : ∀ (L : List (Int × Int × Int)) (a b c d f g : Int) (o : Bool),
      (rayCast L { s with finalX := a, finalY := b, clearX := c, clearY := d,
                          vectorX := f, vectorY := g, obstruction := o }).psPartialRouteDroid
        = some q :=
    fun L a b c d f g o => (rayCast_keeps L _).1.trans hq
  have hfind : ∀ (L : List (Int × Int × Int)) (a b c d f g : Int) (o : Bool)
      (sX sY uX uY : Int),
      (fpathFindRoute env psDroid sX sY uX uY
        (rayCast L { s with finalX := a, finalY := b, clearX := c, clearY := d,
                            vectorX := f, vectorY := g, obstruction := o })).2.psPartialRouteDroid
        = some q :=
    fun L a b c d f g o sX sY uX uY =>
      (fpathFindRoute_keeps env psDroid sX sY uX uY _).1.trans (hray L a b c d f g o)
  constructor
  · unfold fpathRouteEndpoints
    rw [if_pos (Or.inr hslot), if_pos (Or.inr hslot)]
    split
    · rfl
    · simp only
      split_ifs
      all_goals first
        | rfl
        | rw [fpathRouteSearch_other env fuel psDroid q GWTerrain _ _ (hfind _ _ _ _ _ _ _ _ _ _ _ _) hne,
            fpathRouteSearch_other env 0 psDroid q GWTerrain _ _ (hfind _ _ _ _ _ _ _ _ _ _ _ _) hne]
  · unfold fpathRouteEndpoints
    rw [if_pos (Or.inr hslot)]
    split
    · rename_i hrep
      exact ⟨_, _, rfl, hq, Or.inr (Or.inl rfl), fun _ => hrep⟩
    · simp only
      split_ifs
      all_goals first
        | exact ⟨_, _, rfl, hray _ _ _ _ _ _ _ _, Or.inr (Or.inr rfl),
            fun h => by cases h⟩
        | exact ⟨_, _, rfl, hfind _ _ _ _ _ _ _ _ _ _ _ _, Or.inr (Or.inr rfl),
            fun h => by cases h⟩
        | (rw [fpathRouteSearch_other env fuel psDroid q GWTerrain _ _
            (hfind _ _ _ _ _ _ _ _ _ _ _ _) hne]
           exact ⟨_, _, rfl, hfind _ _ _ _ _ _ _ _ _ _ _ _, Or.inl rfl,
            fun h => by cases h⟩)

theorem fpathRoute_free (env : ENV) (psDroid : Nat) (tX tY : Int) (s : WORLD)
    (hslot : s.psPartialRouteDroid ≠ some psDroid)
    (hthere : ¬ ((s.droid psDroid).pos_x = tX ∧ (s.droid psDroid).pos_y = tY)) :
    ∃ gwt, ∀ fuel, fpathRoute env fuel psDroid tX tY s
      = match fpathRouteEndpoints env fuel psDroid gwt
          { startX := (s.droid psDroid).pos_x, startY := (s.droid psDroid).pos_y,
            targetX := tX, targetY := tY }
          (fpathSetBlockingTile (s.droid psDroid).propulsionType s) with
        | none => none
        | some (retVal, s2) =>
          some (retVal, { s2 with fpathBlockingTile := BLOCKING_FN.Ground }) := by
  refine ⟨(match (s.droid psDroid).propulsionType with
    | HOVER => GWR_TER_ALL
    | LIFT => GWR_TER_ALL
    | _ => GWR_TER_LAND), fun fuel => ?_⟩
  unfold fpathRoute
  simp only [fpathRouteSelect_free psDroid tX tY s hslot]
  rw [if_neg hthere]

theorem fpathRoute_head (env : ENV) (fuel psDroid : Nat) (tX tY : Int) (s : WORLD) :
    fpathRoute env fuel psDroid tX tY s
      = match fpathRouteHead env psDroid tX tY s with
        | Sum.inl r => some r
        | Sum.inr (gwt, e, s0) =>
          match fpathRouteSearch env fuel psDroid gwt e s0 with
          | none => none
          | some (retVal, s2) =>
            some (retVal, { s2 with fpathBlockingTile := BLOCKING_FN.Ground }) := by
  unfold fpathRoute fpathRouteHead
  simp only
  split_ifs with h1 h2
  · rfl
  · unfold fpathRouteEndpoints
    rw [if_pos h2]
    generalize fpathRouteStartRepair _ _ _ = rep
    cases rep with
    | none => rfl
    | some start =>
      simp only
      split_ifs <;> rfl
  · unfold fpathRouteEndpoints
    rw [if_neg h2]

theorem fpathRouteSearch_over_budget (env : ENV) (fuel psDroid : Nat) (GWTerrain : GWR_TERRAIN)
    (e : ROUTE_ENDS) (s : WORLD) (hbudget : env.astarInner > env.FPATH_LOOP_LIMIT) :
    fpathRouteSearch env fuel psDroid GWTerrain e s
      = some (if s.psPartialRouteDroid = some psDroid then FPR_WAIT else FPR_RESCHEDULE,
          s) := by
  unfold fpathRouteSearch
  rw [if_pos hbudget]
  split_ifs <;> rfl

theorem fpathRouteHead_state (env : ENV) (psDroid : Nat) (tX tY : Int) (s : WORLD)
    (gwt : GWR_TERRAIN) (e : ROUTE_ENDS) (s0 : WORLD)
    (hhead : fpathRouteHead env psDroid tX tY s = Sum.inr (gwt, e, s0)) :
    s0.clock = s.clock
    ∧ (s0.psPartialRouteDroid = some psDroid ↔
        (s.psPartialRouteDroid = some psDroid
          ∧ ¬ ((s.droid psDroid).sMove.Status = MOVEWAITROUTE
            ∧ (s.droid psDroid).sMove.DestinationX ≠ tX)))
    ∧ (s0.psPartialRouteDroid = some psDroid →
        s0 = fpathSetBlockingTile (s.droid psDroid).propulsionType s
        ∧ e = { startX := s.partialSX, startY := s.partialSY,
                targetX := s.partialTX, targetY := s.partialTY }) := by
  have hfree : ∀ (sel : ROUTE_ENDS) (s' : WORLD),
      fpathRouteSelect psDroid tX tY s = (sel, s') →
      s'.psPartialRouteDroid ≠ some psDroid → s'.clock = s.clock →
      s0.clock = s.clock ∧ s0.psPartialRouteDroid ≠ some psDroid := by
    intro sel s' hsel hs' hc
    unfold fpathRouteHead at hhead
    rw [hsel] at hhead
    simp only at hhead
    have hs1 : (fpathSetBlockingTile (s'.droid psDroid).propulsionType s').psPartialRouteDroid
        ≠ some psDroid := by
      rw [fpathSetBlockingTile_shape]
      exact hs'
    have hc1 : (fpathSetBlockingTile (s'.droid psDroid).propulsionType s').clock
        = s.clock := by
      rw [fpathSetBlockingTile_shape]
      exact hc
    split_ifs at hhead with h1 h2
    · split at hhead
      · cases hhead
      · split_ifs at hhead
        all_goals
          simp only [Sum.inr.injEq, Prod.mk.injEq] at hhead
          obtain ⟨_, _, hst⟩ := hhead
          rw [← hst, fpathFindRoute_shape, rayCast_shape]
          exact ⟨hc1, hs1⟩
    · exact absurd (Or.inr hs1) h2
  by_cases hp : s.psPartialRouteDroid = some psDroid
  · by_cases hdest : (s.droid psDroid).sMove.Status = MOVEWAITROUTE
        ∧ (s.droid psDroid).sMove.DestinationX ≠ tX
    · have hsel : fpathRouteSelect psDroid tX tY s
          = ({ startX := (s.droid psDroid).pos_x, startY := (s.droid psDroid).pos_y,
               targetX := tX, targetY := tY }, { s with psPartialRouteDroid := none }) := by
        unfold fpathRouteSelect
        rw [if_neg (by rw [hp]; simp), if_pos hdest]
      obtain ⟨hc, hs⟩ := hfree _ _ hsel (by simp) rfl
      exact ⟨hc, ⟨fun h => absurd h hs, fun h => absurd hdest h.2⟩, fun h => absurd h hs⟩
    · have hsel := fpathRouteSelect_parked psDroid tX tY s hp hdest
      have hs1 : (fpathSetBlockingTile (s.droid psDroid).propulsionType s).psPartialRouteDroid
          = some psDroid := by
        rw [fpathSetBlockingTile_shape]
        exact hp
      unfold fpathRouteHead at hhead
      rw [hsel] at hhead
      simp only at hhead
      split_ifs at hhead with h1 h2
      · exact absurd h2 (by rw [hs1]; simp)
      · simp only [Sum.inr.injEq, Prod.mk.injEq] at hhead
        obtain ⟨_, he, hst⟩ := hhead
        rw [← hst, ← he]
        refine ⟨?_, ⟨fun _ => ⟨hp, hdest⟩, fun _ => hs1⟩, fun _ => ⟨rfl, rfl⟩⟩
        rw [fpathSetBlockingTile_shape]
  · have hsel := fpathRouteSelect_free psDroid tX tY s hp
    obtain ⟨hc, hs⟩ := hfree _ _ hsel hp rfl
    exact ⟨hc, ⟨fun h => absurd h hs, fun h => absurd h.1 hp⟩, fun h => absurd h hs⟩

theorem fpathRouteSearch_vtol (env : ENV) (fuel psDroid : Nat) (GWTerrain : GWR_TERRAIN)
    (e : ROUTE_ENDS) (s : WORLD) (hreach : plannerReached env psDroid s) :
    (∀ s1, fpathRoutePlannerCall env fuel psDroid GWTerrain e s = some (FPR_FAILED, s1) →
        env.isVtolDroid psDroid = true →
        ∃ s2, fpathRouteSearch env fuel psDroid GWTerrain e s = some (FPR_OK, s2)
          ∧ (s2.droid psDroid).sMove.numPoints = 1
          ∧ (s2.droid psDroid).sMove.asPath 0
              = { x := map_coord e.targetX % 256, y := map_coord e.targetY % 256 }
          ∧ (s2.droid psDroid).sMove.DestinationX = e.targetX
          ∧ (s2.droid psDroid).sMove.DestinationY = e.targetY)
    ∧ (∀ r s1, fpathRoutePlannerCall env fuel psDroid GWTerrain e s = some (r, s1) →
        env.isVtolDroid psDroid = false →
        ∃ s2, fpathRouteSearch env fuel psDroid GWTerrain e s = some (r, s2)
          ∧ (r ≠ FPR_WAIT → s2 = s1))
    ∧ (s.psPartialRouteDroid = none → env.isVtolDroid psDroid = true →
        (env.gwrAStarRoute s.clock (s.droid psDroid).player GWTerrain
          e.startX e.startY e.targetX e.targetY (fpathClearIgnore s.gw s.psGateways)).1
          = GWR_FAILED →
        ∃ s1, (∀ f, fpathRoutePlannerCall { env with fpathAStarRoute := f } (fuel + 1)
            psDroid GWTerrain e s = some (FPR_FAILED, s1))
          ∧ s1.clock = s.clock + 1
          ∧ ∃ s2, fpathRouteSearch env (fuel + 1) psDroid GWTerrain e s = some (FPR_OK, s2)
            ∧ (s2.droid psDroid).sMove.numPoints = 1
            ∧ (s2.droid psDroid).sMove.asPath 0
                = { x := map_coord e.targetX % 256, y := map_coord e.targetY % 256 }
            ∧ (s2.droid psDroid).sMove.DestinationX = e.targetX
            ∧ (s2.droid psDroid).sMove.DestinationY = e.targetY) := by
  have hA : ∀ (fuel : Nat) (s1 : WORLD),
      fpathRoutePlannerCall env fuel psDroid GWTerrain e s = some (FPR_FAILED, s1) →
      env.isVtolDroid psDroid = true →
      ∃ s2, fpathRouteSearch env fuel psDroid GWTerrain e s = some (FPR_OK, s2)
        ∧ (s2.droid psDroid).sMove.numPoints = 1
        ∧ (s2.droid psDroid).sMove.asPath 0
            = { x := map_coord e.targetX % 256, y := map_coord e.targetY % 256 }
        ∧ (s2.droid psDroid).sMove.DestinationX = e.targetX
        ∧ (s2.droid psDroid).sMove.DestinationY = e.targetY := by
    intro fuel s1 hcall hvtol
    rw [fpathRouteSearch_reached env fuel psDroid GWTerrain e s hreach, hcall]
    simp only [reduceCtorEq, if_false, hvtol, and_self, if_true]
    refine ⟨_, rfl, ?_, ?_, ?_, ?_⟩ <;> simp [fpathSetDirectRoute]
  refine ⟨hA fuel, ?_, ?_⟩
  · intro r s1 hcall hvtol
    rw [fpathRouteSearch_reached env fuel psDroid GWTerrain e s hreach, hcall]
    simp only [hvtol, Bool.false_eq_true, and_false, if_false]
    split_ifs with hw
    · exact ⟨_, by rw [hw], fun hne => absurd hw hne⟩
    · exact ⟨_, rfl, fun _ => rfl⟩
  · intro hslot hvtol hgw
    obtain ⟨s1, hs1, hc1⟩ := fpathGatewayRoute_gateway_failed env fuel psDroid GWTerrain
      e.startX e.startY e.targetX e.targetY s hvtol hgw
    have hcall : ∀ f, fpathRoutePlannerCall { env with fpathAStarRoute := f } (fuel + 1)
        psDroid GWTerrain e s = some (FPR_FAILED, s1) := by
      intro f
      unfold fpathRoutePlannerCall
      rw [if_pos hslot]
      exact hs1 f
    refine ⟨s1, hcall, hc1, ?_⟩
    have := hcall env.fpathAStarRoute
    exact hA (fuel + 1) s1 this hvtol

theorem fpathRouteSearch_park (env : ENV) (fuel psDroid : Nat) (GWTerrain : GWR_TERRAIN)
    (e : ROUTE_ENDS) (s s1 : WORLD) (hreach : plannerReached env psDroid s)
    (hcall : fpathRoutePlannerCall env fuel psDroid GWTerrain e s = some (FPR_WAIT, s1)) :
    fpathRouteSearch env fuel psDroid GWTerrain e s
      = some (FPR_WAIT, { s1 with
          psPartialRouteDroid := some psDroid
          lastPartialFrame := env.frameGetFrameNumber
          partialSX := e.startX
          partialSY := e.startY
          partialTX := e.targetX
          partialTY := e.targetY }) := by
  rw [fpathRouteSearch_reached env fuel psDroid GWTerrain e s hreach, hcall]
  simp only [if_true]

theorem fpathRoute_of_search (env : ENV) (fuel psDroid : Nat) (tX tY : Int) (s : WORLD)
    (gwt : GWR_TERRAIN) (e : ROUTE_ENDS) (s0 : WORLD) (r : FPATH_RETVAL) (s2 : WORLD)
    (hhead : fpathRouteHead env psDroid tX tY s = Sum.inr (gwt, e, s0))
    (hsearch : fpathRouteSearch env fuel psDroid gwt e s0 = some (r, s2)) :
    fpathRoute env fuel psDroid tX tY s
      = some (r, { s2 with fpathBlockingTile := BLOCKING_FN.Ground }) := by
  rw [fpathRoute_head, hhead]
  simp only
  rw [hsearch]

theorem fpathRouteEndpoints_resume (env : ENV) (fuel psDroid : Nat) (gwt : GWR_TERRAIN)
    (e : ROUTE_ENDS) (s : WORLD) (hp : s.psPartialRouteDroid = some psDroid)
    (hbudget : ¬ env.astarInner > env.FPATH_LOOP_LIMIT) :
    fpathRouteEndpoints env fuel psDroid gwt e s
      = match fpathGatewayRoute env fuel psDroid ASR_CONTINUE gwt
          e.startX e.startY e.targetX e.targetY { s with psPartialRouteDroid := none } with
        | none => none
        | some (retVal, s1) =>
          if retVal = FPR_WAIT then
            some (FPR_WAIT, { s1 with
              psPartialRouteDroid := some psDroid
              lastPartialFrame := env.frameGetFrameNumber
              partialSX := e.startX
              partialSY := e.startY
              partialTX := e.targetX
              partialTY := e.targetY })
          else if retVal = FPR_FAILED ∧ env.isVtolDroid psDroid = true then
            some (FPR_OK, { s1 with
              droid := Function.update s1.droid psDroid
                (fpathSetDirectRoute (s1.droid psDroid) e.targetX e.targetY) })
          else
            some (retVal, s1) := by
  have hreach : plannerReached env psDroid s := by
    refine ⟨hbudget, ?_⟩
    rw [hp]
    simp
  unfold fpathRouteEndpoints
  rw [if_neg (by rw [hp]; simp), fpathRouteSearch_reached _ _ _ _ _ _ hreach]
  unfold fpathRoutePlannerCall
  rw [if_neg (by rw [hp]; simp)]

theorem fpathRouteStartRepair_none (blocking : Int → Int → Bool) (startX startY : Int) :
    fpathRouteStartRepair blocking startX startY = none
      ↔ blocking (map_coord startX) (map_coord startY) = true
        ∧ ∀ d, d < NUM_DIR →
            blocking (map_coord startX + (aDirOffset d).1)
              (map_coord startY + (aDirOffset d).2) = true := by
  have hinv := startRepairScan_inv blocking startX startY NUM_DIR (le_refl _)
  have hr : (List.range NUM_DIR).foldl (startRepairStep blocking startX startY)
      (SDWORD_MAX, NUM_DIR) = startRepairScan blocking startX startY := rfl
  rw [hr] at hinv
  unfold fpathRouteStartRepair
  by_cases hb : blocking (map_coord startX) (map_coord startY) = true
  · rw [if_pos hb]
    simp only
    by_cases h8 : (startRepairScan blocking startX startY).2 = NUM_DIR
    · rw [if_pos h8]
      rcases hinv with ⟨_, _, h2⟩ | ⟨h1, _⟩
      · exact ⟨fun _ => ⟨hb, h2⟩, fun _ => rfl⟩
      · rw [h8] at h1
        exact absurd h1 (lt_irrefl _)
    · rw [if_neg h8]
      rcases hinv with ⟨h1, _⟩ | ⟨h1, h2, _⟩
      · exact absurd h1 h8
      · refine ⟨fun h => (by cases h), fun h => ?_⟩
        have := h.2 _ h1
        rw [this] at h2
        cases h2
  · rw [if_neg hb]
    exact ⟨fun h => (by cases h), fun h => absurd h.1 hb⟩

theorem fpathRoute_from_start (env : ENV) (fuel psDroid : Nat) (tX tY : Int) (s : WORLD)
    (start : Int × Int)
    (hslot : s.psPartialRouteDroid ≠ some psDroid)
    (hthere : ¬ ((s.droid psDroid).pos_x = tX ∧ (s.droid psDroid).pos_y = tY))
    (hrep : fpathRouteStartRepair
        (callBlockingTile
          (fpathSetBlockingTile (s.droid psDroid).propulsionType s).fpathBlockingTile s.map)
        (s.droid psDroid).pos_x (s.droid psDroid).pos_y = some start) :
    let finalX := clearTileMask tX + Int.tdiv TILE_UNITS 2
    let finalY := clearTileMask tY + Int.tdiv TILE_UNITS 2
    let s1 := fpathSetBlockingTile (s.droid psDroid).propulsionType s
    let s2 := rayCast (env.rayCast start.1 start.2 finalX finalY)
      { s1 with
        finalX := finalX
        finalY := finalY
        clearX := finalX
        clearY := finalY
        vectorX := start.1 - finalX
        vectorY := start.2 - finalY
        obstruction := false }
    let target : Int × Int :=
      if callBlockingTile s1.fpathBlockingTile s.map (map_coord tX) (map_coord tY) = true then
        (s2.clearX, s2.clearY)
      else
        (tX, tY)
    let reuse := fpathFindRoute env psDroid start.1 start.2 target.1 target.2 s2
    fpathRoute env fuel psDroid tX tY s
      = if s2.obstruction = false then
          some (FPR_OK, { s2 with
            droid := Function.update s2.droid psDroid
              (fpathSetDirectRoute (s2.droid psDroid) tX tY)
            fpathBlockingTile := BLOCKING_FN.Ground })
        else if reuse.1 = true then
          some (FPR_OK, { reuse.2 with fpathBlockingTile := BLOCKING_FN.Ground })
        else
          match fpathRouteSearch env fuel psDroid
              (match (s.droid psDroid).propulsionType with
                | HOVER => GWR_TER_ALL
                | LIFT => GWR_TER_ALL
                | _ => GWR_TER_LAND)
              { startX := start.1, startY := start.2, targetX := target.1, targetY := target.2 }
              reuse.2 with
          | none => none
          | some (retVal, s3) =>
            some (retVal, { s3 with fpathBlockingTile := BLOCKING_FN.Ground }) := by
  unfold fpathRoute
  simp only [fpathRouteSelect_free psDroid tX tY s hslot]
  rw [if_neg hthere]
  rw [fpathSetBlockingTile_shape] at hrep ⊢
  generalize (fpathSetBlockingTile (s.droid psDroid).propulsionType s).fpathBlockingTile = fn
    at hrep ⊢
  try simp only at hrep
  unfold fpathRouteEndpoints
  simp only
  rw [if_pos (Or.inr hslot), hrep]
  simp only
  have hfn : ∀ (L : List (Int × Int × Int)) (w : WORLD),
      callBlockingTile (rayCast L w).fpathBlockingTile (rayCast L w).map
        = callBlockingTile w.fpathBlockingTile w.map := by
    intro L w
    rw [rayCast_shape L w]
  rw [hfn]
  simp only
  split_ifs <;> first | rfl | simp_all

/-! ### Driver verdicts -/

/-- Counterexample to C11 as stated: the sample droid at `(640, 640)` does not
hold the slot and is sent to `(650, 650)`, a point of its own tile `(5, 5)`;
the ray cast is clear and the call returns `FPR_OK`, not `FPR_FAILED`. -/
theorem fpathRoute_same_tile_counterexample :
    sampleWorld.psPartialRouteDroid ≠ some 0
    ∧ map_coord 650 = map_coord (sampleWorld.droid 0).pos_x
    ∧ map_coord 650 = map_coord (sampleWorld.droid 0).pos_y
    ∧ (fpathRoute sampleEnvClear 1 0 650 650 sampleWorld).map Prod.fst = some FPR_OK := by
  decide

/-- C11 (amended). Degenerate move early-out: for every unit that does not hold
the partial-route slot and every target equal to the world position of the
unit, `fpathRoute` returns `FPR_FAILED` and leaves the state as it was. -/
theorem fpathRoute_already_there (env : ENV) (fuel psDroid : Nat) (tX tY : Int) (s : WORLD)
    (hslot : s.psPartialRouteDroid ≠ some psDroid)
    (hx : tX = (s.droid psDroid).pos_x) (hy : tY = (s.droid psDroid).pos_y) :
    fpathRoute env fuel psDroid tX tY s = some (FPR_FAILED, s) := by
  have hsel : fpathRouteSelect psDroid tX tY s
      = ({ startX := (s.droid psDroid).pos_x, startY := (s.droid psDroid).pos_y,
           targetX := tX, targetY := tY }, s) := by
    unfold fpathRouteSelect
    rw [if_pos (Or.inr hslot)]
  unfold fpathRoute
  simp only [hsel]
  rw [if_pos ⟨hx.symm, hy.symm⟩]

/-- Witness for C11 (amended): the sample droid sent to its own position
`(640, 640)`. -/
theorem fpathRoute_already_there_witness :
    fpathRoute sampleEnv 1 0 640 640 sampleWorld = some (FPR_FAILED, sampleWorld) :=
  fpathRoute_already_there sampleEnv 1 0 640 640 sampleWorld (by decide) (by decide) (by decide)

/-- Counterexample to C12 as stated: on a map of 400 by 400 land tiles the
ground droid at `(640, 640)` does not hold the slot and is sent to
`(32768, 640)`, in tile `(256, 5)`; its start tile is walkable and the ray
offers no blocked sample before it passes the target.  `fpathRoute` returns
`FPR_OK` with the one waypoint `(0, 5)`, not `(256, 5)`. -/
theorem fpathRoute_trivial_route_counterexample :
    ({ sampleWorld with map := sampleMapHuge } : WORLD).psPartialRouteDroid ≠ some 0
    ∧ callBlockingTile BLOCKING_FN.Ground sampleMapHuge (map_coord 640) (map_coord 640) = false
    ∧ raySamplesClear (callBlockingTile BLOCKING_FN.Ground sampleMapHuge)
        (clearTileMask 32768 + Int.tdiv TILE_UNITS 2) (clearTileMask 640 + Int.tdiv TILE_UNITS 2)
        (640 - (clearTileMask 32768 + Int.tdiv TILE_UNITS 2))
        (640 - (clearTileMask 640 + Int.tdiv TILE_UNITS 2))
        (sampleEnvFar.rayCast 640 640 (clearTileMask 32768 + Int.tdiv TILE_UNITS 2)
          (clearTileMask 640 + Int.tdiv TILE_UNITS 2)) = true
    ∧ (map_coord 32768, map_coord 640) = (256, 5)
    ∧ ∃ s', fpathRoute sampleEnvFar 0 0 32768 640 { sampleWorld with map := sampleMapHuge }
          = some (FPR_OK, s')
        ∧ (s'.droid 0).sMove.numPoints = 1
        ∧ (s'.droid 0).sMove.asPath 0 = { x := 0, y := 5 } := by
  refine ⟨by decide, by decide, by decide, by decide, ?_⟩
  exact ⟨_, rfl, rfl, rfl⟩

/-- C12 (amended). Trivial line of sight: for every unit that does not hold the
slot, whose start differs from the target and whose start tile is not blocked,
if the ray cast from the start towards the centre of the target tile offers no
blocked sample before it passes the target, `fpathRoute` returns `FPR_OK` and
the move control holds exactly the waypoint
`(map_coord tX mod 256, map_coord tY mod 256)`, which is
`(map_coord tX, map_coord tY)` whenever both tile coordinates of the target
lie in `0..255`, with destination `(tX, tY)`, whoever else holds the slot and
whatever `astarInner` is. -/
theorem fpathRoute_trivial_route (env : ENV) (fuel psDroid : Nat) (tX tY : Int) (s : WORLD)
    (hslot : s.psPartialRouteDroid ≠ some psDroid)
    (hne : ¬ ((s.droid psDroid).pos_x = tX ∧ (s.droid psDroid).pos_y = tY))
    (hstart : callBlockingTile
        (fpathSetBlockingTile (s.droid psDroid).propulsionType s).fpathBlockingTile s.map
        (map_coord (s.droid psDroid).pos_x) (map_coord (s.droid psDroid).pos_y) = false)
    (hray : raySamplesClear
        (callBlockingTile
          (fpathSetBlockingTile (s.droid psDroid).propulsionType s).fpathBlockingTile s.map)
        (clearTileMask tX + Int.tdiv TILE_UNITS 2) (clearTileMask tY + Int.tdiv TILE_UNITS 2)
        ((s.droid psDroid).pos_x - (clearTileMask tX + Int.tdiv TILE_UNITS 2))
        ((s.droid psDroid).pos_y - (clearTileMask tY + Int.tdiv TILE_UNITS 2))
        (env.rayCast (s.droid psDroid).pos_x (s.droid psDroid).pos_y
          (clearTileMask tX + Int.tdiv TILE_UNITS 2)
          (clearTileMask tY + Int.tdiv TILE_UNITS 2)) = true) :
    ∃ s', fpathRoute env fuel psDroid tX tY s = some (FPR_OK, s')
      ∧ (s'.droid psDroid).sMove.numPoints = 1
      ∧ (s'.droid psDroid).sMove.asPath 0
          = { x := map_coord tX % 256, y := map_coord tY % 256 }
      ∧ (0 ≤ map_coord tX ∧ map_coord tX < 256 ∧ 0 ≤ map_coord tY ∧ map_coord tY < 256 →
          (s'.droid psDroid).sMove.asPath 0 = { x := map_coord tX, y := map_coord tY })
      ∧ (s'.droid psDroid).sMove.DestinationX = tX
      ∧ (s'.droid psDroid).sMove.DestinationY = tY := by
  unfold fpathRoute
  simp only [fpathRouteSelect_free psDroid tX tY s hslot]
  rw [if_neg hne]
  rw [fpathSetBlockingTile_shape] at hstart hray ⊢
  generalize (fpathSetBlockingTile (s.droid psDroid).propulsionType s).fpathBlockingTile = fn
    at hstart hray ⊢
  try simp only at hstart hray
  unfold fpathRouteEndpoints
  simp only
  rw [if_pos (Or.inr hslot)]
  have hrep : fpathRouteStartRepair (callBlockingTile fn s.map)
      (s.droid psDroid).pos_x (s.droid psDroid).pos_y
      = some ((s.droid psDroid).pos_x, (s.droid psDroid).pos_y) := by
    unfold fpathRouteStartRepair
    rw [if_neg (by rw [hstart]; simp)]
  rw [hrep]
  simp only
  rw [rayCast_obstruction]
  simp only [hray, Bool.not_true, Bool.or_false, Bool.false_eq_true, not_false_eq_true,
    if_true]
  refine ⟨_, rfl, ?_, ?_, ?_, ?_, ?_⟩
  · simp [fpathSetDirectRoute]
  · simp [fpathSetDirectRoute]
  · intro h
    simp [fpathSetDirectRoute, Int.emod_eq_of_lt h.1 h.2.1, Int.emod_eq_of_lt h.2.2.1 h.2.2.2]
  · simp [fpathSetDirectRoute]
  · simp [fpathSetDirectRoute]

/-- Witness for C12 (amended): the ground droid at `(640, 640)` sent to
`(1280, 640)` over land, while droid 1 is parked and the planner has no fuel:
one waypoint `(10, 5)`, destination `(1280, 640)`. -/
theorem fpathRoute_trivial_route_witness :
    ∃ s', fpathRoute sampleEnvClear 0 0 1280 640
        { sampleWorld with psPartialRouteDroid := some 1 } = some (FPR_OK, s')
      ∧ (s'.droid 0).sMove.numPoints = 1
      ∧ (s'.droid 0).sMove.asPath 0 = { x := 10, y := 5 }
      ∧ (s'.droid 0).sMove.DestinationX = 1280
      ∧ (s'.droid 0).sMove.DestinationY = 640 := by
  obtain ⟨s', h1, h2, _, h4, h5, h6⟩ := fpathRoute_trivial_route sampleEnvClear 0 0 1280 640
    { sampleWorld with psPartialRouteDroid := some 1 }
    (by decide) (by decide) (by decide) (by decide)
  exact ⟨s', h1, h2, h4 (by decide), h5, h6⟩

/-- Counterexample to C13 as stated: on a map of 400 by 400 tiles a lift droid
at `(640, 640)` is sent to `(32768, 640)`, in tile `(256, 5)`; the ray meets
the tall structure on tile `(130, 5)`, the call arrives at the budget check
with that target, passes the budget and turn tests, the gateway A* answers
`GWR_FAILED` and the planner returns `FPR_FAILED`.  `fpathRoute` returns
`FPR_OK` with the one waypoint `(0, 5)`, not `(256, 5)`. -/
theorem fpathRoute_vtol_safety_net_counterexample :
    sampleEnvVtolFar.isVtolDroid 0 = true
    ∧ (map_coord 32768, map_coord 640) = (256, 5)
    ∧ (∃ s0, fpathRouteHead sampleEnvVtolFar 0 32768 640 sampleWorldVtolHuge
          = Sum.inr (GWR_TER_ALL,
              { startX := 640, startY := 640, targetX := 32768, targetY := 640 }, s0)
        ∧ plannerReached sampleEnvVtolFar 0 s0
        ∧ ∃ s1, fpathRoutePlannerCall sampleEnvVtolFar 1 0 GWR_TER_ALL
              { startX := 640, startY := 640, targetX := 32768, targetY := 640 } s0
            = some (FPR_FAILED, s1))
    ∧ ∃ s2, fpathRoute sampleEnvVtolFar 1 0 32768 640 sampleWorldVtolHuge = some (FPR_OK, s2)
        ∧ (s2.droid 0).sMove.numPoints = 1
        ∧ (s2.droid 0).sMove.asPath 0 = { x := 0, y := 5 } := by
  refine ⟨rfl, by decide, ⟨_, rfl, by decide, _, rfl⟩, _, rfl, rfl, rfl⟩

/-- C13 (amended). VTOL safety net: for every call of `fpathRoute` that arrives
at the budget check with `(gwt, e, s0)` and passes the budget and turn tests, so
that the planner is called: if the planner returns `FPR_FAILED` for a VTOL,
`fpathRoute` returns `FPR_OK` and the move control holds exactly one waypoint,
the tile of the target of `e` passed to the planner with each coordinate taken
modulo 256, which is that tile whenever both its coordinates lie in `0..255`,
with that target as destination; for a unit that is no VTOL the verdict of the
planner is the value returned; and when the gateway A* answers `GWR_FAILED` to
the new route of a VTOL, the planner returns `FPR_FAILED` after that one
collaborator call, whatever the tile A* is, and `fpathRoute` returns `FPR_OK`
as above. -/
theorem fpathRoute_vtol_safety_net (env : ENV) (fuel psDroid : Nat) (tX tY : Int) (s : WORLD)
    (gwt : GWR_TERRAIN) (e : ROUTE_ENDS) (s0 : WORLD)
    (hhead : fpathRouteHead env psDroid tX tY s = Sum.inr (gwt, e, s0))
    (hreach : plannerReached env psDroid s0) :
    (∀ s1, fpathRoutePlannerCall env fuel psDroid gwt e s0 = some (FPR_FAILED, s1) →
        env.isVtolDroid psDroid = true →
        ∃ s2, fpathRoute env fuel psDroid tX tY s = some (FPR_OK, s2)
          ∧ (s2.droid psDroid).sMove.numPoints = 1
          ∧ (s2.droid psDroid).sMove.asPath 0
              = { x := map_coord e.targetX % 256, y := map_coord e.targetY % 256 }
          ∧ (0 ≤ map_coord e.targetX ∧ map_coord e.targetX < 256
              ∧ 0 ≤ map_coord e.targetY ∧ map_coord e.targetY < 256 →
              (s2.droid psDroid).sMove.asPath 0
                = { x := map_coord e.targetX, y := map_coord e.targetY })
          ∧ (s2.droid psDroid).sMove.DestinationX = e.targetX
          ∧ (s2.droid psDroid).sMove.DestinationY = e.targetY)
    ∧ (∀ r s1, fpathRoutePlannerCall env fuel psDroid gwt e s0 = some (r, s1) →
        env.isVtolDroid psDroid = false →
        ∃ s2, fpathRoute env fuel psDroid tX tY s = some (r, s2)
          ∧ (r ≠ FPR_WAIT → s2 = { s1 with fpathBlockingTile := BLOCKING_FN.Ground }))
    ∧ (s0.psPartialRouteDroid = none → env.isVtolDroid psDroid = true →
        (env.gwrAStarRoute s0.clock (s0.droid psDroid).player gwt
          e.startX e.startY e.targetX e.targetY (fpathClearIgnore s0.gw s0.psGateways)).1
          = GWR_FAILED →
        ∃ s1, (∀ f, fpathRoutePlannerCall { env with fpathAStarRoute := f } (fuel + 1)
            psDroid gwt e s0 = some (FPR_FAILED, s1))
          ∧ s1.clock = s0.clock + 1
          ∧ ∃ s2, fpathRoute env (fuel + 1) psDroid tX tY s = some (FPR_OK, s2)
            ∧ (s2.droid psDroid).sMove.numPoints = 1
            ∧ (s2.droid psDroid).sMove.asPath 0
                = { x := map_coord e.targetX % 256, y := map_coord e.targetY % 256 }
            ∧ (0 ≤ map_coord e.targetX ∧ map_coord e.targetX < 256
                ∧ 0 ≤ map_coord e.targetY ∧ map_coord e.targetY < 256 →
                (s2.droid psDroid).sMove.asPath 0
                  = { x := map_coord e.targetX, y := map_coord e.targetY })
            ∧ (s2.droid psDroid).sMove.DestinationX = e.targetX
            ∧ (s2.droid psDroid).sMove.DestinationY = e.targetY) := by
  have hs := fun fuel => fpathRouteSearch_vtol env fuel psDroid gwt e s0 hreach
  have hin : ∀ p : PATH_POINT,
      p = { x := map_coord e.targetX % 256, y := map_coord e.targetY % 256 } →
      0 ≤ map_coord e.targetX ∧ map_coord e.targetX < 256
        ∧ 0 ≤ map_coord e.targetY ∧ map_coord e.targetY < 256 →
      p = { x := map_coord e.targetX, y := map_coord e.targetY } := by
    intro p hp h
    rw [hp, Int.emod_eq_of_lt h.1 h.2.1, Int.emod_eq_of_lt h.2.2.1 h.2.2.2]
  refine ⟨?_, ?_, ?_⟩
  · intro s1 hcall hvtol
    obtain ⟨s2, h2, hn, hp, hd⟩ := (hs fuel).1 s1 hcall hvtol
    exact ⟨_, fpathRoute_of_search env fuel psDroid tX tY s gwt e s0 _ s2 hhead h2,
      hn, hp, hin _ hp, hd⟩
  · intro r s1 hcall hvtol
    obtain ⟨s2, h2, hw⟩ := (hs fuel).2.1 r s1 hcall hvtol
    refine ⟨_, fpathRoute_of_search env fuel psDroid tX tY s gwt e s0 _ s2 hhead h2, ?_⟩
    intro hne
    rw [hw hne]
  · intro hslot hvtol hgw
    obtain ⟨s1, hcall, hclock, s2, h2, hn, hp, hd⟩ := (hs fuel).2.2 hslot hvtol hgw
    exact ⟨s1, hcall, hclock, _,
      fpathRoute_of_search env (fuel + 1) psDroid tX tY s gwt e s0 _ s2 hhead h2,
      hn, hp, hin _ hp, hd⟩

/-- Witness for C13 (amended): a lift droid at `(640, 640)` is sent to
`(1280, 640)` and the gateway A* answers `GWR_FAILED`: `fpathRoute` returns
`FPR_OK` with the one waypoint `(10, 5)` and destination `(1280, 640)`. -/
theorem fpathRoute_vtol_safety_net_witness :
    ∃ s2, fpathRoute sampleEnvVtol (0 + 1) 0 1280 640 sampleWorldVtol = some (FPR_OK, s2)
      ∧ (s2.droid 0).sMove.numPoints = 1
      ∧ (s2.droid 0).sMove.asPath 0 = { x := 10, y := 5 }
      ∧ (s2.droid 0).sMove.DestinationX = 1280
      ∧ (s2.droid 0).sMove.DestinationY = 640 := by
  have hhead : fpathRouteHead sampleEnvVtol 0 1280 640 sampleWorldVtol
      = Sum.inr (GWR_TER_ALL,
          { startX := 640, startY := 640, targetX := 1280, targetY := 640 },
          { fpathSetBlockingTile LIFT sampleWorldVtol with
            finalX := 1344, finalY := 704, clearX := 1344, clearY := 704
            vectorX := -704, vectorY := -64, obstruction := true }) := rfl
  obtain ⟨_, _, _, s2, h1, h2, _, h4, h5⟩ := (fpathRoute_vtol_safety_net sampleEnvVtol 0 0 1280 640
    sampleWorldVtol _ _ _ hhead (by decide)).2.2 rfl rfl (by decide)
  exact ⟨s2, h1, h2, h4 (by decide), h5⟩

/-- C14. Search budget: whenever a call of `fpathRoute` arrives at the budget
check, with `(gwt, e, s0)`, and `astarInner > FPATH_LOOP_LIMIT`, the call
returns for every amount of planner fuel, with `FPR_WAIT` if the calling unit
holds the slot and `FPR_RESCHEDULE` otherwise, in the state of the budget check
with the ground predicate installed: the planner is not invoked and no
collaborator call is counted.  The calling unit holds the slot at the budget
check exactly when it held it at the call and did not change destination, and
in that case the whole state, with the slot, the parked coordinates and
`lastPartialFrame`, is as before the call up to the installed predicate. -/
theorem fpathRoute_budget (env : ENV) (fuel psDroid : Nat) (tX tY : Int) (s : WORLD)
    (gwt : GWR_TERRAIN) (e : ROUTE_ENDS) (s0 : WORLD)
    (hhead : fpathRouteHead env psDroid tX tY s = Sum.inr (gwt, e, s0))
    (hbudget : env.astarInner > env.FPATH_LOOP_LIMIT) :
    fpathRoute env fuel psDroid tX tY s
        = some (if s0.psPartialRouteDroid = some psDroid then FPR_WAIT else FPR_RESCHEDULE,
            { s0 with fpathBlockingTile := BLOCKING_FN.Ground })
    ∧ s0.clock = s.clock
    ∧ (s0.psPartialRouteDroid = some psDroid ↔
        (s.psPartialRouteDroid = some psDroid
          ∧ ¬ ((s.droid psDroid).sMove.Status = MOVEWAITROUTE
            ∧ (s.droid psDroid).sMove.DestinationX ≠ tX)))
    ∧ (s0.psPartialRouteDroid = some psDroid →
        fpathRoute env fuel psDroid tX tY s
          = some (FPR_WAIT, { s with fpathBlockingTile := BLOCKING_FN.Ground })) := by
  have h1 := fpathRoute_of_search env fuel psDroid tX tY s gwt e s0 _ s0 hhead
    (fpathRouteSearch_over_budget env fuel psDroid gwt e s0 hbudget)
  obtain ⟨hc, hiff, hst⟩ := fpathRouteHead_state env psDroid tX tY s gwt e s0 hhead
  refine ⟨h1, hc, hiff, fun hp => ?_⟩
  rw [h1, if_pos hp, (hst hp).1, fpathSetBlockingTile_shape]

/-- Witness for C14: in a frame whose budget is spent the parked droid 0 gets
`FPR_WAIT` with the state unchanged, without any planner fuel, and droid 1
gets `FPR_RESCHEDULE`. -/
theorem fpathRoute_budget_witness :
    fpathRoute sampleEnvBusy 0 0 1280 640 sampleWorldParked
        = some (FPR_WAIT, { sampleWorldParked with fpathBlockingTile := BLOCKING_FN.Ground })
    ∧ (fpathRoute sampleEnvBusy 0 1 1280 640 sampleWorldParked).map Prod.fst
        = some FPR_RESCHEDULE := by
  have hhead : fpathRouteHead sampleEnvBusy 0 1280 640 sampleWorldParked
      = Sum.inr (GWR_TER_LAND,
          { startX := 640, startY := 640, targetX := 1280, targetY := 640 },
          fpathSetBlockingTile WHEELED sampleWorldParked) := rfl
  exact ⟨(fpathRoute_budget sampleEnvBusy 0 0 1280 640 sampleWorldParked _ _ _ hhead
    (by decide)).2.2.2 rfl, by decide⟩

/-- Counterexample to C15 as stated: droid 1 is parked in the slot and droid 0
calls; with a clear ray towards `(1280, 640)` the call returns `FPR_OK`, and
with its own position as target it returns `FPR_FAILED`, not
`FPR_RESCHEDULE`. -/
theorem fpathRoute_other_unit_counterexample :
    ({ sampleWorld with psPartialRouteDroid := some 1 } : WORLD).psPartialRouteDroid = some 1
    ∧ (1 : Nat) ≠ 0
    ∧ (fpathRoute sampleEnvClear 1 0 1280 640
        { sampleWorld with psPartialRouteDroid := some 1 }).map Prod.fst = some FPR_OK
    ∧ (fpathRoute sampleEnv 1 0 640 640
        { sampleWorld with psPartialRouteDroid := some 1 }).map Prod.fst = some FPR_FAILED := by
  decide

/-- C15 (amended). Slot arbitration: while a unit `q` is parked in the
partial-route slot, every `fpathRoute` call made by a different unit returns,
with the same result for every amount of planner fuel, zero included, and with
the collaborator call counter as before the call, so the planner is not run;
`q` is still parked afterwards.  The value returned is `FPR_FAILED` exactly
when the target is the world position of the unit or its start tile and all 8
neighbours are blocked; it is `FPR_OK` exactly when neither is the case and,
from the start that the start repair gives, the ray cast towards the centre of
the target tile leaves `obstruction` clear or `fpathFindRoute` reuses a route;
it is `FPR_RESCHEDULE` exactly when neither is the case, the ray cast sets
`obstruction` and no route is reused, and then no droid record has changed. -/
theorem fpathRoute_other_unit_parked (env : ENV) (psDroid q : Nat) (tX tY : Int)
    (s : WORLD) (hq : s.psPartialRouteDroid = some q) (hne : q ≠ psDroid) :
    let s1 := fpathSetBlockingTile (s.droid psDroid).propulsionType s
    let blocking := callBlockingTile s1.fpathBlockingTile s.map
    let there := (s.droid psDroid).pos_x = tX ∧ (s.droid psDroid).pos_y = tY
    let surrounded :=
      blocking (map_coord (s.droid psDroid).pos_x) (map_coord (s.droid psDroid).pos_y) = true
      ∧ ∀ d, d < NUM_DIR →
          blocking (map_coord (s.droid psDroid).pos_x + (aDirOffset d).1)
            (map_coord (s.droid psDroid).pos_y + (aDirOffset d).2) = true
    let finalX := clearTileMask tX + Int.tdiv TILE_UNITS 2
    let finalY := clearTileMask tY + Int.tdiv TILE_UNITS 2
    let cast := fun (start : Int × Int) =>
      rayCast (env.rayCast start.1 start.2 finalX finalY)
        { s1 with
          finalX := finalX
          finalY := finalY
          clearX := finalX
          clearY := finalY
          vectorX := start.1 - finalX
          vectorY := start.2 - finalY
          obstruction := false }
    let target := fun (start : Int × Int) =>
      if blocking (map_coord tX) (map_coord tY) = true then
        ((cast start).clearX, (cast start).clearY)
      else
        (tX, tY)
    let reuse := fun (start : Int × Int) =>
      fpathFindRoute env psDroid start.1 start.2 (target start).1 (target start).2 (cast start)
    ∃ r s', (∀ fuel, fpathRoute env fuel psDroid tX tY s = some (r, s'))
      ∧ s'.psPartialRouteDroid = some q
      ∧ s'.clock = s.clock
      ∧ (r = FPR_FAILED ↔ there ∨ surrounded)
      ∧ (r = FPR_OK ↔ ¬ there ∧ ∃ start,
          fpathRouteStartRepair blocking (s.droid psDroid).pos_x (s.droid psDroid).pos_y
            = some start
          ∧ ((cast start).obstruction = false ∨ (reuse start).1 = true))
      ∧ (r = FPR_RESCHEDULE ↔ ¬ there ∧ ∃ start,
          fpathRouteStartRepair blocking (s.droid psDroid).pos_x (s.droid psDroid).pos_y
            = some start
          ∧ (cast start).obstruction = true ∧ (reuse start).1 = false)
      ∧ (r = FPR_RESCHEDULE → s'.droid = s.droid) := by
  intro s1 blocking there surrounded finalX finalY cast target reuse
  have hslot : s.psPartialRouteDroid ≠ some psDroid := by
    rw [hq]
    exact fun h => hne (Option.some.inj h)
  have hnone := fpathRouteStartRepair_none blocking
    (s.droid psDroid).pos_x (s.droid psDroid).pos_y
  by_cases hthere : there
  · have hcall : ∀ fuel, fpathRoute env fuel psDroid tX tY s = some (FPR_FAILED, s) := by
      intro fuel
      unfold fpathRoute
      simp only [fpathRouteSelect_free psDroid tX tY s hslot]
      rw [if_pos hthere]
    refine ⟨_, _, hcall, hq, rfl, ⟨fun _ => Or.inl hthere, fun _ => rfl⟩,
      ⟨fun h => (by cases h), fun h => absurd hthere h.1⟩,
      ⟨fun h => (by cases h), fun h => absurd hthere h.1⟩, fun h => (by cases h)⟩
  · cases hrep : fpathRouteStartRepair blocking
        (s.droid psDroid).pos_x (s.droid psDroid).pos_y with
    | none =>
      have hsur : surrounded := hnone.mp hrep
      obtain ⟨gwt, hcall⟩ := fpathRoute_free env psDroid tX tY s hslot hthere
      have hslot1 : s1.psPartialRouteDroid ≠ some psDroid := by
        show (fpathSetBlockingTile (s.droid psDroid).propulsionType s).psPartialRouteDroid ≠ _
        rw [fpathSetBlockingTile_shape]
        exact hslot
      have hmap : s1.map = s.map := by
        show (fpathSetBlockingTile (s.droid psDroid).propulsionType s).map = _
        rw [fpathSetBlockingTile_shape]
      have hend : ∀ fuel, fpathRouteEndpoints env fuel psDroid gwt
          { startX := (s.droid psDroid).pos_x, startY := (s.droid psDroid).pos_y,
            targetX := tX, targetY := tY } s1 = some (FPR_FAILED, s1) := by
        intro fuel
        unfold fpathRouteEndpoints
        rw [if_pos (Or.inr hslot1)]
        simp only [hmap]
        rw [hrep]
      refine ⟨FPR_FAILED, { s1 with fpathBlockingTile := BLOCKING_FN.Ground }, ?_, ?_, ?_,
        ⟨fun _ => Or.inr hsur, fun _ => rfl⟩,
        ⟨fun h => (by cases h), fun h => ?_⟩,
        ⟨fun h => (by cases h), fun h => ?_⟩, fun h => (by cases h)⟩
      · intro fuel
        rw [hcall fuel, hend fuel]
      · show (fpathSetBlockingTile (s.droid psDroid).propulsionType s).psPartialRouteDroid = _
        rw [fpathSetBlockingTile_shape]
        exact hq
      · show (fpathSetBlockingTile (s.droid psDroid).propulsionType s).clock = _
        rw [fpathSetBlockingTile_shape]
      · obtain ⟨_, start, h, _⟩ := h
        cases h
      · obtain ⟨_, start, h, _⟩ := h
        cases h
    | some start =>
      have hnsur : ¬ surrounded := fun h => by
        have := hnone.mpr h
        rw [hrep] at this
        cases this
      have hfrom := fun fuel => fpathRoute_from_start env fuel psDroid tX tY s start hslot
        hthere hrep
      simp only at hfrom
      have hcastq : (cast start).psPartialRouteDroid = some q := by
        show (rayCast _ _).psPartialRouteDroid = _
        rw [rayCast_shape]
        show (fpathSetBlockingTile (s.droid psDroid).propulsionType s).psPartialRouteDroid = _
        rw [fpathSetBlockingTile_shape]
        exact hq
      have hcastc : (cast start).clock = s.clock := by
        show (rayCast _ _).clock = _
        rw [rayCast_shape]
        show (fpathSetBlockingTile (s.droid psDroid).propulsionType s).clock = _
        rw [fpathSetBlockingTile_shape]
      have hcastd : (cast start).droid = s.droid := by
        show (rayCast _ _).droid = _
        rw [rayCast_shape]
        show (fpathSetBlockingTile (s.droid psDroid).propulsionType s).droid = _
        rw [fpathSetBlockingTile_shape]
      have hreq : (reuse start).2.psPartialRouteDroid = some q :=
        (fpathFindRoute_keeps env psDroid _ _ _ _ _).1.trans hcastq
      have hrec : (reuse start).2.clock = s.clock := by
        show (fpathFindRoute _ _ _ _ _ _ _).2.clock = _
        rw [fpathFindRoute_shape]
        exact hcastc
      have hsome : ∀ st : Int × Int, some start = some st → st = start :=
        fun st hst => (Option.some.inj hst).symm
      by_cases hobs : (cast start).obstruction = false
      · refine ⟨FPR_OK, _, fun fuel => (hfrom fuel).trans (if_pos hobs), hcastq, hcastc,
          ⟨fun h => (by cases h), fun h => ?_⟩,
          ⟨fun _ => ⟨hthere, start, rfl, Or.inl hobs⟩, fun _ => rfl⟩,
          ⟨fun h => (by cases h), fun h => ?_⟩, fun h => (by cases h)⟩
        · rcases h with h | h
          · exact absurd h hthere
          · exact absurd h hnsur
        · obtain ⟨_, st, hst, ho, _⟩ := h
          rw [hsome st hst, hobs] at ho
          cases ho
      · have hobs1 : (cast start).obstruction = true := by
          cases hc : (cast start).obstruction
          · exact absurd hc hobs
          · rfl
        by_cases hre : (reuse start).1 = true
        · refine ⟨FPR_OK, _,
            fun fuel => (hfrom fuel).trans ((if_neg hobs).trans (if_pos hre)), hreq, hrec,
            ⟨fun h => (by cases h), fun h => ?_⟩,
            ⟨fun _ => ⟨hthere, start, rfl, Or.inr hre⟩, fun _ => rfl⟩,
            ⟨fun h => (by cases h), fun h => ?_⟩, fun h => (by cases h)⟩
          · rcases h with h | h
            · exact absurd h hthere
            · exact absurd h hnsur
          · obtain ⟨_, st, hst, _, hr⟩ := h
            rw [hsome st hst, hre] at hr
            cases hr
        · have hre1 : (reuse start).1 = false := by
            cases hc : (reuse start).1
            · rfl
            · exact absurd hc hre
          have hsearch : ∀ fuel gwt e, fpathRouteSearch env fuel psDroid gwt e (reuse start).2
              = some (FPR_RESCHEDULE, (reuse start).2) :=
            fun fuel gwt e => fpathRouteSearch_other env fuel psDroid q gwt e _ hreq hne
          refine ⟨FPR_RESCHEDULE, { (reuse start).2 with fpathBlockingTile := BLOCKING_FN.Ground },
            ?_, hreq, hrec,
            ⟨fun h => (by cases h), fun h => ?_⟩,
            ⟨fun h => (by cases h), fun h => ?_⟩,
            ⟨fun _ => ⟨hthere, start, rfl, hobs1, hre1⟩, fun _ => rfl⟩, fun _ => ?_⟩
          · intro fuel
            rw [hfrom fuel, if_neg hobs, if_neg hre, hsearch]
          · rcases h with h | h
            · exact absurd h hthere
            · exact absurd h hnsur
          · obtain ⟨_, st, hst, h⟩ := h
            rw [hsome st hst] at h
            rcases h with h | h
            · exact absurd h hobs
            · exact absurd h hre
          · exact ((fpathFindRoute_keeps env psDroid _ _ _ _ _).2 hre1).trans hcastd

/-- Witness for C15 (amended): droid 1 is parked, droid 0 at `(640, 640)` is
sent to `(1280, 640)` and its ray is obstructed with no formation to reuse a
route from: the call returns `FPR_RESCHEDULE` for every amount of planner fuel,
droid 1 stays parked and no droid record changes. -/
theorem fpathRoute_other_unit_parked_witness :
    ∃ s', (∀ fuel, fpathRoute sampleEnv fuel 0 1280 640
            { sampleWorld with psPartialRouteDroid := some 1 } = some (FPR_RESCHEDULE, s'))
      ∧ s'.psPartialRouteDroid = some 1
      ∧ s'.clock = sampleWorld.clock
      ∧ s'.droid = sampleWorld.droid := by
  obtain ⟨r, s', hall, hs, hc, _, _, hres, hd⟩ := fpathRoute_other_unit_parked sampleEnv 0 1
    1280 640 { sampleWorld with psPartialRouteDroid := some 1 } rfl (by decide)
  have hr : r = FPR_RESCHEDULE :=
    hres.mpr ⟨by decide, (640, 640), by decide, by decide, by decide⟩
  subst hr
  exact ⟨s', hall, hs, hc, hd rfl⟩

/-- Counterexample to C16 as stated: droid 0 is parked, in `MOVEWAITROUTE`,
with `DestinationX` equal to `tX = 1280`, and calls again in a frame whose
search budget is spent.  The call returns `FPR_WAIT` with the collaborator
call counter unchanged, also without planner fuel, whereas the planner called
in `ASR_CONTINUE` mode on the parked coordinates does not return without fuel
and with fuel returns `FPR_OK` after one collaborator call: the planner is not
invoked. -/
theorem fpathRoute_resume_counterexample :
    sampleWorldParked.psPartialRouteDroid = some 0
    ∧ (sampleWorldParked.droid 0).sMove.Status = MOVEWAITROUTE
    ∧ (sampleWorldParked.droid 0).sMove.DestinationX = 1280
    ∧ (fpathRoute sampleEnvBusy 1 0 1280 640 sampleWorldParked).map
        (fun r => (r.1, r.2.clock)) = some (FPR_WAIT, sampleWorldParked.clock)
    ∧ (fpathRoute sampleEnvBusy 0 0 1280 640 sampleWorldParked).map Prod.fst = some FPR_WAIT
    ∧ (fpathGatewayRoute sampleEnvBusy 0 0 ASR_CONTINUE GWR_TER_LAND 640 640 1280 640
        { sampleWorldParked with psPartialRouteDroid := none }).map Prod.fst = none
    ∧ (fpathGatewayRoute sampleEnvBusy 1 0 ASR_CONTINUE GWR_TER_LAND 640 640 1280 640
        { sampleWorldParked with psPartialRouteDroid := none }).map
        (fun r => (r.1, r.2.clock)) = some (FPR_OK, sampleWorldParked.clock + 1) := by
  decide

/-- C16 (amended). Park and resume: if a call of `fpathRoute` for unit `u`
arrives at the planner with start and target `e` and the planner returns
`FPR_WAIT`, the call returns `FPR_WAIT`, the slot then holds `u`, the parked
coordinates are `e` and `lastPartialFrame` is the current frame number; and a
call by `u` while it holds the slot, is in `MOVEWAITROUTE` and has
`DestinationX = tX`, in a frame whose budget is not spent and with a parked
start different from the parked target, is the planner call in `ASR_CONTINUE`
mode on exactly the parked coordinates, made on the state of the call with
only the predicate installed and the slot emptied (no start repair, ray cast
or route reuse has run), followed by the verdict mapping. -/
theorem fpathRoute_park_resume (env : ENV) (fuel psDroid : Nat) (tX tY : Int) (s : WORLD) :
    (∀ gwt e s0 s1, fpathRouteHead env psDroid tX tY s = Sum.inr (gwt, e, s0) →
      plannerReached env psDroid s0 →
      fpathRoutePlannerCall env fuel psDroid gwt e s0 = some (FPR_WAIT, s1) →
        fpathRoute env fuel psDroid tX tY s
          = some (FPR_WAIT, { s1 with
              psPartialRouteDroid := some psDroid
              lastPartialFrame := env.frameGetFrameNumber
              partialSX := e.startX
              partialSY := e.startY
              partialTX := e.targetX
              partialTY := e.targetY
              fpathBlockingTile := BLOCKING_FN.Ground }))
    ∧ (s.psPartialRouteDroid = some psDroid →
        (s.droid psDroid).sMove.Status = MOVEWAITROUTE →
        (s.droid psDroid).sMove.DestinationX = tX →
        ¬ env.astarInner > env.FPATH_LOOP_LIMIT →
        ¬ (s.partialSX = s.partialTX ∧ s.partialSY = s.partialTY) →
        fpathRoute env fuel psDroid tX tY s
          = match fpathGatewayRoute env fuel psDroid ASR_CONTINUE
              (match (s.droid psDroid).propulsionType with
                | HOVER => GWR_TER_ALL
                | LIFT => GWR_TER_ALL
                | _ => GWR_TER_LAND)
              s.partialSX s.partialSY s.partialTX s.partialTY
              { fpathSetBlockingTile (s.droid psDroid).propulsionType s with
                psPartialRouteDroid := none } with
            | none => none
            | some (retVal, s1) =>
              if retVal = FPR_WAIT then
                some (FPR_WAIT, { s1 with
                  psPartialRouteDroid := some psDroid
                  lastPartialFrame := env.frameGetFrameNumber
                  partialSX := s.partialSX
                  partialSY := s.partialSY
                  partialTX := s.partialTX
                  partialTY := s.partialTY
                  fpathBlockingTile := BLOCKING_FN.Ground })
              else if retVal = FPR_FAILED ∧ env.isVtolDroid psDroid = true then
                some (FPR_OK, { s1 with
                  droid := Function.update s1.droid psDroid
                    (fpathSetDirectRoute (s1.droid psDroid) s.partialTX s.partialTY)
                  fpathBlockingTile := BLOCKING_FN.Ground })
              else
                some (retVal, { s1 with fpathBlockingTile := BLOCKING_FN.Ground })) := by
  constructor
  · intro gwt e s0 s1 hhead hreach hcall
    exact fpathRoute_of_search env fuel psDroid tX tY s gwt e s0 _ _ hhead
      (fpathRouteSearch_park env fuel psDroid gwt e s0 s1 hreach hcall)
  · intro hp hwait hdest hbudget hne
    have hsel := fpathRouteSelect_parked psDroid tX tY s hp (fun h => h.2 hdest)
    have hslot : (fpathSetBlockingTile (s.droid psDroid).propulsionType s).psPartialRouteDroid
        = some psDroid := by
      rw [fpathSetBlockingTile_shape]
      exact hp
    have hres : ∀ gwt,
        (match fpathRouteEndpoints env fuel psDroid gwt
            { startX := s.partialSX, startY := s.partialSY,
              targetX := s.partialTX, targetY := s.partialTY }
            (fpathSetBlockingTile (s.droid psDroid).propulsionType s) with
          | none => none
          | some (retVal, s2) =>
            some (retVal, { s2 with fpathBlockingTile := BLOCKING_FN.Ground }))
        = match fpathGatewayRoute env fuel psDroid ASR_CONTINUE gwt
              s.partialSX s.partialSY s.partialTX s.partialTY
              { fpathSetBlockingTile (s.droid psDroid).propulsionType s with
                psPartialRouteDroid := none } with
            | none => none
            | some (retVal, s1) =>
              if retVal = FPR_WAIT then
                some (FPR_WAIT, { s1 with
                  psPartialRouteDroid := some psDroid
                  lastPartialFrame := env.frameGetFrameNumber
                  partialSX := s.partialSX
                  partialSY := s.partialSY
                  partialTX := s.partialTX
                  partialTY := s.partialTY
                  fpathBlockingTile := BLOCKING_FN.Ground })
              else if retVal = FPR_FAILED ∧ env.isVtolDroid psDroid = true then
                some (FPR_OK, { s1 with
                  droid := Function.update s1.droid psDroid
                    (fpathSetDirectRoute (s1.droid psDroid) s.partialTX s.partialTY)
                  fpathBlockingTile := BLOCKING_FN.Ground })
              else
                some (retVal, { s1 with fpathBlockingTile := BLOCKING_FN.Ground }) := by
      intro gwt
      rw [fpathRouteEndpoints_resume env fuel psDroid gwt _ _ hslot hbudget]
      simp only
      generalize fpathGatewayRoute env fuel psDroid ASR_CONTINUE _ _ _ _ _ _ = o
      cases o with
      | none => rfl
      | some r =>
        obtain ⟨retVal, s1⟩ := r
        simp only
        split_ifs <;> rfl
    unfold fpathRoute
    simp only [hsel]
    rw [if_neg hne]
    exact hres _

/-- Witness for C16 (amended): with a tile A* that answers `ASR_PARTIAL`, the
sample droid sent to `(1280, 640)` is parked with `(640, 640, 1280, 640)` at
frame 10; and the parked droid calling again is continued with one collaborator
call and parked again. -/
theorem fpathRoute_park_resume_witness :
    (fpathRoute sampleEnvPartial 1 0 1280 640 sampleWorld).map
        (fun r => (r.1, r.2.psPartialRouteDroid, r.2.lastPartialFrame,
          r.2.partialSX, r.2.partialSY, r.2.partialTX, r.2.partialTY))
      = some (FPR_WAIT, some 0, 10, 640, 640, 1280, 640)
    ∧ (fpathRoute sampleEnvPartial 1 0 1280 640 sampleWorldParked).map
        (fun r => (r.1, r.2.psPartialRouteDroid, r.2.lastPartialFrame, r.2.clock))
      = some (FPR_WAIT, some 0, 10, 1) := by
  have hhead : fpathRouteHead sampleEnvPartial 0 1280 640 sampleWorld
      = Sum.inr (GWR_TER_LAND,
          { startX := 640, startY := 640, targetX := 1280, targetY := 640 },
          { fpathSetBlockingTile WHEELED sampleWorld with
            finalX := 1344, finalY := 704, clearX := 1344, clearY := 704
            vectorX := -704, vectorY := -64, obstruction := true }) := rfl
  constructor
  · have hsome : (fpathRoutePlannerCall sampleEnvPartial 1 0 GWR_TER_LAND
        { startX := 640, startY := 640, targetX := 1280, targetY := 640 }
        { fpathSetBlockingTile WHEELED sampleWorld with
          finalX := 1344, finalY := 704, clearX := 1344, clearY := 704
          vectorX := -704, vectorY := -64, obstruction := true }).map Prod.fst
        = some FPR_WAIT := by
      decide
    cases hr : fpathRoutePlannerCall sampleEnvPartial 1 0 GWR_TER_LAND
        { startX := 640, startY := 640, targetX := 1280, targetY := 640 }
        { fpathSetBlockingTile WHEELED sampleWorld with
          finalX := 1344, finalY := 704, clearX := 1344, clearY := 704
          vectorX := -704, vectorY := -64, obstruction := true } with
    | none =>
      rw [hr] at hsome
      cases hsome
    | some r =>
      rw [hr] at hsome
      obtain ⟨ret, s1⟩ := r
      have hret : ret = FPR_WAIT := by simpa using hsome
      subst hret
      rw [(fpathRoute_park_resume sampleEnvPartial 1 0 1280 640 sampleWorld).1 _ _ _ s1
        hhead (by decide) hr]
      rfl
  · rw [(fpathRoute_park_resume sampleEnvPartial 1 0 1280 640 sampleWorldParked).2
      rfl (by decide) (by decide) (by decide) (by decide)]
    decide

/-- C18. RESCHEDULE does not mutate the unit: for every `fpathRoute` call that
returns `FPR_RESCHEDULE`, the move control block of the calling unit (waypoint
array, `numPoints`, `DestinationX/Y`, `Status`) is the same before and after
the call; in fact no droid record changes. -/
theorem fpathRoute_reschedule_keeps_unit (env : ENV) (fuel psDroid : Nat) (tX tY : Int)
    (s s' : WORLD)
    (h : fpathRoute env fuel psDroid tX tY s = some (FPR_RESCHEDULE, s')) :
    (s'.droid psDroid).sMove = (s.droid psDroid).sMove ∧ s'.droid = s.droid := by
  have hd : s'.droid = s.droid := by
    unfold fpathRoute at h
    simp only at h
    have hsel : (fpathRouteSelect psDroid tX tY s).2.droid = s.droid := by
      unfold fpathRouteSelect
      split_ifs <;> rfl
    split_ifs at h
    · cases h
    · split at h
      · cases h
      · rename_i retVal s2 hend
        simp only [Option.some.injEq, Prod.mk.injEq] at h
        obtain ⟨hret, hst⟩ := h
        subst hret
        rw [← hst]
        have h1 := fpathRouteEndpoints_reschedule _ _ _ _ _ _ _ hend
        have h2 : (fpathSetBlockingTile
            ((fpathRouteSelect psDroid tX tY s).2.droid psDroid).propulsionType
            (fpathRouteSelect psDroid tX tY s).2).droid
            = (fpathRouteSelect psDroid tX tY s).2.droid := by
          rw [fpathSetBlockingTile_shape]
        exact (h1.trans h2).trans hsel
  exact ⟨by rw [hd], hd⟩

/-- Witness for C18: in a frame whose budget is spent the sample droid, not
parked and with an obstructed ray, gets `FPR_RESCHEDULE` and keeps its move
control block. -/
theorem fpathRoute_reschedule_keeps_unit_witness :
    ∃ s', fpathRoute sampleEnvBusy 0 0 1280 640 sampleWorld = some (FPR_RESCHEDULE, s')
      ∧ (s'.droid 0).sMove = (sampleWorld.droid 0).sMove := by
  have hsome : (fpathRoute sampleEnvBusy 0 0 1280 640 sampleWorld).map Prod.fst
      = some FPR_RESCHEDULE := by decide
  cases hr : fpathRoute sampleEnvBusy 0 0 1280 640 sampleWorld with
  | none =>
    rw [hr] at hsome
    cases hsome
  | some r =>
    rw [hr] at hsome
    obtain ⟨ret, s'⟩ := r
    have hret : ret = FPR_RESCHEDULE := by simpa using hsome
    subst hret
    exact ⟨s', rfl,
      (fpathRoute_reschedule_keeps_unit sampleEnvBusy 0 0 1280 640 sampleWorld s' hr).1⟩

/-- Counterexample to C19 as stated: droid 0 is not parked and stands on the
blocked tile `(5, 5)` with the walkable neighbour `(5, 6)`.  Sent to
`(1280, 640)` with a tile A* that finds no route, `fpathRoute` returns
`FPR_FAILED` from the planner with the move control as before; sent to its own
position it returns `FPR_FAILED` with the whole state as before. -/
theorem fpathRoute_start_repair_counterexample :
    sampleWorldBlocked.psPartialRouteDroid = none
    ∧ callBlockingTile BLOCKING_FN.Ground sampleWorldBlocked.map
        (map_coord (sampleWorldBlocked.droid 0).pos_x)
        (map_coord (sampleWorldBlocked.droid 0).pos_y) = true
    ∧ callBlockingTile BLOCKING_FN.Ground sampleWorldBlocked.map 5 6 = false
    ∧ (∃ s', fpathRoute sampleEnvNoRoute 1 0 1280 640 sampleWorldBlocked
          = some (FPR_FAILED, s')
        ∧ (s'.droid 0).sMove = (sampleWorldBlocked.droid 0).sMove)
    ∧ fpathRoute sampleEnv 1 0 640 640 sampleWorldBlocked
        = some (FPR_FAILED, sampleWorldBlocked) := by
  refine ⟨by decide, by decide, by decide, ?_, rfl⟩
  exact ⟨_, rfl, rfl⟩

/-- C19 (amended). Start repair selection: for every unit that is not parked and
whose start tile is blocked under the predicate installed for its propulsion:
no neighbour is chosen exactly when all 8 offsets are blocked; a chosen
neighbour is walkable and has the least `fpathDistToTile` distance from the
world position of the unit among the walkable ones, the lowest enumeration
index winning ties; the repaired start lies in its tile and, unless the target
is the position of the unit, it is the start from which `fpathRoute` casts the
ray to the target, looks for a route to reuse and enters the budget check and
the planner; and if none of the 8 neighbours is walkable `fpathRoute` returns
`FPR_FAILED` with every droid record, the move control included, untouched. -/
theorem fpathRoute_start_repair (env : ENV) (fuel psDroid : Nat) (tX tY : Int) (s : WORLD)
    (hslot : s.psPartialRouteDroid ≠ some psDroid)
    (hblocked : callBlockingTile
        (fpathSetBlockingTile (s.droid psDroid).propulsionType s).fpathBlockingTile s.map
        (map_coord (s.droid psDroid).pos_x) (map_coord (s.droid psDroid).pos_y) = true) :
    let blocking := callBlockingTile
      (fpathSetBlockingTile (s.droid psDroid).propulsionType s).fpathBlockingTile s.map
    let nbrX := fun d => map_coord (s.droid psDroid).pos_x + (aDirOffset d).1
    let nbrY := fun d => map_coord (s.droid psDroid).pos_y + (aDirOffset d).2
    let dist := fun d =>
      fpathDistToTile (nbrX d) (nbrY d) (s.droid psDroid).pos_x (s.droid psDroid).pos_y
    let r := startRepairScan blocking (s.droid psDroid).pos_x (s.droid psDroid).pos_y
    (r.2 = NUM_DIR ↔ ∀ d, d < NUM_DIR → blocking (nbrX d) (nbrY d) = true)
    ∧ (r.2 ≠ NUM_DIR →
        r.2 < NUM_DIR ∧ blocking (nbrX r.2) (nbrY r.2) = false ∧ r.1 = dist r.2
        ∧ (∀ d, d < NUM_DIR → blocking (nbrX d) (nbrY d) = false →
            dist r.2 < dist d ∨ (dist r.2 = dist d ∧ r.2 ≤ d))
        ∧ ∃ start, fpathRouteStartRepair blocking
              (s.droid psDroid).pos_x (s.droid psDroid).pos_y = some start
            ∧ map_coord start.1 = nbrX r.2 ∧ map_coord start.2 = nbrY r.2
            ∧ (¬ ((s.droid psDroid).pos_x = tX ∧ (s.droid psDroid).pos_y = tY) →
                let finalX := clearTileMask tX + Int.tdiv TILE_UNITS 2
                let finalY := clearTileMask tY + Int.tdiv TILE_UNITS 2
                let s1 := fpathSetBlockingTile (s.droid psDroid).propulsionType s
                let s2 := rayCast (env.rayCast start.1 start.2 finalX finalY)
                  { s1 with
                    finalX := finalX
                    finalY := finalY
                    clearX := finalX
                    clearY := finalY
                    vectorX := start.1 - finalX
                    vectorY := start.2 - finalY
                    obstruction := false }
                let target : Int × Int :=
                  if blocking (map_coord tX) (map_coord tY) = true then
                    (s2.clearX, s2.clearY)
                  else
                    (tX, tY)
                let reuse := fpathFindRoute env psDroid start.1 start.2 target.1 target.2 s2
                fpathRoute env fuel psDroid tX tY s
                  = if s2.obstruction = false then
                      some (FPR_OK, { s2 with
                        droid := Function.update s2.droid psDroid
                          (fpathSetDirectRoute (s2.droid psDroid) tX tY)
                        fpathBlockingTile := BLOCKING_FN.Ground })
                    else if reuse.1 = true then
                      some (FPR_OK, { reuse.2 with fpathBlockingTile := BLOCKING_FN.Ground })
                    else
                      match fpathRouteSearch env fuel psDroid
                          (match (s.droid psDroid).propulsionType with
                            | HOVER => GWR_TER_ALL
                            | LIFT => GWR_TER_ALL
                            | _ => GWR_TER_LAND)
                          { startX := start.1, startY := start.2,
                            targetX := target.1, targetY := target.2 }
                          reuse.2 with
                      | none => none
                      | some (retVal, s3) =>
                        some (retVal, { s3 with fpathBlockingTile := BLOCKING_FN.Ground })))
    ∧ (r.2 = NUM_DIR →
        ∃ s', fpathRoute env fuel psDroid tX tY s = some (FPR_FAILED, s')
          ∧ s'.droid = s.droid) := by
  intro blocking nbrX nbrY dist r
  have hinv := startRepairScan_inv blocking (s.droid psDroid).pos_x (s.droid psDroid).pos_y
    NUM_DIR (le_refl _)
  have hr : (List.range NUM_DIR).foldl
      (startRepairStep blocking (s.droid psDroid).pos_x (s.droid psDroid).pos_y)
      (SDWORD_MAX, NUM_DIR) = r := rfl
  rw [hr] at hinv
  refine ⟨?_, ?_, ?_⟩
  · constructor
    · intro h8
      rcases hinv with ⟨_, _, h2⟩ | ⟨h1, _⟩
      · exact h2
      · rw [h8] at h1
        exact absurd h1 (lt_irrefl _)
    · intro hall
      rcases hinv with ⟨h1, _⟩ | ⟨h1, h2, _⟩
      · exact h1
      · have := hall r.2 h1
        change blocking (nbrX r.2) (nbrY r.2) = false at h2
        rw [this] at h2
        cases h2
  · intro hne
    rcases hinv with ⟨h1, _⟩ | ⟨h1, h2, h3, h4⟩
    · exact absurd h1 hne
    · refine ⟨h1, h2, h3, ?_, ?_⟩
      · intro d hd hw
        have := h4 d hd hw
        rw [h3] at this
        exact this
      · have hrep : fpathRouteStartRepair blocking
            (s.droid psDroid).pos_x (s.droid psDroid).pos_y
            = some (world_coord (nbrX r.2) + Int.tdiv TILE_SHIFT 2,
                world_coord (nbrY r.2) + Int.tdiv TILE_SHIFT 2) := by
          unfold fpathRouteStartRepair
          rw [if_pos hblocked]
          simp only
          rw [if_neg hne]
        refine ⟨(world_coord (nbrX r.2) + Int.tdiv TILE_SHIFT 2,
          world_coord (nbrY r.2) + Int.tdiv TILE_SHIFT 2), hrep,
          map_coord_recentre _, map_coord_recentre _, ?_⟩
        intro hthere
        exact fpathRoute_from_start env fuel psDroid tX tY s _ hslot hthere hrep
  · intro h8
    have hrep : fpathRouteStartRepair blocking
        (s.droid psDroid).pos_x (s.droid psDroid).pos_y = none := by
      unfold fpathRouteStartRepair
      rw [if_pos hblocked]
      simp only
      rw [if_pos h8]
    by_cases hthere : (s.droid psDroid).pos_x = tX ∧ (s.droid psDroid).pos_y = tY
    · refine ⟨s, ?_, rfl⟩
      unfold fpathRoute
      simp only [fpathRouteSelect_free psDroid tX tY s hslot]
      rw [if_pos hthere]
    · obtain ⟨gwt, hcall⟩ := fpathRoute_free env psDroid tX tY s hslot hthere
      have hslot1 : (fpathSetBlockingTile (s.droid psDroid).propulsionType
          s).psPartialRouteDroid ≠ some psDroid := by
        rw [fpathSetBlockingTile_shape]
        exact hslot
      have hmap : (fpathSetBlockingTile (s.droid psDroid).propulsionType s).map = s.map := by
        rw [fpathSetBlockingTile_shape]
      have hend : fpathRouteEndpoints env fuel psDroid gwt
          { startX := (s.droid psDroid).pos_x, startY := (s.droid psDroid).pos_y,
            targetX := tX, targetY := tY }
          (fpathSetBlockingTile (s.droid psDroid).propulsionType s)
          = some (FPR_FAILED, fpathSetBlockingTile (s.droid psDroid).propulsionType s) := by
        unfold fpathRouteEndpoints
        rw [if_pos (Or.inr hslot1)]
        simp only [hmap]
        rw [hrep]
      refine ⟨{ fpathSetBlockingTile (s.droid psDroid).propulsionType s with
        fpathBlockingTile := BLOCKING_FN.Ground }, ?_, ?_⟩
      · rw [hcall fuel, hend]
      · simp only
        rw [fpathSetBlockingTile_shape]

/-- Witness for C19 (amended): the unit at `(640, 640)` on the blocked tile
`(5, 5)`: the scan ends with distance 128 and direction 0, the walkable
neighbour `(5, 6)`, the repaired start lies in tile `(5, 6)`, and a search that
is parked records that start. -/
theorem fpathRoute_start_repair_witness :
    startRepairScan (callBlockingTile BLOCKING_FN.Ground sampleWorldBlocked.map) 640 640
        = (128, 0)
    ∧ callBlockingTile BLOCKING_FN.Ground sampleWorldBlocked.map 5 6 = false
    ∧ ∃ start, fpathRouteStartRepair
          (callBlockingTile BLOCKING_FN.Ground sampleWorldBlocked.map) 640 640 = some start
        ∧ map_coord start.1 = 5 ∧ map_coord start.2 = 6
        ∧ ∃ s', fpathRoute sampleEnvPartial 1 0 1280 640 sampleWorldBlocked = some (FPR_WAIT, s')
            ∧ (s'.partialSX, s'.partialSY) = start := by
  obtain ⟨start, h1, h2, h3, h4⟩ := ((fpathRoute_start_repair sampleEnvPartial 1 0 1280 640
    sampleWorldBlocked (by decide) (by decide)).2.1 (by decide)).2.2.2.2
  have hst : start = (643, 771) := by
    have : fpathRouteStartRepair
        (callBlockingTile BLOCKING_FN.Ground sampleWorldBlocked.map) 640 640
        = some (643, 771) := by decide
    exact Option.some.inj (h1.symm.trans this)
  subst hst
  exact ⟨by decide, by decide, _, h1, h2, h3, _, (h4 (by decide)).trans rfl, rfl⟩

/-- C20. The start repair evaluated at the failing input: the unit at
`(640, 640)` stands on the blocked tile `(5, 5)`, the scan chooses direction 0,
tile `(5, 6)`, and the repaired start is `(643, 771)`, the tile origin plus
`TILE_SHIFT / 2 = 3`, not the tile centre `(704, 832)`; a search parked from
there records the start `(643, 771)`. -/
theorem fpathRoute_start_recentre_eval :
    callBlockingTile BLOCKING_FN.Ground sampleWorldBlocked.map 5 5 = true
    ∧ startRepairScan (callBlockingTile BLOCKING_FN.Ground sampleWorldBlocked.map) 640 640
        = (128, 0)
    ∧ aDirOffset 0 = (0, 1)
    ∧ fpathRouteStartRepair (callBlockingTile BLOCKING_FN.Ground sampleWorldBlocked.map)
        640 640 = some (643, 771)
    ∧ (world_coord 5 + Int.tdiv TILE_UNITS 2, world_coord 6 + Int.tdiv TILE_UNITS 2)
        = (704, 832)
    ∧ (fpathRoute sampleEnvPartial 1 0 1280 640 sampleWorldBlocked).map
        (fun r => (r.1, r.2.partialSX, r.2.partialSY)) = some (FPR_WAIT, 643, 771) := by
  decide

/-! ### Gateway scan and ray tracking -/

theorem tdiv_two_between (a b : Int) (h : a ≤ b) :
    a ≤ Int.tdiv (a + b) 2 ∧ Int.tdiv (a + b) 2 ≤ b := by
  by_cases hs : 0 ≤ a + b
  · rw [Int.tdiv_eq_ediv hs (by decide)]
    omega
  · have e : Int.tdiv (a + b) 2 = -(Int.tdiv (-(a + b)) 2) := by
      rw [Int.neg_tdiv, neg_neg]
    rw [e, Int.tdiv_eq_ediv (by omega) (by decide)]
    omega

theorem flatMap_cast (L : List Nat) :
    (L.flatMap fun a => [(a : Int)]) = L.map (fun (a : Nat) => (a : Int)) := by
  induction L with
  | nil => rfl
  | cons a rest ih => simp [List.flatMap_cons, ih]

theorem forRange_eq (lo hi : Int) :
    forRange lo hi = (List.range (hi + 1 - lo).toNat).map (fun (i : Nat) => lo + (i : Int)) := by
  unfold forRange
  simp [List.map_map, Function.comp_def, flatMap_cast]

theorem forRange_mem (lo hi pos : Int) : pos ∈ forRange lo hi ↔ lo ≤ pos ∧ pos ≤ hi := by
  rw [forRange_eq]
  simp only [List.mem_map, List.mem_range]
  constructor
  · rintro ⟨i, hi1, rfl⟩
    omega
  · intro h
    exact ⟨(pos - lo).toNat, by omega, by omega⟩

theorem gatewayCoords_scan (blocking : Int → Int → Bool) (mid : Int)
    (tile : Int → Int × Int) (lo : Int) :
    ∀ n : Nat, (∀ i : Nat, i < n → |lo + (i : Int) - mid| < SDWORD_MAX) →
      ((((List.range n).map (fun (i : Nat) => lo + (i : Int))).foldl
            (gatewayCoordsStep blocking mid tile) (0, 0, SDWORD_MAX)) = (0, 0, SDWORD_MAX)
        ∧ ∀ i : Nat, i < n → blocking (tile (lo + (i : Int))).1 (tile (lo + (i : Int))).2 = true)
      ∨ ∃ k : Nat, k < n
          ∧ (((List.range n).map (fun (i : Nat) => lo + (i : Int))).foldl
              (gatewayCoordsStep blocking mid tile) (0, 0, SDWORD_MAX))
            = ((tile (lo + (k : Int))).1, (tile (lo + (k : Int))).2, |lo + (k : Int) - mid|)
          ∧ blocking (tile (lo + (k : Int))).1 (tile (lo + (k : Int))).2 = false
          ∧ ∀ i : Nat, i < n →
              blocking (tile (lo + (i : Int))).1 (tile (lo + (i : Int))).2 = false →
              |lo + (k : Int) - mid| < |lo + (i : Int) - mid|
              ∨ (|lo + (k : Int) - mid| = |lo + (i : Int) - mid| ∧ k ≤ i) := by
  intro n
  induction n with
  | zero =>
    intro _
    left
    exact ⟨rfl, fun i hi => absurd hi (Nat.not_lt_zero i)⟩
  | succ n ih =>
    intro hbound
    have hprev := ih (fun i hi => hbound i (Nat.lt_succ_of_lt hi))
    have hbn := hbound n (Nat.lt_succ_self n)
    rw [List.range_succ, List.map_append, List.foldl_append]
    simp only [List.map_cons, List.map_nil, List.foldl_cons, List.foldl_nil]
    generalize ((List.range n).map (fun (i : Nat) => lo + (i : Int))).foldl
      (gatewayCoordsStep blocking mid tile) (0, 0, SDWORD_MAX) = st at hprev ⊢
    unfold gatewayCoordsStep
    cases hb : blocking (tile (lo + (n : Int))).1 (tile (lo + (n : Int))).2 with
    | true =>
      simp only [not_true_eq_false, false_and, if_false]
      rcases hprev with ⟨h1, h2⟩ | ⟨k, hk, h1, h2, h3⟩
      · left
        refine ⟨h1, fun i hi => ?_⟩
        rcases Nat.lt_succ_iff_lt_or_eq.mp hi with hlt | heq
        · exact h2 i hlt
        · rw [heq]
          exact hb
      · right
        refine ⟨k, Nat.lt_succ_of_lt hk, h1, h2, fun i hi hw => ?_⟩
        rcases Nat.lt_succ_iff_lt_or_eq.mp hi with hlt | heq
        · exact h3 i hlt hw
        · rw [heq, hb] at hw
          cases hw
    | false =>
      simp only [Bool.false_eq_true, not_false_eq_true, true_and]
      right
      rcases hprev with ⟨h1, h2⟩ | ⟨k, hk, h1, h2, h3⟩
      · rw [h1]
        simp only
        rw [if_pos hbn]
        refine ⟨n, Nat.lt_succ_self n, rfl, hb, fun i hi hw => ?_⟩
        rcases Nat.lt_succ_iff_lt_or_eq.mp hi with hlt | heq
        · rw [h2 i hlt] at hw
          cases hw
        · rw [heq]
          exact Or.inr ⟨rfl, le_refl n⟩
      · rw [h1]
        simp only
        split_ifs with hless
        · refine ⟨n, Nat.lt_succ_self n, rfl, hb, fun i hi hw => ?_⟩
          rcases Nat.lt_succ_iff_lt_or_eq.mp hi with hlt | heq
          · left
            rcases h3 i hlt hw with h5 | ⟨h5, _⟩
            · exact lt_trans hless h5
            · rw [← h5]
              exact hless
          · rw [heq]
            exact Or.inr ⟨rfl, le_refl n⟩
        · refine ⟨k, Nat.lt_succ_of_lt hk, rfl, h2, fun i hi hw => ?_⟩
          rcases Nat.lt_succ_iff_lt_or_eq.mp hi with hlt | heq
          · exact h3 i hlt hw
          · rw [heq]
            rcases lt_or_eq_of_le (not_lt.mp hless) with h5 | h5
            · exact Or.inl h5
            · exact Or.inr ⟨h5, by omega⟩

theorem gatewayCoords_scan_range (blocking : Int → Int → Bool) (mid : Int)
    (tile : Int → Int × Int) (lo hi : Int) (hlo : lo ≤ hi)
    (hb : ∀ pos, lo ≤ pos → pos ≤ hi → |pos - mid| < SDWORD_MAX) :
    (((forRange lo hi).foldl (gatewayCoordsStep blocking mid tile) (0, 0, SDWORD_MAX))
        = (0, 0, SDWORD_MAX)
      ∧ ∀ pos, lo ≤ pos → pos ≤ hi → blocking (tile pos).1 (tile pos).2 = true)
    ∨ ∃ p, lo ≤ p ∧ p ≤ hi
        ∧ ((forRange lo hi).foldl (gatewayCoordsStep blocking mid tile) (0, 0, SDWORD_MAX))
          = ((tile p).1, (tile p).2, |p - mid|)
        ∧ blocking (tile p).1 (tile p).2 = false
        ∧ ∀ pos, lo ≤ pos → pos ≤ hi → blocking (tile pos).1 (tile pos).2 = false →
            |p - mid| < |pos - mid| ∨ (|p - mid| = |pos - mid| ∧ p ≤ pos) := by
  rw [forRange_eq]
  have hidx : ∀ pos, lo ≤ pos → pos ≤ hi →
      ((pos - lo).toNat < (hi + 1 - lo).toNat ∧ lo + ((pos - lo).toNat : Int) = pos) := by
    intro pos h1 h2
    omega
  rcases gatewayCoords_scan blocking mid tile lo (hi + 1 - lo).toNat
      (fun i hi1 => hb _ (by omega) (by omega)) with ⟨h1, h2⟩ | ⟨k, hk, h1, h2, h3⟩
  · left
    refine ⟨h1, fun pos hp1 hp2 => ?_⟩
    have := h2 _ (hidx pos hp1 hp2).1
    rw [(hidx pos hp1 hp2).2] at this
    exact this
  · right
    refine ⟨lo + (k : Int), by omega, by omega, h1, h2, fun pos hp1 hp2 hw => ?_⟩
    have hi2 := hidx pos hp1 hp2
    have := h3 _ hi2.1 (by rw [hi2.2]; exact hw)
    rw [hi2.2] at this
    rcases this with h5 | ⟨h5, h6⟩
    · exact Or.inl h5
    · exact Or.inr ⟨h5, by omega⟩

theorem map_coord_centre (t : Int) :
    map_coord (t * TILE_UNITS + Int.tdiv TILE_UNITS 2) = t := by
  have h64 : Int.tdiv TILE_UNITS 2 = 64 := by decide
  rw [h64]
  unfold map_coord TILE_UNITS
  omega

theorem gatewayCoords_scan_tile (blocking : Int → Int → Bool) (mid : Int)
    (tile : Int → Int × Int) (L : List Int) :
    ∀ st0 : Int × Int × Int,
      L.foldl (gatewayCoordsStep blocking mid tile) st0 = st0
      ∨ ∃ p ∈ L, ((L.foldl (gatewayCoordsStep blocking mid tile) st0).1,
          (L.foldl (gatewayCoordsStep blocking mid tile) st0).2.1) = tile p := by
  induction L with
  | nil => intro st0; exact Or.inl rfl
  | cons q rest ih =>
    intro st0
    rw [List.foldl_cons]
    rcases ih (gatewayCoordsStep blocking mid tile st0 q) with h | ⟨p, hp, h⟩
    · rw [h]
      unfold gatewayCoordsStep
      split_ifs
      · exact Or.inr ⟨q, List.mem_cons_self q rest, rfl⟩
      · exact Or.inl rfl
    · exact Or.inr ⟨p, List.mem_cons_of_mem q hp, h⟩

theorem rayCast_track (L : List (Int × Int × Int)) :
    ∀ (s : WORLD),
      rayCast L s = rayCast (rayProcessed s.finalX s.finalY s.vectorX s.vectorY L) s
      ∧ (rayCast L s).obstruction
          = (s.obstruction
            || (rayProcessed s.finalX s.finalY s.vectorX s.vectorY L).any (fun q =>
                callBlockingTile s.fpathBlockingTile s.map (map_coord q.1) (map_coord q.2.1)))
      ∧ ((rayCast L s).clearX, (rayCast L s).clearY)
          = match ((rayProcessed s.finalX s.finalY s.vectorX s.vectorY L).filter (fun q =>
                !callBlockingTile s.fpathBlockingTile s.map
                  (map_coord q.1) (map_coord q.2.1))).getLast? with
            | none => (s.clearX, s.clearY)
            | some q => (clearTileMask q.1 + Int.tdiv TILE_UNITS 2,
                clearTileMask q.2.1 + Int.tdiv TILE_UNITS 2) := by
  induction L with
  | nil =>
    intro s
    simp [rayCast, rayProcessed]
  | cons p rest ih =>
    intro s
    by_cases hpast : (p.1 - s.finalX) * s.vectorX + (p.2.1 - s.finalY) * s.vectorY ≤ 0
    · have hP : rayProcessed s.finalX s.finalY s.vectorX s.vectorY (p :: rest) = [] := by
        unfold rayProcessed
        rw [List.takeWhile_cons]
        simp [hpast]
      rw [hP, rayCast_cons, fpathEndPointCallback_past s _ _ _ hpast]
      simp [rayCast]
    · have hP : rayProcessed s.finalX s.finalY s.vectorX s.vectorY (p :: rest)
          = p :: rayProcessed s.finalX s.finalY s.vectorX s.vectorY rest := by
        unfold rayProcessed
        rw [List.takeWhile_cons]
        simp [hpast]
      rw [hP]
      cases hb : callBlockingTile s.fpathBlockingTile s.map (map_coord p.1) (map_coord p.2.1) with
      | false =>
        have hcb := fpathEndPointCallback_walkable s p.1 p.2.1 p.2.2 hpast hb
        rw [rayCast_cons, rayCast_cons, hcb]
        simp only [if_true]
        obtain ⟨h1, h2, h3⟩ := ih { s with
          clearX := clearTileMask p.1 + Int.tdiv TILE_UNITS 2
          clearY := clearTileMask p.2.1 + Int.tdiv TILE_UNITS 2 }
        refine ⟨h1, ?_, ?_⟩
        · rw [h2]
          simp [hb]
        · rw [h3]
          simp only [List.filter_cons, hb, Bool.not_false, if_true, List.getLast?_cons]
          cases ((rayProcessed s.finalX s.finalY s.vectorX s.vectorY rest).filter (fun q =>
                !callBlockingTile s.fpathBlockingTile s.map
                  (map_coord q.1) (map_coord q.2.1))).getLast? <;> rfl
      | true =>
        have hcb := fpathEndPointCallback_blocked s p.1 p.2.1 p.2.2 hpast hb
        rw [rayCast_cons, rayCast_cons, hcb]
        simp only [if_true]
        obtain ⟨h1, h2, h3⟩ := ih { s with obstruction := true }
        refine ⟨h1, ?_, ?_⟩
        · rw [h2]
          simp [hb]
        · rw [h3]
          simp only [List.filter_cons, hb, Bool.not_true, Bool.false_eq_true, if_false]

/-! ### Crossing point, route reuse and overlay sets -/

/-- C21. Gateway crossing point: for every gateway with `x1 <= x2` and
`y1 <= y2`, of an extent below `SDWORD_MAX`, and every blocking predicate:
when `x1 == x2` and some tile of the column `x1`, `y1..y2` is walkable,
`fpathGatewayCoords` returns the world centre of the walkable tile of that
column whose `y` is closest to the midpoint `(y1 + y2) / 2`, the lowest `y`
winning ties; otherwise the same holds along the row `y1`, `x1..x2` with the
midpoint `(x1 + x2) / 2`; and when no tile scanned is walkable it returns the
world centre of the midpoint tile `((x1 + x2) / 2, (y1 + y2) / 2)`. -/
theorem fpathGatewayCoords_nearest (blocking : Int → Int → Bool) (psGate : GATEWAY)
    (hx : psGate.x1 ≤ psGate.x2) (hy : psGate.y1 ≤ psGate.y2)
    (hxr : psGate.x2 - psGate.x1 < SDWORD_MAX) (hyr : psGate.y2 - psGate.y1 < SDWORD_MAX) :
    (psGate.x1 = psGate.x2 →
      ((∃ y, psGate.y1 ≤ y ∧ y ≤ psGate.y2 ∧ blocking psGate.x1 y = false) →
        ∃ y, psGate.y1 ≤ y ∧ y ≤ psGate.y2 ∧ blocking psGate.x1 y = false
          ∧ (∀ y', psGate.y1 ≤ y' → y' ≤ psGate.y2 → blocking psGate.x1 y' = false →
              |y - Int.tdiv (psGate.y1 + psGate.y2) 2|
                  < |y' - Int.tdiv (psGate.y1 + psGate.y2) 2|
              ∨ (|y - Int.tdiv (psGate.y1 + psGate.y2) 2|
                  = |y' - Int.tdiv (psGate.y1 + psGate.y2) 2| ∧ y ≤ y'))
          ∧ fpathGatewayCoords blocking psGate
              = (psGate.x1 * TILE_UNITS + Int.tdiv TILE_UNITS 2,
                 y * TILE_UNITS + Int.tdiv TILE_UNITS 2))
      ∧ ((∀ y, psGate.y1 ≤ y → y ≤ psGate.y2 → blocking psGate.x1 y = true) →
        fpathGatewayCoords blocking psGate
          = (Int.tdiv (psGate.x1 + psGate.x2) 2 * TILE_UNITS + Int.tdiv TILE_UNITS 2,
             Int.tdiv (psGate.y1 + psGate.y2) 2 * TILE_UNITS + Int.tdiv TILE_UNITS 2)))
    ∧ (psGate.x1 ≠ psGate.x2 →
      ((∃ x, psGate.x1 ≤ x ∧ x ≤ psGate.x2 ∧ blocking x psGate.y1 = false) →
        ∃ x, psGate.x1 ≤ x ∧ x ≤ psGate.x2 ∧ blocking x psGate.y1 = false
          ∧ (∀ x', psGate.x1 ≤ x' → x' ≤ psGate.x2 → blocking x' psGate.y1 = false →
              |x - Int.tdiv (psGate.x1 + psGate.x2) 2|
                  < |x' - Int.tdiv (psGate.x1 + psGate.x2) 2|
              ∨ (|x - Int.tdiv (psGate.x1 + psGate.x2) 2|
                  = |x' - Int.tdiv (psGate.x1 + psGate.x2) 2| ∧ x ≤ x'))
          ∧ fpathGatewayCoords blocking psGate
              = (x * TILE_UNITS + Int.tdiv TILE_UNITS 2,
                 psGate.y1 * TILE_UNITS + Int.tdiv TILE_UNITS 2))
      ∧ ((∀ x, psGate.x1 ≤ x → x ≤ psGate.x2 → blocking x psGate.y1 = true) →
        fpathGatewayCoords blocking psGate
          = (Int.tdiv (psGate.x1 + psGate.x2) 2 * TILE_UNITS + Int.tdiv TILE_UNITS 2,
             Int.tdiv (psGate.y1 + psGate.y2) 2 * TILE_UNITS + Int.tdiv TILE_UNITS 2))) := by
  have hmx := tdiv_two_between psGate.x1 psGate.x2 hx
  have hmy := tdiv_two_between psGate.y1 psGate.y2 hy
  have hbx : ∀ pos, psGate.x1 ≤ pos → pos ≤ psGate.x2 →
      |pos - Int.tdiv (psGate.x1 + psGate.x2) 2| < SDWORD_MAX := by
    intro pos h1 h2
    rw [abs_lt]
    constructor <;> omega
  have hby : ∀ pos, psGate.y1 ≤ pos → pos ≤ psGate.y2 →
      |pos - Int.tdiv (psGate.y1 + psGate.y2) 2| < SDWORD_MAX := by
    intro pos h1 h2
    rw [abs_lt]
    constructor <;> omega
  constructor
  · intro heq
    have hscan := gatewayCoords_scan_range blocking (Int.tdiv (psGate.y1 + psGate.y2) 2)
      (fun pos => (psGate.x1, pos)) psGate.y1 psGate.y2 hy hby
    constructor
    · rintro ⟨y0, hy1, hy2, hw0⟩
      rcases hscan with ⟨_, h2⟩ | ⟨p, hp1, hp2, h1, h2, h3⟩
      · have := h2 y0 hy1 hy2
        simp only at this
        rw [this] at hw0
        cases hw0
      · refine ⟨p, hp1, hp2, h2, h3, ?_⟩
        unfold fpathGatewayCoords
        simp only
        rw [if_pos heq, h1]
        simp only
        rw [if_neg (ne_of_lt (hby p hp1 hp2))]
    · intro hall
      rcases hscan with ⟨h1, _⟩ | ⟨p, hp1, hp2, _, h2, _⟩
      · unfold fpathGatewayCoords
        simp only
        rw [if_pos heq, h1]
        simp only [if_true]
      · have := hall p hp1 hp2
        simp only at h2
        rw [this] at h2
        cases h2
  · intro hne
    have hscan := gatewayCoords_scan_range blocking (Int.tdiv (psGate.x1 + psGate.x2) 2)
      (fun pos => (pos, psGate.y1)) psGate.x1 psGate.x2 hx hbx
    constructor
    · rintro ⟨x0, hx1, hx2, hw0⟩
      rcases hscan with ⟨_, h2⟩ | ⟨p, hp1, hp2, h1, h2, h3⟩
      · have := h2 x0 hx1 hx2
        simp only at this
        rw [this] at hw0
        cases hw0
      · refine ⟨p, hp1, hp2, h2, h3, ?_⟩
        unfold fpathGatewayCoords
        simp only
        rw [if_neg hne, h1]
        simp only
        rw [if_neg (ne_of_lt (hbx p hp1 hp2))]
    · intro hall
      rcases hscan with ⟨h1, _⟩ | ⟨p, hp1, hp2, _, h2, _⟩
      · unfold fpathGatewayCoords
        simp only
        rw [if_neg hne, h1]
        simp only [if_true]
      · have := hall p hp1 hp2
        simp only at h2
        rw [this] at h2
        cases h2

/-- Witness for C21: the gateway `x1 = x2 = 15`, `y = 3..7` with every tile
walkable: the crossing point is `(1984, 704)`, the centre of tile `(15, 5)`. -/
theorem fpathGatewayCoords_nearest_witness :
    fpathGatewayCoords (fun _ _ => false) (sampleGw 0) = (1984, 704)
    ∧ ∃ y, (sampleGw 0).y1 ≤ y ∧ y ≤ (sampleGw 0).y2
        ∧ (∀ y', (sampleGw 0).y1 ≤ y' → y' ≤ (sampleGw 0).y2 → (fun _ _ => false) (sampleGw 0).x1 y' = false →
            |y - Int.tdiv ((sampleGw 0).y1 + (sampleGw 0).y2) 2|
                < |y' - Int.tdiv ((sampleGw 0).y1 + (sampleGw 0).y2) 2|
            ∨ (|y - Int.tdiv ((sampleGw 0).y1 + (sampleGw 0).y2) 2|
                = |y' - Int.tdiv ((sampleGw 0).y1 + (sampleGw 0).y2) 2| ∧ y ≤ y'))
        ∧ fpathGatewayCoords (fun _ _ => false) (sampleGw 0)
            = ((sampleGw 0).x1 * TILE_UNITS + Int.tdiv TILE_UNITS 2,
               y * TILE_UNITS + Int.tdiv TILE_UNITS 2) := by
  obtain ⟨y, h1, h2, _, h4, h5⟩ :=
    ((fpathGatewayCoords_nearest (fun _ _ => false) (sampleGw 0) (by decide) (by decide)
      (by decide) (by decide)).1 (by decide)).1 ⟨3, by decide, by decide, rfl⟩
  exact ⟨by decide, y, h1, h2, h4, h5⟩

/-- C22. The route reuse evaluated at the failing input: droid 1, of the
formation found at the target, holds the three waypoints `(100, 100)`,
`(200, 200)`, `(201, 200)` and its first separating index is 1; droid 0 holds
the old waypoint `(9, 5)` at index 0.  `fpathFindRoute` succeeds, and droid 0
then has `numPoints = 3` with `(9, 5)` still at index 0 and the copied
waypoints at the indices 1 and 2, not the suffix of two waypoints from index
0. -/
theorem fpathFindRoute_suffix_eval :
    sampleEnvFormation.formationFind 1280 640 = (sampleWorldTeam.droid 1).sMove.psFormation
    ∧ (sampleWorldTeam.droid 1).sMove.numPoints = 3
    ∧ fpathFindFirstRoutePoint (sampleWorldTeam.droid 1).sMove 640 640
        (sampleWorldTeam.droid 1).pos_x (sampleWorldTeam.droid 1).pos_y = (true, 1)
    ∧ (sampleWorldTeam.droid 0).sMove.asPath 0 = { x := 9, y := 5 }
    ∧ (fpathFindRoute sampleEnvFormation 0 640 640 1280 640 sampleWorldTeam).1 = true
    ∧ ((fpathFindRoute sampleEnvFormation 0 640 640 1280 640 sampleWorldTeam).2.droid
        0).sMove.numPoints = 3
    ∧ ((fpathFindRoute sampleEnvFormation 0 640 640 1280 640 sampleWorldTeam).2.droid
        0).sMove.asPath 0 = { x := 9, y := 5 }
    ∧ ((fpathFindRoute sampleEnvFormation 0 640 640 1280 640 sampleWorldTeam).2.droid
        0).sMove.asPath 1 = { x := 200, y := 200 }
    ∧ ((fpathFindRoute sampleEnvFormation 0 640 640 1280 640 sampleWorldTeam).2.droid
        0).sMove.asPath 2 = { x := 201, y := 200 } := by
  decide

/-- Counterexample to C23 as stated: with the sample gateways, zone 1 and
`psLast` gateway 0 (the column `x = 15`, `y = 3..7`), the set routine leaves the
`FPATHBLOCK` bit of the gateway tile `(15, 5)` clear on a clean map, while the
clear routine resets that bit on a map where it is set; the ring tile
`(14, 5)` is set by the set routine. -/
theorem gateway_clear_mirrors_set_counterexample :
    (mapTile (fpathSetGatewayBlock sampleZone sampleGw [0, 1] 1 (some 0) none sampleMap)
        15 5).fpathBlock = false
    ∧ (mapTile sampleMapBlocked 15 5).fpathBlock = true
    ∧ (mapTile (fpathClearGatewayBlock sampleZone sampleGw [0, 1] 1 (some 0) none
        sampleMapBlocked) 15 5).fpathBlock = false
    ∧ (mapTile (fpathSetGatewayBlock sampleZone sampleGw [0, 1] 1 (some 0) none sampleMap)
        14 5).fpathBlock = true := by
  decide

/-- C23 (amended). Clear covers set: for every gateway list, zone, `psLast` and
`psNext`, the set routine forces the `FPATHBLOCK` bit of exactly the tiles of
`gatewayBlockSetTile` and the clear routine resets the bit of exactly the tiles
of `gatewayBlockClearTile`, each leaving every other tile untouched; every
tile of the first set is in the second; and the second set is the first one
together with the segment tiles of `psLast` and `psNext` when these are
gateways of the list without water link whose `zone1` or `zone2` is `zone`:
the clear routine has no exclusion of `psLast` and `psNext` in its sweep. -/
theorem gateway_clear_covers_set (gwGetZone : Int → Int → Int) (gw : Nat → GATEWAY)
    (psGateways : List Nat) (zone : Int) (psLast psNext : Option Nat) (m : MAP) (x y : Int) :
    OverlayStage true (gatewayBlockSetTile gwGetZone gw psGateways zone psLast psNext m x y)
      m (fpathSetGatewayBlock gwGetZone gw psGateways zone psLast psNext m) x y
    ∧ OverlayStage false
      (gatewayBlockClearTile gwGetZone gw psGateways zone psLast psNext m x y)
      m (fpathClearGatewayBlock gwGetZone gw psGateways zone psLast psNext m) x y
    ∧ (gatewayBlockSetTile gwGetZone gw psGateways zone psLast psNext m x y →
        gatewayBlockClearTile gwGetZone gw psGateways zone psLast psNext m x y)
    ∧ (gatewayBlockClearTile gwGetZone gw psGateways zone psLast psNext m x y
        ↔ (gatewayBlockSetTile gwGetZone gw psGateways zone psLast psNext m x y
          ∨ ∃ p ∈ psGateways, (some p = psLast ∨ some p = psNext)
              ∧ ¬ (gw p).GWR_WATERLINK = true
              ∧ ((gw p).zone1 = zone ∨ (gw p).zone2 = zone)
              ∧ (x, y) ∈ gatewaySegmentTiles (gw p))) := by
  have hsub : gatewayBlockSetTile gwGetZone gw psGateways zone psLast psNext m x y →
      gatewayBlockClearTile gwGetZone gw psGateways zone psLast psNext m x y := by
    intro hS
    rcases hS with (⟨p, hp, hc1, hc2⟩ | h) | h
    · exact Or.inl (Or.inl ⟨p, hp, ⟨hc1.2.2.1, hc1.2.2.2⟩, hc2⟩)
    · exact Or.inl (Or.inr h)
    · exact Or.inr h
  refine ⟨fpathSetGatewayBlock_stage gwGetZone gw psGateways zone psLast psNext m x y,
    fpathClearGatewayBlock_stage gwGetZone gw psGateways zone psLast psNext m x y,
    hsub, ?_⟩
  constructor
  · intro hC
    rcases hC with (⟨p, hp, hc1, hc2⟩ | h) | h
    · by_cases hl : some p = psLast
      · exact Or.inr ⟨p, hp, Or.inl hl, hc1.1, hc1.2, hc2⟩
      · by_cases hn : some p = psNext
        · exact Or.inr ⟨p, hp, Or.inr hn, hc1.1, hc1.2, hc2⟩
        · exact Or.inl (Or.inl (Or.inl ⟨p, hp, ⟨hl, hn, hc1.1, hc1.2⟩, hc2⟩))
    · exact Or.inl (Or.inl (Or.inr h))
    · exact Or.inl (Or.inr h)
  · intro h
    rcases h with hS | ⟨p, hp, _, hw, hz, ht⟩
    · exact hsub hS
    · exact Or.inl (Or.inl ⟨p, hp, ⟨hw, hz⟩, ht⟩)

/-- Witness for C23 (amended): the ring tile `(14, 5)` next to gateway 0 is
selected by the set routine and hence by the clear routine. -/
theorem gateway_clear_covers_set_witness :
    gatewayBlockSetTile sampleZone sampleGw [0, 1] 1 (some 0) none sampleMap 14 5
    ∧ gatewayBlockClearTile sampleZone sampleGw [0, 1] 1 (some 0) none sampleMap 14 5 := by
  have hS : gatewayBlockSetTile sampleZone sampleGw [0, 1] 1 (some 0) none sampleMap 14 5 :=
    Or.inl (Or.inr ⟨0, rfl, by decide⟩)
  exact ⟨hS, (gateway_clear_covers_set sampleZone sampleGw [0, 1] 1 (some 0) none sampleMap
    14 5).2.2.1 hS⟩

/-- C24. Last-clear tracking: starting with `obstruction = false`, for every
sequence of ray samples fed to `fpathEndPointCallback` in order: the callback
asks to stop exactly on a sample `q` with `(q - final) . vector <= 0` and
leaves the state untouched for it, so the samples processed are those before
the first such sample; `obstruction` ends true if and only if one of the
processed samples lies in a blocked tile; and `clear` ends as the world centre
of the tile of the last processed sample that lies in a walkable tile, or as
the initial `clear` if there is none. -/
theorem rayCast_last_clear (L : List (Int × Int × Int)) (s : WORLD)
    (hobs : s.obstruction = false) :
    (∀ x y d, (fpathEndPointCallback s x y d).1 = false
        ↔ (x - s.finalX) * s.vectorX + (y - s.finalY) * s.vectorY ≤ 0)
    ∧ (∀ x y d, (x - s.finalX) * s.vectorX + (y - s.finalY) * s.vectorY ≤ 0 →
        (fpathEndPointCallback s x y d).2 = s)
    ∧ rayCast L s = rayCast (rayProcessed s.finalX s.finalY s.vectorX s.vectorY L) s
    ∧ ((rayCast L s).obstruction = true
        ↔ ∃ q ∈ rayProcessed s.finalX s.finalY s.vectorX s.vectorY L,
            callBlockingTile s.fpathBlockingTile s.map (map_coord q.1) (map_coord q.2.1)
              = true)
    ∧ ((rayCast L s).clearX, (rayCast L s).clearY)
        = match ((rayProcessed s.finalX s.finalY s.vectorX s.vectorY L).filter (fun q =>
              !callBlockingTile s.fpathBlockingTile s.map
                (map_coord q.1) (map_coord q.2.1))).getLast? with
          | none => (s.clearX, s.clearY)
          | some q => (clearTileMask q.1 + Int.tdiv TILE_UNITS 2,
              clearTileMask q.2.1 + Int.tdiv TILE_UNITS 2) := by
  obtain ⟨h1, h2, h3⟩ := rayCast_track L s
  refine ⟨?_, ?_, h1, ?_, h3⟩
  · intro x y d
    constructor
    · intro hf
      by_contra hpast
      cases hb : callBlockingTile s.fpathBlockingTile s.map (map_coord x) (map_coord y) with
      | false =>
        rw [fpathEndPointCallback_walkable s x y d hpast hb] at hf
        cases hf
      | true =>
        rw [fpathEndPointCallback_blocked s x y d hpast hb] at hf
        cases hf
    · intro hpast
      rw [fpathEndPointCallback_past s x y d hpast]
  · intro x y d hpast
    rw [fpathEndPointCallback_past s x y d hpast]
  · rw [h2, hobs]
    simp

/-- Witness for C24: the ray of the sample droid towards the blocked target tile
`(10, 5)`: the last walkable sample lies in tile `(9, 5)`, `obstruction` is
set and `clear` is `(1216, 704)`, which `fpathRoute` takes as the target. -/
theorem rayCast_last_clear_witness :
    (rayCast (sampleEnvClear.rayCast 640 640 1344 704)
        { fpathSetBlockingTile WHEELED sampleWorldTarget with
          finalX := 1344, finalY := 704, clearX := 1344, clearY := 704
          vectorX := 640 - 1344, vectorY := 640 - 704, obstruction := false }).obstruction
      = true
    ∧ ((rayCast (sampleEnvClear.rayCast 640 640 1344 704)
        { fpathSetBlockingTile WHEELED sampleWorldTarget with
          finalX := 1344, finalY := 704, clearX := 1344, clearY := 704
          vectorX := 640 - 1344, vectorY := 640 - 704, obstruction := false }).clearX,
       (rayCast (sampleEnvClear.rayCast 640 640 1344 704)
        { fpathSetBlockingTile WHEELED sampleWorldTarget with
          finalX := 1344, finalY := 704, clearX := 1344, clearY := 704
          vectorX := 640 - 1344, vectorY := 640 - 704, obstruction := false }).clearY)
      = (1216, 704)
    ∧ (fpathRouteHead sampleEnvClear 0 1280 640 sampleWorldTarget).elim (fun _ => none)
        (fun r => some (r.2.1.targetX, r.2.1.targetY)) = some (1216, 704) := by
  have h := rayCast_last_clear (sampleEnvClear.rayCast 640 640 1344 704)
    { fpathSetBlockingTile WHEELED sampleWorldTarget with
      finalX := 1344, finalY := 704, clearX := 1344, clearY := 704
      vectorX := 640 - 1344, vectorY := 640 - 704, obstruction := false } rfl
  refine ⟨h.2.2.2.1.mpr ⟨(1280, 698, 640), by decide, by decide⟩, ?_, by decide⟩
  rw [h.2.2.2.2]
  decide

/-- C25. Start-repair assertion validity: for every start world position with
non-negative coordinates and each of the 8 neighbour offsets, the condition
`xdiff != 0 || ydiff != 0` asserted by `fpathDistToTile` holds for the call
`fpathDistToTile(map_coord(startX) + dx, map_coord(startY) + dy, startX,
startY)` made by the start repair. -/
theorem fpathDistToTile_assert_holds (startX startY : Int) (_hx : 0 ≤ startX)
    (_hy : 0 ≤ startY) (dir : Nat) (hdir : dir < NUM_DIR) :
    fpathDistToTileAssert (map_coord startX + (aDirOffset dir).1)
      (map_coord startY + (aDirOffset dir).2) startX startY = true := by
  unfold fpathDistToTileAssert world_coord map_coord TILE_UNITS
  simp only [decide_eq_true_eq]
  unfold NUM_DIR at hdir
  interval_cases dir <;> simp only [aDirOffset] <;> omega

/-- Witness for C25: the start `(640, 640)`, a tile origin, with direction 0. -/
theorem fpathDistToTile_assert_holds_witness :
    fpathDistToTileAssert (map_coord 640 + (aDirOffset 0).1)
      (map_coord 640 + (aDirOffset 0).2) 640 640 = true :=
  fpathDistToTile_assert_holds 640 640 (by decide) (by decide) 0 (by decide)

/-- C26. Crossing point stays on the gateway: for every gateway with
`0 <= x1 <= x2` and `0 <= y1 <= y2` and every blocking predicate, the world
point returned by `fpathGatewayCoords` satisfies `fpathPointInGateway` for
that gateway. -/
theorem fpathGatewayCoords_in_gateway (blocking : Int → Int → Bool) (psGate : GATEWAY)
    (_hx0 : 0 ≤ psGate.x1) (hx : psGate.x1 ≤ psGate.x2)
    (_hy0 : 0 ≤ psGate.y1) (hy : psGate.y1 ≤ psGate.y2) :
    fpathPointInGateway (fpathGatewayCoords blocking psGate).1
      (fpathGatewayCoords blocking psGate).2 psGate = true := by
  have hmx := tdiv_two_between psGate.x1 psGate.x2 hx
  have hmy := tdiv_two_between psGate.y1 psGate.y2 hy
  have key : ∀ xy : Int × Int,
      (psGate.x1 ≤ xy.1 ∧ xy.1 ≤ psGate.x2 ∧ psGate.y1 ≤ xy.2 ∧ xy.2 ≤ psGate.y2) →
      fpathPointInGateway (xy.1 * TILE_UNITS + Int.tdiv TILE_UNITS 2)
        (xy.2 * TILE_UNITS + Int.tdiv TILE_UNITS 2) psGate = true := by
    intro xy h
    unfold fpathPointInGateway
    simp only [map_coord_centre]
    rw [if_pos ⟨h.1, h.2.1, h.2.2.1, h.2.2.2⟩]
  unfold fpathGatewayCoords
  simp only
  apply key
  by_cases heq : psGate.x1 = psGate.x2
  · simp only [if_pos heq]
    rcases gatewayCoords_scan_tile blocking (Int.tdiv (psGate.y1 + psGate.y2) 2)
        (fun pos => (psGate.x1, pos)) (forRange psGate.y1 psGate.y2) (0, 0, SDWORD_MAX)
      with h | ⟨p, hp, h⟩
    · rw [h]
      simp only [if_true]
      exact ⟨hmx.1, hmx.2, hmy.1, hmy.2⟩
    · have hm := (forRange_mem _ _ _).mp hp
      generalize (forRange psGate.y1 psGate.y2).foldl
        (gatewayCoordsStep blocking (Int.tdiv (psGate.y1 + psGate.y2) 2)
          (fun pos => (psGate.x1, pos))) (0, 0, SDWORD_MAX) = st at h ⊢
      by_cases hs : st.2.2 = SDWORD_MAX
      · rw [if_pos hs]
        exact ⟨hmx.1, hmx.2, hmy.1, hmy.2⟩
      · rw [if_neg hs, h]
        exact ⟨le_refl _, hx, hm.1, hm.2⟩
  · simp only [if_neg heq]
    rcases gatewayCoords_scan_tile blocking (Int.tdiv (psGate.x1 + psGate.x2) 2)
        (fun pos => (pos, psGate.y1)) (forRange psGate.x1 psGate.x2) (0, 0, SDWORD_MAX)
      with h | ⟨p, hp, h⟩
    · rw [h]
      simp only [if_true]
      exact ⟨hmx.1, hmx.2, hmy.1, hmy.2⟩
    · have hm := (forRange_mem _ _ _).mp hp
      generalize (forRange psGate.x1 psGate.x2).foldl
        (gatewayCoordsStep blocking (Int.tdiv (psGate.x1 + psGate.x2) 2)
          (fun pos => (pos, psGate.y1))) (0, 0, SDWORD_MAX) = st at h ⊢
      by_cases hs : st.2.2 = SDWORD_MAX
      · rw [if_pos hs]
        exact ⟨hmx.1, hmx.2, hmy.1, hmy.2⟩
      · rw [if_neg hs, h]
        exact ⟨hm.1, hm.2, le_refl _, hy⟩

/-- Witness for C26: the sample gateway 0 under a predicate that blocks every
tile: the midpoint fallback `(1984, 704)` lies in the gateway. -/
theorem fpathGatewayCoords_in_gateway_witness :
    fpathPointInGateway (fpathGatewayCoords (fun _ _ => true) (sampleGw 0)).1
        (fpathGatewayCoords (fun _ _ => true) (sampleGw 0)).2 (sampleGw 0) = true
    ∧ fpathGatewayCoords (fun _ _ => true) (sampleGw 0) = (1984, 704) :=
  ⟨fpathGatewayCoords_in_gateway (fun _ _ => true) (sampleGw 0) (by decide) (by decide)
    (by decide) (by decide), by decide⟩

end Fpath
